import Mathlib

/-!
# rguplayer: scene graph ordering and frame compositor

A shallow embedding of `content/script/drawable.cc`, `content/public/graphics.cc`
and the flag handling of `content/worker/binding_worker.cc`, together with the
properties of the specification that were checked against it.

Objects are referred to by their address (a natural number); `nullptr` is `none`.
-/

namespace content

/-! ## Scene graph (`content/script/drawable.cc`) -/

/-- The data members of a `Drawable` that `drawable.cc` reads and writes:
`parent_` (the back-reference, `none` for `nullptr`), `z_` and `visible_`.
`disposed` is the condition `CheckDisposed()` tests. -/
structure Drawable where
  parent_ : Option Nat
  z_ : Int
  visible_ : Bool
  disposed : Bool
deriving DecidableEq, Repr

/-- Modelled from the spec: `base::LinkedList::Append` (the list header is not among the
sources). The node "becomes the tail" of the ordered collection. -/
def LinkedList.Append (drawables_ : List Nat) (node : Nat) : List Nat :=
  drawables_ ++ [node]

/-- Modelled from the spec: `base::LinkNode::InsertBefore` (the list header is not among the
sources). For `it->InsertBefore(drawable)` with `it` the first node of `rest_from_it`, the new
node is linked "immediately before" `it`. -/
def LinkNode.InsertBefore (rest_from_it : List Nat) (drawable : Nat) : List Nat :=
  drawable :: rest_from_it

/-- Modelled from the spec: `base::LinkNode::RemoveFromList` (the list header is not among the
sources). The node is unlinked from the collection that holds it; a collection that does not
hold it is left as it is. -/
def LinkNode.RemoveFromList (drawables_ : List Nat) (node : Nat) : List Nat :=
  drawables_.erase node

/-- `DrawableParent::InsertDrawable`: scan from the head; at the first node `it` with
`it->z_ < drawable->z_` link the new node before it and return; when the scan reaches the end,
append. `z_` reads the `z_` member of a node. -/
def DrawableParent.InsertDrawable (z_ : Nat → Int) (drawable : Nat) : List Nat → List Nat
  | [] => LinkedList.Append [] drawable
  | it :: rest =>
    if z_ it < z_ drawable then LinkNode.InsertBefore (it :: rest) drawable
    else it :: DrawableParent.InsertDrawable z_ drawable rest

/-- The collection is in non-increasing `z` order from head to tail. -/
def ZOrdered (z_ : Nat → Int) (drawables_ : List Nat) : Prop :=
  drawables_.Pairwise (fun a b => z_ b ≤ z_ a)

instance (z_ : Nat → Int) (l : List Nat) : Decidable (ZOrdered z_ l) := by
  unfold ZOrdered; infer_instance

/-- The state of the scene graph: the live `Drawable` objects by address, and for each
`DrawableParent` (by address) its ordered collection `drawables_`, head first. -/
structure Scene where
  objs : Nat → Option Drawable
  drawables_ : Nat → List Nat

/-- Reads `node->z_` (0 when no object lives at that address). -/
def Scene.z_ (s : Scene) (node : Nat) : Int :=
  match s.objs node with
  | some o => o.z_
  | none => 0

/-- No `Drawable` constructed yet; every parent's collection is empty. -/
def Scene.empty : Scene := ⟨fun _ => none, fun _ => []⟩

/-- The call `this->RemoveFromList()` of a `Drawable`: the intrusive node unlinks itself from
the collection it is linked into. -/
def Scene.RemoveFromList (s : Scene) (node : Nat) : Scene :=
  { s with drawables_ := fun p => LinkNode.RemoveFromList (s.drawables_ p) node }

/-- The call `parent->InsertDrawable(drawable)` on the scene state. -/
def Scene.InsertDrawable (s : Scene) (parent drawable : Nat) : Scene :=
  { s with
    drawables_ :=
      Function.update s.drawables_ parent
        (DrawableParent.InsertDrawable s.z_ drawable (s.drawables_ parent)) }

/-- Writes the members of the object at address `node`. -/
def Scene.store (s : Scene) (node : Nat) (o : Option Drawable) : Scene :=
  { s with objs := Function.update s.objs node o }

/-- `Drawable::Drawable(parent, z, visible)` for an object constructed at address `self`:
initialises the members and calls `parent_->InsertDrawable(this)`. -/
def Drawable.ctor (s : Scene) (self parent : Nat) (z : Int) (visible : Bool) : Scene :=
  (s.store self (some ⟨some parent, z, visible, false⟩)).InsertDrawable parent self

/-- `Drawable::~Drawable()`: `if (parent_) RemoveFromList();`, after which the object is gone. -/
def Drawable.dtor (s : Scene) (self : Nat) : Scene :=
  match s.objs self with
  | none => s
  | some o =>
    let s1 := if o.parent_.isSome then s.RemoveFromList self else s
    s1.store self none

/-- `Drawable::SetParent(parent)`; `none` when there is no such object or `CheckDisposed()`
raises. The closing `OnViewportRectChanged` call is a notification to the object itself and
does not touch the members modelled here. -/
def Drawable.SetParent (s : Scene) (self parent : Nat) : Option Scene :=
  match s.objs self with
  | none => none
  | some o =>
    if o.disposed then none
    else
      let s1 := if o.parent_.isSome then s.RemoveFromList self else s
      let s2 := s1.store self (some { o with parent_ := some parent })
      some (s2.InsertDrawable parent self)

/-- `Drawable::SetZ(z)`; `none` when there is no such object or `CheckDisposed()` raises. -/
def Drawable.SetZ (s : Scene) (self : Nat) (z : Int) : Option Scene :=
  match s.objs self with
  | none => none
  | some o =>
    if o.disposed then none
    else
      match o.parent_ with
      | none => some s
      | some parent =>
        if o.z_ = z then some s
        else
          let s1 := s.store self (some { o with z_ := z })
          let s2 := s1.RemoveFromList self
          some (s2.InsertDrawable parent self)

/-- One operation of the binding layer on the scene graph. -/
inductive Scene.Step : Scene → Scene → Prop
  | construct (s : Scene) (self parent : Nat) (z : Int) (visible : Bool) :
      s.objs self = none → Scene.Step s (Drawable.ctor s self parent z visible)
  | setParent (s s' : Scene) (self parent : Nat) :
      Drawable.SetParent s self parent = some s' → Scene.Step s s'
  | setZ (s s' : Scene) (self : Nat) (z : Int) :
      Drawable.SetZ s self z = some s' → Scene.Step s s'
  | destroy (s : Scene) (self : Nat) :
      s.objs self ≠ none → Scene.Step s (Drawable.dtor s self)

/-- The states reached from the empty scene by constructing Drawables, `SetParent`, `SetZ`
and destroying Drawables. -/
inductive Scene.Reachable : Scene → Prop
  | init : Scene.Reachable Scene.empty
  | step (s s' : Scene) : Scene.Reachable s → Scene.Step s s' → Scene.Reachable s'

/-- Node `a` occurs in the collection strictly before node `b` (head to tail). -/
def PlacedBefore (drawables_ : List Nat) (a b : Nat) : Prop :=
  a ∈ drawables_ ∧ b ∈ drawables_ ∧ drawables_.indexOf a < drawables_.indexOf b

instance (l : List Nat) (a b : Nat) : Decidable (PlacedBefore l a b) := by
  unfold PlacedBefore; infer_instance

/-- Inserting the nodes `ds` one after the other, in that order. -/
def insertAll (z_ : Nat → Int) (drawables_ : List Nat) (ds : List Nat) : List Nat :=
  ds.foldl (fun acc d => DrawableParent.InsertDrawable z_ d acc) drawables_

/-- The well-formedness of a scene state: every collection holds a node at most once, a node is
in a parent's collection exactly when its back-reference names that parent, and every
collection is in non-increasing `z` order. -/
def Scene.Inv (s : Scene) : Prop :=
  (∀ p, (s.drawables_ p).Nodup) ∧
  (∀ p d, d ∈ s.drawables_ p ↔ ∃ o, s.objs d = some o ∧ o.parent_ = some p) ∧
  (∀ p, ZOrdered s.z_ (s.drawables_ p))

/-- The scene used to instantiate the insertion theorems: nodes 0 and 1 with `z = 5` attached
to parent 0, and a node 2 with `z = 10` that is alive but in no collection yet. -/
def sceneTwoFives : Scene :=
  (Drawable.ctor (Drawable.ctor Scene.empty 0 0 5 true) 1 0 5 true).store 2
    (some ⟨none, 10, true, false⟩)

/-- The scene reached by constructing node 0 (z = 5) on parent 0 and node 1 (z = 7) on
parent 1. -/
def sceneTwoParents : Scene :=
  Drawable.ctor (Drawable.ctor Scene.empty 0 0 5 true) 1 1 7 true

/-! ## Single-precision arithmetic

`graphics.cc` computes the fade brightness and the transition progress in `float`. A finite
binary32 value is kept as `m * 2 ^ e`; every operation rounds the exact result to the nearest
representable value, ties to even, each operation on its own (single-precision evaluation, no
fused multiply-add). Normal values have `2 ^ 23 ≤ |m| < 2 ^ 24`, zero is `⟨0, 0⟩`. All values
that arise from 32-bit integers here lie in the normal range, so infinities, NaN and
subnormals are not represented. -/

/-- A finite binary32 value `m * 2 ^ e`. -/
structure F32 where
  m : Int
  e : Int
deriving DecidableEq, Repr

/-- The power `2 ^ k` for `k ≥ 0`, and 1 for negative `k`. -/
def F32.pow2 (k : Int) : Nat := 2 ^ k.toNat

/-- Number of halvings that bring `n` below 2: the floor of the binary logarithm. -/
def F32.log2Aux : Nat → Nat → Nat
  | 0, _ => 0
  | fuel + 1, n => if n < 2 then 0 else F32.log2Aux fuel (n / 2) + 1

/-- Floor of the binary logarithm of `n` (0 for `n = 0`). -/
def F32.log2 (n : Nat) : Nat := F32.log2Aux n n

/-- The binary exponent of the fraction `a / d` (`a, d > 0`): the `e` with
`2 ^ e ≤ a / d < 2 ^ (e + 1)`. -/
def F32.exponent (a d : Nat) : Int :=
  let e0 : Int := (F32.log2 a : Int) - (F32.log2 d : Int)
  if d * F32.pow2 e0 ≤ a * F32.pow2 (-e0) then e0 else e0 - 1

/-- The integer nearest to `num / den`, ties to even. -/
def F32.nearest (num den : Nat) : Nat :=
  let q := num / den
  let r := num % den
  if 2 * r < den then q else if den < 2 * r then q + 1 else if q % 2 = 0 then q else q + 1

/-- The binary32 value nearest to the fraction `n / d` (`d > 0`), ties to even: the magnitude
is scaled to a 24-bit significand, which is rounded to an integer. -/
def F32.round (n : Int) (d : Nat) : F32 :=
  if n = 0 then ⟨0, 0⟩
  else
    let e := F32.exponent n.natAbs d
    let M := F32.nearest (n.natAbs * F32.pow2 (23 - e)) (d * F32.pow2 (e - 23))
    if M = 2 ^ 24 then ⟨n.sign * 2 ^ 23, e - 22⟩ else ⟨n.sign * M, e - 23⟩

/-- Numerator of the value written as a fraction with denominator `F32.den`. -/
def F32.num (x : F32) : Int := x.m * F32.pow2 x.e

/-- Denominator of the value written as a fraction. -/
def F32.den (x : F32) : Nat := F32.pow2 (-x.e)

/-- The conversion `static_cast<float>(i)` of an `int`. -/
def F32.ofInt (i : Int) : F32 := F32.round i 1

/-- The product `x * y` in `float`. -/
def F32.mul (x y : F32) : F32 := F32.round (x.num * y.num) (x.den * y.den)

/-- The quotient `x / y` in `float`, for `y ≠ 0`. -/
def F32.div (x y : F32) : F32 :=
  F32.round (y.num.sign * x.num * y.den) (x.den * y.num.natAbs)

/-- The difference `x - y` in `float`. -/
def F32.sub (x y : F32) : F32 :=
  F32.round (x.num * y.den - y.num * x.den) (x.den * y.den)

/-- The sum `x + y` in `float`. -/
def F32.add (x y : F32) : F32 :=
  F32.round (x.num * y.den + y.num * x.den) (x.den * y.den)

/-- The conversion of a `float` to `int`: truncation toward zero. -/
def F32.toInt (x : F32) : Int := x.num.sign * ((x.num.natAbs / x.den : Nat) : Int)

/-- The rational number a binary32 value stands for. -/
def F32.toRat (x : F32) : ℚ := (x.m : ℚ) * (2 : ℚ) ^ x.e

/-! ## Frame compositor (`content/public/graphics.cc`, `content/worker/binding_worker.cc`) -/

/-- The comparison `x != 0` of a `float`. -/
def F32.isNonzero (x : F32) : Bool := decide (x.m ≠ 0)

/-- The comparison `x < y` of two `float` values. -/
def F32.lt (x y : F32) : Bool := decide (x.num * y.den < y.num * x.den)

/-- `base::Rect`: position and size, with `int` members. -/
structure Rect where
  x : Int
  y : Int
  width : Int
  height : Int
deriving DecidableEq, Repr

/-- Modelled from the spec: the conversion of a size (`base::Vec2i`) to a `base::Rect`, as in
`viewport_rect().rect = resolution_` (the headers are not among the sources). The "logical
viewport rectangle" of a resolution is the rectangle of that size at the origin. -/
def Rect.ofSize (size : Int × Int) : Rect := ⟨0, 0, size.1, size.2⟩

/-- `base::Vec4`: four `float` components; `w` is the alpha of a color. -/
structure Vec4 where
  x : F32
  y : F32
  z : F32
  w : F32
deriving DecidableEq, Repr

/-- The three render targets of `Graphics`. -/
inductive Buffer where
  | screen_buffer_0
  | screen_buffer_1
  | frozen_snapshot_
deriving DecidableEq, Repr

/-- What a render target holds: nothing drawn since allocation, the scene composited by
`CompositeScreenInternal` at some brightness, a transition frame drawn by
`TransitionSceneInternalLoop` from the frozen and the current texture, or the output of the
viewport shader of `ApplyViewportEffect` for a source image, a tone and a flat color. -/
inductive Image where
  | Undefined
  | Scene (brightness : Int)
  | Blend (frozen current : Image) (trans_tex : Option Nat) (progress : F32)
  | Effect (source : Image) (tone color : Vec4)
deriving DecidableEq, Repr

/-- A `Bitmap` as `Transition` uses it: `IsDisposed()` and the texture `AsGLType().tex`. -/
structure Bitmap where
  tex : Nat
  disposed : Bool
deriving DecidableEq, Repr

/-- The effects of the compositor that leave the `Graphics` object, in the order they occur:
the scene composite, a presentation (blit and buffer swap), the calls into the frame limiter,
the FPS message to the event queue, the two callbacks of the binding engine, the blend state
stack, the shader parameters of a transition, the allocation of a render target, the resize of
the screen quad, the viewport notification to a Drawable, the disposal of an element, the
scissor state stack, the parameters of the viewport shader, and the blit of a snapshot into a
bitmap. -/
inductive Event where
  | Composite (brightness : Int)
  | Present (buffer : Buffer)
  | Delay
  | FpsReset
  | UpdateFpsDisplay
  | QuitRequired
  | ResetRequired
  | BlendPush (enable : Bool)
  | BlendPop
  | BindAlphaTrans
  | BindVague (vague : F32)
  | SetProgress (progress : F32)
  | Alloc (buffer : Buffer) (size : Int × Int)
  | QuadResize (size : Int × Int)
  | OnViewportRectChanged (drawable : Nat) (rect : Rect)
  | Dispose (element : Nat)
  | ScissorPush (enable : Bool)
  | ScissorPop
  | SetTone (tone : Vec4)
  | SetColor (color : Vec4)
  | SnapBlit
deriving DecidableEq, Repr

/-- What the compositor thread observes of the rest of the program. The two atomic flags are
written by other threads at any time: `quit_atomic_ t` and `reset_atomic_ t` are their values
at the `t`-th inspection of the flags by the compositor. `RequireFrameSkip t` is the answer of
the frame limiter to the `t`-th query. `binding_engine_` tells whether the runner has a
binding engine, `allow_frame_skip` is the configuration switch and `rgss_version` the content
version (1, 2 or 3). -/
structure Env where
  quit_atomic_ : Nat → Bool
  reset_atomic_ : Nat → Bool
  binding_engine_ : Bool
  RequireFrameSkip : Nat → Bool
  allow_frame_skip : Bool
  rgss_version : Nat

/-- The data members of `Graphics` and the trace of its effects. `flag_reads` and
`skip_queries` count the inspections of the flags and the queries to the frame limiter made so
far; they index the observations in `Env`. `frame_count_` is the frame count without
wrap-around: the value last set plus the number of `++frame_count_` since. The member of the
program has a fixed width and wraps around at its ends; its value is this count reduced to the
type of the member (`Graphics.frameCountAs`), and `Graphics.GetFrameCount` is the count
reduced to `int`. `viewport_rect_` and
`drawables_` are the members of the `DrawableParent` base of `Graphics` (the rectangle of its
viewport and the z-ordered collection of the Drawables attached to the screen),
`disposable_elements_` is the list `AddDisposable` appends to, and `limiter_frame_rate` is the
rate the frame limiter `fps_manager_` was last given. -/
structure Graphics where
  resolution_ : Int × Int
  frozen_ : Bool
  brightness_ : Int
  frame_count_ : Int
  frame_rate_ : Int
  screen_buffer_0 : Image
  screen_buffer_1 : Image
  frozen_snapshot_ : Image
  flag_reads : Nat
  skip_queries : Nat
  trace : List Event
  viewport_rect_ : Rect
  drawables_ : List Nat
  disposable_elements_ : List Nat
  limiter_frame_rate : Int

/-- `Graphics::Graphics`: the member initialisers and `InitScreenBufferInternal`; the trace of
effects starts when construction is complete. -/
def Graphics.ctor (env : Env) (initial_resolution : Int × Int) : Graphics where
  resolution_ := initial_resolution
  frozen_ := false
  brightness_ := 255
  frame_count_ := 0
  frame_rate_ := if 2 ≤ env.rgss_version then 60 else 40
  screen_buffer_0 := Image.Undefined
  screen_buffer_1 := Image.Undefined
  frozen_snapshot_ := Image.Undefined
  flag_reads := 0
  skip_queries := 0
  trace := []
  viewport_rect_ := Rect.ofSize initial_resolution
  drawables_ := []
  disposable_elements_ := []
  limiter_frame_rate := if 2 ≤ env.rgss_version then 60 else 40

/-- Appends one effect to the trace. -/
def Graphics.emit (g : Graphics) (ev : Event) : Graphics :=
  { g with trace := g.trace ++ [ev] }

/-- `BindingRunner::CheckRunnerFlags` (called as `dispatcher_->CheckFlags()`): true when the
quit flag or the reset flag is set. -/
def BindingRunner.CheckRunnerFlags (env : Env) (g : Graphics) : Bool × Graphics :=
  (env.quit_atomic_ g.flag_reads || env.reset_atomic_ g.flag_reads,
    { g with flag_reads := g.flag_reads + 1 })

/-- `BindingRunner::RaiseRunnerFlags` (called as `dispatcher_->RaiseFlags()`): nothing without
a binding engine; otherwise `QuitRequired()` when the quit flag is set and `ResetRequired()`
when the reset flag is set. The two callbacks are recorded and return to the caller. -/
def BindingRunner.RaiseRunnerFlags (env : Env) (g : Graphics) : Graphics :=
  if !env.binding_engine_ then g
  else
    let g1 := if env.quit_atomic_ g.flag_reads then g.emit Event.QuitRequired else g
    let g2 := if env.reset_atomic_ g.flag_reads then g1.emit Event.ResetRequired else g1
    { g2 with flag_reads := g.flag_reads + 1 }

/-- `std::clamp(v, lo, hi)`. -/
def clamp (v lo hi : Int) : Int := if v < lo then lo else if hi < v then hi else v

/-- `Graphics::GetBrightness`. -/
def Graphics.GetBrightness (g : Graphics) : Int := g.brightness_

/-- `Graphics::SetBrightness`. -/
def Graphics.SetBrightness (g : Graphics) (brightness : Int) : Graphics :=
  { g with brightness_ := clamp brightness 0 255 }

/-- `Graphics::FrameProcessInternal`: frame delay, `++frame_count_`, FPS message. The count is
kept without wrap-around here; the wrap-around of the member is in `Graphics.frameCountAs`
and `Graphics.GetFrameCount`. -/
def Graphics.FrameProcessInternal (g : Graphics) : Graphics :=
  { (g.emit Event.Delay) with frame_count_ := g.frame_count_ + 1 }.emit Event.UpdateFpsDisplay

/-- `Graphics::CompositeScreenInternal`: the children are composited into `screen_buffer_[0]`
and the result is dimmed when `brightness_ < 255`. -/
def Graphics.CompositeScreenInternal (g : Graphics) : Graphics :=
  { (g.emit (Event.Composite g.brightness_)) with
    screen_buffer_0 := Image.Scene g.brightness_ }

/-- `Graphics::PresentScreenInternal(screen_buffer)`: blit to the window and swap. (The
letterbox rectangle it starts with, `UpdateWindowViewportInternal`, depends on the window
size only and is not part of this state.) -/
def Graphics.PresentScreenInternal (g : Graphics) (screen_buffer : Buffer) : Graphics :=
  g.emit (Event.Present screen_buffer)

/-- `Graphics::Update`. -/
def Graphics.Update (env : Env) (g : Graphics) : Graphics :=
  let finish := fun (g : Graphics) =>
    BindingRunner.RaiseRunnerFlags env
      (BindingRunner.CheckRunnerFlags env g.FrameProcessInternal).2
  if !g.frozen_ then
    let skip := env.RequireFrameSkip g.skip_queries
    let g1 := { g with skip_queries := g.skip_queries + 1 }
    if skip && env.allow_frame_skip then g1.FrameProcessInternal
    else
      let g2 := if skip then g1.emit Event.FpsReset else g1
      finish ((g2.CompositeScreenInternal).PresentScreenInternal Buffer.screen_buffer_0)
  else finish g

/-- `Graphics::Wait`: `duration` calls of `Update`. -/
def Graphics.Wait (env : Env) (g : Graphics) (duration : Int) : Graphics :=
  Nat.iterate (Graphics.Update env) duration.toNat g

/-- The loop shared by `FadeOut` and `FadeIn`, which differ in the brightness `value i` they
set in iteration `i` only: `n` iterations remain, `i` is the loop variable. A frozen compositor
presents the snapshot, processes the frame and leaves the loop when a flag is set; otherwise
the iteration is one `Update()`. -/
def Graphics.FadeLoop (env : Env) (value : Int → Int) : Nat → Int → Graphics → Graphics
  | 0, _, g => g
  | n + 1, i, g =>
    let g1 := g.SetBrightness (value i)
    if g1.frozen_ then
      let r := BindingRunner.CheckRunnerFlags env
        (g1.PresentScreenInternal Buffer.frozen_snapshot_).FrameProcessInternal
      if r.1 then r.2 else Graphics.FadeLoop env value n (i + 1) r.2
    else Graphics.FadeLoop env value n (i + 1) (g1.Update env)

/-- The brightness `FadeOut` sets in iteration `i`:
`current_brightness - current_brightness * (i / static_cast<float>(duration))`, converted to
`int`. -/
def Graphics.FadeOutValue (current_brightness : F32) (duration : Int) (i : Int) : Int :=
  (current_brightness.sub
    (current_brightness.mul ((F32.ofInt i).div (F32.ofInt duration)))).toInt

/-- The brightness `FadeIn` sets in iteration `i`:
`current_brightness + diff * (i / static_cast<float>(duration))`, converted to `int`. -/
def Graphics.FadeInValue (current_brightness diff : F32) (duration : Int) (i : Int) : Int :=
  (current_brightness.add (diff.mul ((F32.ofInt i).div (F32.ofInt duration)))).toInt

/-- `Graphics::FadeOut`. -/
def Graphics.FadeOut (env : Env) (g : Graphics) (duration : Int) : Graphics :=
  let duration := max duration 1
  let current_brightness := F32.ofInt g.brightness_
  let g1 := Graphics.FadeLoop env (Graphics.FadeOutValue current_brightness duration)
    duration.toNat 0 g
  BindingRunner.RaiseRunnerFlags env (g1.SetBrightness 0)

/-- `Graphics::FadeIn`. -/
def Graphics.FadeIn (env : Env) (g : Graphics) (duration : Int) : Graphics :=
  let duration := max duration 1
  let current_brightness := F32.ofInt g.brightness_
  let diff := (F32.ofInt 255).sub current_brightness
  let g1 := Graphics.FadeLoop env (Graphics.FadeInValue current_brightness diff duration)
    duration.toNat 0 g
  BindingRunner.RaiseRunnerFlags env (g1.SetBrightness 255)

/-- `Graphics::FreezeSceneInternal`: composite, then copy `screen_buffer_[0]` into the
snapshot target. -/
def Graphics.FreezeSceneInternal (g : Graphics) : Graphics :=
  let g1 := g.CompositeScreenInternal
  { g1 with frozen_snapshot_ := g1.screen_buffer_0 }

/-- `Graphics::Freeze`. -/
def Graphics.Freeze (g : Graphics) : Graphics :=
  if g.frozen_ then g else { g.FreezeSceneInternal with frozen_ := true }

/-- `Graphics::TransitionSceneInternal`: composite the scene, then bind and set up the
crossfade shader (no bitmap) or the dissolve shader with `vague / 256.0f`. -/
def Graphics.TransitionSceneInternal (g : Graphics) (trans_bitmap : Option Bitmap)
    (vague : Int) : Graphics :=
  match trans_bitmap with
  | none => g.CompositeScreenInternal.emit Event.BindAlphaTrans
  | some _ =>
    g.CompositeScreenInternal.emit
      (Event.BindVague ((F32.ofInt vague).div (F32.ofInt 256)))

/-- The value `float progress = i * (1.0f / duration)`. -/
def Graphics.progress (i duration : Int) : F32 :=
  (F32.ofInt i).mul ((F32.ofInt 1).div (F32.ofInt duration))

/-- `Graphics::TransitionSceneInternalLoop`: the shader gets the two textures and the
progress, the blended quad is drawn into `screen_buffer_[1]`, which is then presented. -/
def Graphics.TransitionSceneInternalLoop (g : Graphics) (i duration : Int)
    (trans_bitmap : Option Bitmap) : Graphics :=
  let progress := Graphics.progress i duration
  let g1 := g.emit (Event.SetProgress progress)
  let g2 := { g1 with
    screen_buffer_1 :=
      Image.Blend g.frozen_snapshot_ g.screen_buffer_0 (trans_bitmap.map Bitmap.tex) progress }
  g2.PresentScreenInternal Buffer.screen_buffer_1

/-- The `for` loop of `Graphics::Transition`: `n` iterations remain, `i` is the loop
variable; the loop is left when a flag is set. -/
def Graphics.TransitionLoop (env : Env) (duration : Int) (trans_bitmap : Option Bitmap) :
    Nat → Int → Graphics → Graphics
  | 0, _, g => g
  | n + 1, i, g =>
    let r := BindingRunner.CheckRunnerFlags env
      (g.TransitionSceneInternalLoop i duration trans_bitmap).FrameProcessInternal
    if r.1 then r.2 else Graphics.TransitionLoop env duration trans_bitmap n (i + 1) r.2

/-- `Graphics::Transition`. -/
def Graphics.Transition (env : Env) (g : Graphics) (duration : Int)
    (trans_bitmap : Option Bitmap) (vague : Int) : Graphics :=
  if (match trans_bitmap with
      | some b => b.disposed
      | none => false) then g
  else if !g.frozen_ then g
  else
    let g1 := g.SetBrightness 255
    let vague := clamp vague 1 256
    let g2 := g1.TransitionSceneInternal trans_bitmap vague
    let g3 := g2.emit (Event.BlendPush false)
    let g4 := Graphics.TransitionLoop env duration trans_bitmap duration.toNat 0 g3
    let g5 := g4.emit Event.BlendPop
    BindingRunner.RaiseRunnerFlags env { g5 with frozen_ := false }

/-- Number of presentations (calls of `PresentScreenInternal`) so far. -/
def Graphics.presentations (g : Graphics) : Nat :=
  g.trace.countP (fun ev => match ev with
    | Event.Present _ => true
    | _ => false)

/-- Number of scene composites (calls of `CompositeScreenInternal`) so far. -/
def Graphics.composites (g : Graphics) : Nat :=
  g.trace.countP (fun ev => match ev with
    | Event.Composite _ => true
    | _ => false)

/-- Number of `QuitRequired` notifications delivered to the binding engine so far. -/
def Graphics.quitNotifications (g : Graphics) : Nat := g.trace.count Event.QuitRequired

/-- Number of `ResetRequired` notifications delivered to the binding engine so far. -/
def Graphics.resetNotifications (g : Graphics) : Nat := g.trace.count Event.ResetRequired

/-- The progress values passed to the transition shader so far, in order. -/
def Graphics.progressValues (g : Graphics) : List F32 :=
  g.trace.filterMap (fun ev => match ev with
    | Event.SetProgress p => some p
    | _ => none)

/-- Either cancellation flag is set at the `t`-th inspection. -/
def Env.flagSet (env : Env) (t : Nat) : Bool := env.quit_atomic_ t || env.reset_atomic_ t

/-! ### Further operations of `Graphics` -/

/-- The render target a `Buffer` names. -/
def Graphics.buffer (g : Graphics) : Buffer → Image
  | Buffer.screen_buffer_0 => g.screen_buffer_0
  | Buffer.screen_buffer_1 => g.screen_buffer_1
  | Buffer.frozen_snapshot_ => g.frozen_snapshot_

/-- Replaces the contents of a render target. -/
def Graphics.setBuffer (g : Graphics) (b : Buffer) (img : Image) : Graphics :=
  match b with
  | Buffer.screen_buffer_0 => { g with screen_buffer_0 := img }
  | Buffer.screen_buffer_1 => { g with screen_buffer_1 := img }
  | Buffer.frozen_snapshot_ => { g with frozen_snapshot_ := img }

/-- `renderer::TextureFrameBuffer::Alloc(buffer, width, height)`: storage of the given size,
the previous contents are gone. -/
def Graphics.Alloc (g : Graphics) (b : Buffer) (size : Int × Int) : Graphics :=
  (g.emit (Event.Alloc b size)).setBuffer b Image.Undefined

/-- `Graphics::SetFrameRate`: the rate is raised to 10 at least, passed to the frame limiter
and stored. -/
def Graphics.SetFrameRate (g : Graphics) (rate : Int) : Graphics :=
  let rate := max rate 10
  { g with limiter_frame_rate := rate, frame_rate_ := rate }

/-- `Graphics::GetFrameRate`. -/
def Graphics.GetFrameRate (g : Graphics) : Int := g.frame_rate_

/-- `Graphics::SetFrameCount` (the argument is an `int64_t`). -/
def Graphics.SetFrameCount (g : Graphics) (count : Int) : Graphics :=
  { g with frame_count_ := count }

/-- The integral types of 32 and 64 bits: `int`, `unsigned int`, `int64_t`, `uint64_t`. -/
inductive IntegralType where
  | int32
  | uint32
  | int64
  | uint64
deriving DecidableEq, Repr

/-- The conversion of an integer value to an integral type: the value of the destination type
that is congruent to the source modulo `2 ^ N`, `N` being the width of the type (two's
complement). -/
def IntegralType.convert : IntegralType → Int → Int
  | IntegralType.int32, v => (v + 2 ^ 31) % 2 ^ 32 - 2 ^ 31
  | IntegralType.uint32, v => v % 2 ^ 32
  | IntegralType.int64, v => (v + 2 ^ 63) % 2 ^ 64 - 2 ^ 63
  | IntegralType.uint64, v => v % 2 ^ 64

/-- `Graphics::GetFrameCount`: `return frame_count_;` in a function that returns `int`, so the
member is converted to `int`. -/
def Graphics.GetFrameCount (g : Graphics) : Int :=
  IntegralType.int32.convert g.frame_count_

/-- `Graphics::SetFrameCount` for a member `frame_count_` declared with the integral type
`t`: the assignment converts the `int64_t` argument to `t`. (The declaration is in a header
that is not among the sources; `Graphics.SetFrameCount` is the case of a 64-bit member and an
argument in the range of `int64_t`.) -/
def Graphics.SetFrameCountAs (t : IntegralType) (g : Graphics) (count : Int) : Graphics :=
  { g with frame_count_ := t.convert count }

/-- The largest value of an integral type. -/
def IntegralType.maxValue : IntegralType → Int
  | IntegralType.int32 => 2 ^ 31 - 1
  | IntegralType.uint32 => 2 ^ 32 - 1
  | IntegralType.int64 => 2 ^ 63 - 1
  | IntegralType.uint64 => 2 ^ 64 - 1

/-- The smallest value of an integral type. -/
def IntegralType.minValue : IntegralType → Int
  | IntegralType.int32 => -2 ^ 31
  | IntegralType.uint32 => 0
  | IntegralType.int64 => -2 ^ 63
  | IntegralType.uint64 => 0

/-- The value the member `frame_count_` holds when it is declared with the integral type `t`:
`++frame_count_` at the largest value of `t` wraps around to the smallest, so the member is the
count reduced modulo `2 ^ N` into the range of `t`. `Graphics.GetFrameCount` is the case of
`int`. -/
def Graphics.frameCountAs (t : IntegralType) (g : Graphics) : Int :=
  t.convert g.frame_count_

/-- `Graphics::FrameReset`: `fps_manager_->Reset()`. -/
def Graphics.FrameReset (g : Graphics) : Graphics := g.emit Event.FpsReset

/-- `DrawableParent::NotifyViewportChanged`: every node of the collection, head to tail, gets
`OnViewportRectChanged(viewport_rect_)`. -/
def Graphics.NotifyViewportChanged (g : Graphics) : Graphics :=
  g.drawables_.foldl (fun acc d => acc.emit (Event.OnViewportRectChanged d g.viewport_rect_)) g

/-- `Graphics::ResizeResolutionInternal`: the three render targets are allocated at
`resolution_`, the screen quad is resized, the viewport rectangle is set and the Drawables are
notified. -/
def Graphics.ResizeResolutionInternal (g : Graphics) : Graphics :=
  let g1 := g.Alloc Buffer.screen_buffer_0 g.resolution_
  let g2 := g1.Alloc Buffer.screen_buffer_1 g.resolution_
  let g3 := g2.Alloc Buffer.frozen_snapshot_ g.resolution_
  let g4 := g3.emit (Event.QuadResize g.resolution_)
  let g5 := { g4 with viewport_rect_ := Rect.ofSize g.resolution_ }
  g5.NotifyViewportChanged

/-- `Graphics::ResizeScreen`. -/
def Graphics.ResizeScreen (g : Graphics) (resolution : Int × Int) : Graphics :=
  if g.resolution_ = resolution then g
  else { g with resolution_ := resolution }.ResizeResolutionInternal

/-- `Graphics::AddDisposable`: the element is appended to `disposable_elements_`. -/
def Graphics.AddDisposable (g : Graphics) (disp : Nat) : Graphics :=
  { g with disposable_elements_ := LinkedList.Append g.disposable_elements_ disp }

/-- `Graphics::RemoveDisposable`: the element is unlinked from the list. -/
def Graphics.RemoveDisposable (g : Graphics) (disp : Nat) : Graphics :=
  { g with disposable_elements_ := LinkNode.RemoveFromList g.disposable_elements_ disp }

/-- `Graphics::Reset`: the frozen flag is cleared, `Dispose()` is called on the elements of
`disposable_elements_` from the tail to the head, then frame rate, brightness and the frame
limiter are reset. `Dispose()` is recorded as an effect on the element. -/
def Graphics.Reset (env : Env) (g : Graphics) : Graphics :=
  let g1 := { g with frozen_ := false }
  let g2 := g.disposable_elements_.reverse.foldl (fun acc d => acc.emit (Event.Dispose d)) g1
  let g3 := g2.SetFrameRate (if 2 ≤ env.rgss_version then 60 else 40)
  let g4 := g3.SetBrightness 255
  g4.FrameReset

/-- `Graphics::SnapToBitmap`: the scene is composited into `screen_buffer_[0]` and copied into
a new bitmap. -/
def Graphics.SnapToBitmap (g : Graphics) : Graphics :=
  g.CompositeScreenInternal.emit Event.SnapBlit

/-- The flat color `ApplyViewportEffect` passes to the viewport shader:
`(flash_color.w > color.w) ? flash_color : color`. -/
def Graphics.effectColor (color flash_color : Vec4) : Vec4 :=
  if F32.lt color.w flash_color.w then flash_color else color

/-- The test `has_tone_effect || has_color_effect || has_flash_effect` of
`ApplyViewportEffect`. -/
def Graphics.hasEffect (color tone flash_color : Vec4) : Bool :=
  (tone.x.isNonzero || tone.y.isNonzero || tone.z.isNonzero || tone.w.isNonzero) ||
    color.w.isNonzero || flash_color.w.isNonzero

/-- `Graphics::ApplyViewportEffect(frontend, backend, quad, color, tone, flash_color)`: nothing
without an effect; otherwise the front buffer is copied into the back buffer with scissoring
off, and the viewport shader draws the back buffer with the tone and the flat color into the
front buffer with blending off. -/
def Graphics.ApplyViewportEffect (g : Graphics) (frontend backend : Buffer)
    (color tone flash_color : Vec4) : Graphics :=
  if !Graphics.hasEffect color tone flash_color then g
  else
    let g1 := g.emit (Event.ScissorPush false)
    let g2 := g1.setBuffer backend (g1.buffer frontend)
    let g3 := g2.emit Event.ScissorPop
    let g4 := g3.emit (Event.SetTone tone)
    let g5 := g4.emit (Event.SetColor (Graphics.effectColor color flash_color))
    let g6 := g5.emit (Event.BlendPush false)
    let g7 := g6.setBuffer frontend
      (Image.Effect (g6.buffer backend) tone (Graphics.effectColor color flash_color))
    g7.emit Event.BlendPop

/-- `Graphics::RenderEffectRequire`. -/
def Graphics.RenderEffectRequire (g : Graphics) (color tone flash_color : Vec4) : Graphics :=
  g.ApplyViewportEffect Buffer.screen_buffer_0 Buffer.screen_buffer_1 color tone flash_color

/-- `Graphics::UpdateWindowViewportInternal`, as a function of the window size and the logical
resolution: the rectangle `display_viewport_` it computes. The two ratios are `float`, and a
`float` assigned to a member of the rectangle is truncated. -/
def Graphics.UpdateWindowViewportInternal (window_size_ resolution_ : Int × Int) : Rect :=
  let window_ratio := (F32.ofInt window_size_.1).div (F32.ofInt window_size_.2)
  let screen_ratio := (F32.ofInt resolution_.1).div (F32.ofInt resolution_.2)
  let width := window_size_.1
  let height := window_size_.2
  let height1 :=
    if F32.lt window_ratio screen_ratio then ((F32.ofInt width).div screen_ratio).toInt
    else height
  let width1 :=
    if F32.lt window_ratio screen_ratio then width
    else if F32.lt screen_ratio window_ratio then ((F32.ofInt height).mul screen_ratio).toInt
    else width
  { x := ((F32.ofInt (window_size_.1 - width1)).div (F32.ofInt 2)).toInt
    y := ((F32.ofInt (window_size_.2 - height1)).div (F32.ofInt 2)).toInt
    width := width1
    height := height1 }

/-- The public operations of the compositor. `SceneChange` stands for the attach, detach and
re-order operations of the scene graph, which replace the collection of attached Drawables. -/
inductive Graphics.Op where
  | SetBrightness (brightness : Int)
  | Wait (duration : Int)
  | SnapToBitmap
  | FadeOut (duration : Int)
  | FadeIn (duration : Int)
  | Update
  | ResizeScreen (resolution : Int × Int)
  | Reset
  | Freeze
  | Transition (duration : Int) (trans_bitmap : Option Bitmap) (vague : Int)
  | SetFrameRate (rate : Int)
  | SetFrameCount (count : Int)
  | FrameReset
  | AddDisposable (disp : Nat)
  | RemoveDisposable (disp : Nat)
  | RenderEffectRequire (color tone flash_color : Vec4)
  | SceneChange (drawables_ : List Nat)

/-- The effect of one operation on the compositor. -/
def Graphics.run (env : Env) (g : Graphics) : Graphics.Op → Graphics
  | Graphics.Op.SetBrightness b => g.SetBrightness b
  | Graphics.Op.Wait d => Graphics.Wait env g d
  | Graphics.Op.SnapToBitmap => g.SnapToBitmap
  | Graphics.Op.FadeOut d => Graphics.FadeOut env g d
  | Graphics.Op.FadeIn d => Graphics.FadeIn env g d
  | Graphics.Op.Update => Graphics.Update env g
  | Graphics.Op.ResizeScreen r => g.ResizeScreen r
  | Graphics.Op.Reset => Graphics.Reset env g
  | Graphics.Op.Freeze => g.Freeze
  | Graphics.Op.Transition d bm v => Graphics.Transition env g d bm v
  | Graphics.Op.SetFrameRate r => g.SetFrameRate r
  | Graphics.Op.SetFrameCount c => g.SetFrameCount c
  | Graphics.Op.FrameReset => g.FrameReset
  | Graphics.Op.AddDisposable d => g.AddDisposable d
  | Graphics.Op.RemoveDisposable d => g.RemoveDisposable d
  | Graphics.Op.RenderEffectRequire c t f => g.RenderEffectRequire c t f
  | Graphics.Op.SceneChange l => { g with drawables_ := l }

/-- The states of the compositor reached from its construction by public operations. -/
inductive Graphics.Reachable (env : Env) : Graphics → Prop
  | ctor (initial_resolution : Int × Int) :
      Graphics.Reachable env (Graphics.ctor env initial_resolution)
  | step (g : Graphics) (op : Graphics.Op) :
      Graphics.Reachable env g → Graphics.Reachable env (Graphics.run env g op)

/-- The `Dispose()` calls made so far, in order. -/
def Graphics.disposals (g : Graphics) : List Nat :=
  g.trace.filterMap (fun ev => match ev with
    | Event.Dispose d => some d
    | _ => none)

/-- The viewport notifications delivered so far, in order: the Drawable and the rectangle. -/
def Graphics.viewportNotifications (g : Graphics) : List (Nat × Rect) :=
  g.trace.filterMap (fun ev => match ev with
    | Event.OnViewportRectChanged d r => some (d, r)
    | _ => none)

/-- The allocations of render targets made so far, in order. -/
def Graphics.allocations (g : Graphics) : List (Buffer × (Int × Int)) :=
  g.trace.filterMap (fun ev => match ev with
    | Event.Alloc b size => some (b, size)
    | _ => none)

/-- The flat colors passed to the viewport shader so far, in order. -/
def Graphics.shaderColors (g : Graphics) : List Vec4 :=
  g.trace.filterMap (fun ev => match ev with
    | Event.SetColor c => some c
    | _ => none)

/-- An environment in which the quit flag is clear for the first `t0` inspections and set from
then on; the reset flag is never set, a binding engine is attached and the frame limiter never
asks for a frame skip. -/
def Env.quitFrom (t0 : Nat) : Env where
  quit_atomic_ := fun t => decide (t0 ≤ t)
  reset_atomic_ := fun _ => false
  binding_engine_ := true
  RequireFrameSkip := fun _ => false
  allow_frame_skip := false
  rgss_version := 3

/-- An environment in which no flag is ever set. -/
def Env.quiet : Env where
  quit_atomic_ := fun _ => false
  reset_atomic_ := fun _ => false
  binding_engine_ := true
  RequireFrameSkip := fun _ => false
  allow_frame_skip := false
  rgss_version := 3

/-- The compositor right after construction at 640 x 480: Normal mode, brightness 255. -/
def Graphics.start : Graphics := Graphics.ctor Env.quiet (640, 480)

/-- The compositor after construction and one `Freeze()`: Frozen mode, brightness 255. -/
def Graphics.startFrozen : Graphics := Graphics.start.Freeze

/-- The compositor with two sprites on the screen: sprite 0 (`z = 5`) was created first, sprite
1 (`z = 10`) second. Each creation registers the sprite with `AddDisposable` and links it into
the z-ordered collection of the screen, which is therefore 1, 0 while the disposable list
is 0, 1. -/
def Graphics.twoSprites : Graphics :=
  ({ Graphics.start with
      drawables_ :=
        (Drawable.ctor (Drawable.ctor Scene.empty 0 0 5 true) 1 0 10 true).drawables_ 0
    }.AddDisposable 0).AddDisposable 1

/-- An environment whose pacing controller requires a skip at every tick, with frame skipping
enabled in the configuration; no flag is ever set. -/
def Env.skipping : Env where
  quit_atomic_ := fun _ => false
  reset_atomic_ := fun _ => false
  binding_engine_ := true
  RequireFrameSkip := fun _ => true
  allow_frame_skip := true
  rgss_version := 3

/-- An opaque color with the given red, green and blue components (0 or 1). -/
def Vec4.opaque3 (r g b : Int) : Vec4 := ⟨F32.ofInt r, F32.ofInt g, F32.ofInt b, F32.ofInt 1⟩

/-- The tone without effect. -/
def Vec4.zero : Vec4 := ⟨F32.ofInt 0, F32.ofInt 0, F32.ofInt 0, F32.ofInt 0⟩

/-! ## Lemmas on `DrawableParent::InsertDrawable` -/

theorem mem_InsertDrawable (z_ : Nat → Int) (d a : Nat) (l : List Nat) :
    a ∈ DrawableParent.InsertDrawable z_ d l ↔ a = d ∨ a ∈ l := by
  induction l with
  | nil => simp [DrawableParent.InsertDrawable, LinkedList.Append]
  | cons it rest ih =>
    unfold DrawableParent.InsertDrawable
    split_ifs with h
    · simp [LinkNode.InsertBefore]
    · simp only [List.mem_cons, ih]; tauto

theorem perm_InsertDrawable (z_ : Nat → Int) (d : Nat) (l : List Nat) :
    (DrawableParent.InsertDrawable z_ d l).Perm (d :: l) := by
  induction l with
  | nil => simp [DrawableParent.InsertDrawable, LinkedList.Append]
  | cons it rest ih =>
    unfold DrawableParent.InsertDrawable
    split_ifs with h
    · simp [LinkNode.InsertBefore]
    · exact (ih.cons it).trans (List.Perm.swap d it rest)

theorem zordered_InsertDrawable (z_ : Nat → Int) (d : Nat) (l : List Nat)
    (h : ZOrdered z_ l) : ZOrdered z_ (DrawableParent.InsertDrawable z_ d l) := by
  induction l with
  | nil => simp [DrawableParent.InsertDrawable, LinkedList.Append, ZOrdered]
  | cons it rest ih =>
    unfold ZOrdered at h ih ⊢
    rw [List.pairwise_cons] at h
    unfold DrawableParent.InsertDrawable
    split_ifs with hlt
    · simp only [LinkNode.InsertBefore]
      refine List.pairwise_cons.2 ⟨?_, List.pairwise_cons.2 h⟩
      intro b hb
      rcases List.mem_cons.1 hb with rfl | hb
      · exact le_of_lt hlt
      · exact le_trans (h.1 b hb) (le_of_lt hlt)
    · refine List.pairwise_cons.2 ⟨?_, ih h.2⟩
      intro b hb
      rcases (mem_InsertDrawable z_ d b rest).1 hb with rfl | hb
      · exact not_lt.1 hlt
      · exact h.1 b hb

theorem split_InsertDrawable (z_ : Nat → Int) (d : Nat) (l : List Nat) :
    ∃ pre post, l = pre ++ post ∧ DrawableParent.InsertDrawable z_ d l = pre ++ d :: post ∧
      (∀ e ∈ pre, ¬ z_ e < z_ d) ∧ (∀ e, post.head? = some e → z_ e < z_ d) := by
  induction l with
  | nil => exact ⟨[], [], by simp [DrawableParent.InsertDrawable, LinkedList.Append]⟩
  | cons it rest ih =>
    unfold DrawableParent.InsertDrawable
    split_ifs with hlt
    · refine ⟨[], it :: rest, by simp [LinkNode.InsertBefore], by simp [LinkNode.InsertBefore],
        by simp, ?_⟩
      intro e he
      simp only [List.head?_cons, Option.some.injEq] at he
      exact he ▸ hlt
    · obtain ⟨pre, post, h1, h2, h3, h4⟩ := ih
      refine ⟨it :: pre, post, by simp [h1], by simp [h2], ?_, h4⟩
      intro e he
      rcases List.mem_cons.1 he with rfl | he
      · exact hlt
      · exact h3 e he

theorem erase_InsertDrawable (z_ : Nat → Int) (d : Nat) (l : List Nat) (hd : d ∉ l) :
    (DrawableParent.InsertDrawable z_ d l).erase d = l := by
  induction l with
  | nil => simp [DrawableParent.InsertDrawable, LinkedList.Append]
  | cons it rest ih =>
    have hne : it ≠ d := fun h => hd (by simp [h])
    have hd2 : d ∉ rest := fun h => hd (List.mem_cons_of_mem _ h)
    unfold DrawableParent.InsertDrawable
    split_ifs with hlt
    · simp [LinkNode.InsertBefore]
    · rw [List.erase_cons_tail (by simpa using hne), ih hd2]

theorem filter_InsertDrawable (z_ : Nat → Int) (d : Nat) (k : Int) (l : List Nat)
    (h : ZOrdered z_ l) :
    (DrawableParent.InsertDrawable z_ d l).filter (fun e => decide (z_ e = k)) =
      l.filter (fun e => decide (z_ e = k)) ++ (if z_ d = k then [d] else []) := by
  induction l with
  | nil =>
    by_cases hk : z_ d = k <;> simp [DrawableParent.InsertDrawable, LinkedList.Append, hk]
  | cons it rest ih =>
    unfold ZOrdered at h ih
    rw [List.pairwise_cons] at h
    unfold DrawableParent.InsertDrawable
    split_ifs with hlt hk hk
    · have hnone : (it :: rest).filter (fun e => decide (z_ e = k)) = [] := by
        rw [List.filter_eq_nil_iff]
        intro a ha
        have hle : z_ a ≤ z_ it := by
          rcases List.mem_cons.1 ha with rfl | ha
          · exact le_rfl
          · exact h.1 a ha
        simp only [decide_eq_true_eq]
        omega
      simp only [LinkNode.InsertBefore]
      rw [List.filter_cons_of_pos (by simpa using hk), hnone]
      simp
    · simp only [LinkNode.InsertBefore]
      rw [List.filter_cons_of_neg (by simpa using hk)]
      simp
    · have := ih h.2
      rw [if_pos hk] at this
      by_cases hit : z_ it = k
      · rw [List.filter_cons_of_pos (by simpa using hit), this,
          List.filter_cons_of_pos (by simpa using hit)]
        simp
      · rw [List.filter_cons_of_neg (by simpa using hit), this,
          List.filter_cons_of_neg (by simpa using hit)]
    · have := ih h.2
      rw [if_neg hk] at this
      by_cases hit : z_ it = k
      · rw [List.filter_cons_of_pos (by simpa using hit), this,
          List.filter_cons_of_pos (by simpa using hit)]
        simp
      · rw [List.filter_cons_of_neg (by simpa using hit), this,
          List.filter_cons_of_neg (by simpa using hit)]

theorem zordered_insertAll (z_ : Nat → Int) (ds l : List Nat) (h : ZOrdered z_ l) :
    ZOrdered z_ (insertAll z_ l ds) := by
  induction ds generalizing l with
  | nil => simpa [insertAll] using h
  | cons d ds ih =>
    simp only [insertAll, List.foldl_cons]
    exact ih _ (zordered_InsertDrawable z_ d l h)

theorem filter_insertAll (z_ : Nat → Int) (k : Int) (ds l : List Nat) (h : ZOrdered z_ l) :
    (insertAll z_ l ds).filter (fun e => decide (z_ e = k)) =
      l.filter (fun e => decide (z_ e = k)) ++ ds.filter (fun e => decide (z_ e = k)) := by
  induction ds generalizing l with
  | nil => simp [insertAll]
  | cons d ds ih =>
    simp only [insertAll, List.foldl_cons]
    have := ih (DrawableParent.InsertDrawable z_ d l) (zordered_InsertDrawable z_ d l h)
    simp only [insertAll] at this
    rw [this, filter_InsertDrawable z_ d k l h]
    by_cases hk : z_ d = k
    · rw [if_pos hk, List.filter_cons_of_pos (by simpa using hk)]
      simp
    · rw [if_neg hk, List.filter_cons_of_neg (by simpa using hk)]
      simp

theorem tail_lt_InsertDrawable (z_ : Nat → Int) (d : Nat) (pre post : List Nat)
    (hs : ZOrdered z_ (pre ++ post)) (hhead : ∀ e, post.head? = some e → z_ e < z_ d) :
    ∀ x ∈ post, z_ x < z_ d := by
  intro x hx
  cases post with
  | nil => simp at hx
  | cons h t =>
    have hh : z_ h < z_ d := hhead h rfl
    have hp : (h :: t).Pairwise (fun a b => z_ b ≤ z_ a) := (List.pairwise_append.1 hs).2.1
    rcases List.mem_cons.1 hx with rfl | hx
    · exact hh
    · exact lt_of_le_of_lt ((List.pairwise_cons.1 hp).1 x hx) hh

/-! ## Lemmas on the scene state -/

theorem zordered_congr (z_ z2 : Nat → Int) (l : List Nat) (h : ∀ x ∈ l, z_ x = z2 x)
    (hs : ZOrdered z_ l) : ZOrdered z2 l := by
  unfold ZOrdered at hs ⊢
  refine List.Pairwise.imp_of_mem ?_ hs
  intro a b ha hb hab
  rw [← h a ha, ← h b hb]
  exact hab

theorem zordered_erase (z_ : Nat → Int) (l : List Nat) (d : Nat) (hs : ZOrdered z_ l) :
    ZOrdered z_ (l.erase d) :=
  List.Pairwise.sublist (List.erase_sublist d l) hs

theorem z_store (s : Scene) (self : Nat) (o : Drawable) (m : Nat) :
    (s.store self (some o)).z_ m = if m = self then o.z_ else s.z_ m := by
  unfold Scene.z_ Scene.store
  by_cases h : m = self
  · subst h; simp
  · simp [Function.update_noteq h, h]

theorem Inv_empty : Scene.empty.Inv := by
  refine ⟨fun p => by simp [Scene.empty], fun p d => by simp [Scene.empty], fun p => ?_⟩
  simp [Scene.empty, ZOrdered]

theorem Inv_not_mem_of_detached (s : Scene) (hI : s.Inv) (self : Nat)
    (h : ∀ o, s.objs self = some o → o.parent_ = none) (p : Nat) : self ∉ s.drawables_ p := by
  intro hm
  obtain ⟨o, ho, hp⟩ := (hI.2.1 p self).1 hm
  rw [h o ho] at hp
  exact Option.noConfusion hp

/-- Unlinking `self` from its collection, rewriting its members and inserting it into
`parent`'s collection keeps the scene well formed. -/
theorem Inv_reinsert (s mid : Scene) (self parent : Nat) (o2 : Drawable) (hI : s.Inv)
    (hobjs : mid.objs = Function.update s.objs self (some o2))
    (hl : ∀ p, mid.drawables_ p = (s.drawables_ p).erase self)
    (hp : o2.parent_ = some parent) : (mid.InsertDrawable parent self).Inv := by
  obtain ⟨hnd, hmem, hord⟩ := hI
  have hz : ∀ m, m ≠ self → mid.z_ m = s.z_ m := by
    intro m hm
    unfold Scene.z_
    rw [hobjs, Function.update_noteq hm]
  have hzi : (mid.InsertDrawable parent self).z_ = mid.z_ := rfl
  have hnotin : ∀ p, self ∉ mid.drawables_ p := by
    intro p
    rw [hl p]
    exact fun h => ((hnd p).mem_erase_iff.1 h).1 rfl
  have hmidord : ∀ p, ZOrdered mid.z_ (mid.drawables_ p) := by
    intro p
    refine zordered_congr s.z_ mid.z_ _ ?_ (hl p ▸ zordered_erase _ _ _ (hord p))
    intro x hx
    exact (hz x (fun h => hnotin p (h ▸ hx))).symm
  have hlist : ∀ p, (mid.InsertDrawable parent self).drawables_ p =
      if p = parent then DrawableParent.InsertDrawable mid.z_ self (mid.drawables_ parent)
      else mid.drawables_ p := by
    intro p
    by_cases h : p = parent
    · subst h; simp [Scene.InsertDrawable]
    · simp [Scene.InsertDrawable, Function.update_noteq h, h]
  refine ⟨?_, ?_, ?_⟩
  · intro p
    rw [hlist p]
    split_ifs with h
    · refine (perm_InsertDrawable mid.z_ self _).nodup_iff.2 (List.nodup_cons.2 ⟨hnotin _, ?_⟩)
      rw [hl]
      exact (hnd parent).erase self
    · rw [hl]
      exact (hnd p).erase self
  · intro p d
    have hobjs2 : (mid.InsertDrawable parent self).objs = mid.objs := rfl
    rw [hlist p, hobjs2, hobjs]
    by_cases hd : d = self
    · subst hd
      simp only [Function.update_same, Option.some.injEq, exists_eq_left', hp]
      split_ifs with h
      · simp [mem_InsertDrawable, h]
      · constructor
        · intro hm
          exact absurd hm (hnotin p)
        · intro he
          exact absurd he.symm h
    · rw [Function.update_noteq hd, ← hmem p d]
      split_ifs with h
      · subst h
        rw [mem_InsertDrawable, hl, (hnd _).mem_erase_iff]
        simp [hd]
      · rw [hl, (hnd p).mem_erase_iff]
        simp [hd]
  · intro p
    rw [hzi, hlist p]
    split_ifs with h
    · exact zordered_InsertDrawable _ _ _ (hmidord parent)
    · exact hmidord p

/-- Under the invariant, `if (parent_) RemoveFromList();` leaves every collection equal to the
old one with `self` erased. -/
theorem Inv_guarded_remove (s : Scene) (hI : s.Inv) (self : Nat) (o : Drawable)
    (ho : s.objs self = some o) (p : Nat) :
    (if o.parent_.isSome then s.RemoveFromList self else s).drawables_ p =
      (s.drawables_ p).erase self := by
  split_ifs with h
  · rfl
  · have hnone : o.parent_ = none := by simpa using h
    have : self ∉ s.drawables_ p :=
      Inv_not_mem_of_detached s hI self (fun o2 ho2 => by
        rw [ho] at ho2; cases ho2; exact hnone) p
    exact (List.erase_of_not_mem this).symm

theorem guarded_remove_objs (s : Scene) (self : Nat) (b : Bool) :
    (if b then s.RemoveFromList self else s).objs = s.objs := by
  cases b <;> rfl

theorem Inv_ctor (s : Scene) (hI : s.Inv) (self parent : Nat) (z : Int) (visible : Bool)
    (hfresh : s.objs self = none) : (Drawable.ctor s self parent z visible).Inv := by
  unfold Drawable.ctor
  refine Inv_reinsert s _ self parent ⟨some parent, z, visible, false⟩ hI rfl ?_ rfl
  intro p
  have : self ∉ s.drawables_ p :=
    Inv_not_mem_of_detached s hI self (fun o ho => by rw [hfresh] at ho; cases ho) p
  exact (List.erase_of_not_mem this).symm

theorem SetParent_eq (s : Scene) (self parent : Nat) (o : Drawable)
    (ho : s.objs self = some o) (hd : o.disposed = false) :
    Drawable.SetParent s self parent =
      some (((if o.parent_.isSome then s.RemoveFromList self else s).store self
        (some { o with parent_ := some parent })).InsertDrawable parent self) := by
  simp [Drawable.SetParent, ho, hd]

theorem SetParent_some (s s2 : Scene) (self parent : Nat)
    (h : Drawable.SetParent s self parent = some s2) :
    ∃ o, s.objs self = some o ∧ o.disposed = false := by
  cases ho : s.objs self with
  | none => simp [Drawable.SetParent, ho] at h
  | some o =>
    cases hd : o.disposed with
    | true => simp [Drawable.SetParent, ho, hd] at h
    | false => exact ⟨o, rfl, hd⟩

theorem SetZ_eq_noop (s : Scene) (self : Nat) (z : Int) (o : Drawable)
    (ho : s.objs self = some o) (hd : o.disposed = false)
    (h : o.parent_ = none ∨ o.z_ = z) : Drawable.SetZ s self z = some s := by
  cases hp : o.parent_ with
  | none => simp [Drawable.SetZ, ho, hd, hp]
  | some parent =>
    rcases h with h | h
    · rw [hp] at h; cases h
    · simp [Drawable.SetZ, ho, hd, hp, h]

theorem SetZ_eq_move (s : Scene) (self : Nat) (z : Int) (o : Drawable) (parent : Nat)
    (ho : s.objs self = some o) (hd : o.disposed = false)
    (hp : o.parent_ = some parent) (hz : o.z_ ≠ z) :
    Drawable.SetZ s self z =
      some (((s.store self (some { o with z_ := z })).RemoveFromList self).InsertDrawable
        parent self) := by
  simp [Drawable.SetZ, ho, hd, hp, hz]

theorem SetZ_some (s s2 : Scene) (self : Nat) (z : Int)
    (h : Drawable.SetZ s self z = some s2) :
    ∃ o, s.objs self = some o ∧ o.disposed = false := by
  cases ho : s.objs self with
  | none => simp [Drawable.SetZ, ho] at h
  | some o =>
    cases hd : o.disposed with
    | true => simp [Drawable.SetZ, ho, hd] at h
    | false => exact ⟨o, rfl, hd⟩

theorem Inv_SetParent (s s2 : Scene) (hI : s.Inv) (self parent : Nat)
    (h : Drawable.SetParent s self parent = some s2) : s2.Inv := by
  obtain ⟨o, ho, hd⟩ := SetParent_some s s2 self parent h
  rw [SetParent_eq s self parent o ho hd] at h
  cases h
  refine Inv_reinsert s _ self parent { o with parent_ := some parent } hI ?_ ?_ rfl
  · simp only [Scene.store, guarded_remove_objs]
  · intro p
    exact Inv_guarded_remove s hI self o ho p

theorem Inv_SetZ (s s2 : Scene) (hI : s.Inv) (self : Nat) (z : Int)
    (h : Drawable.SetZ s self z = some s2) : s2.Inv := by
  obtain ⟨o, ho, hd⟩ := SetZ_some s s2 self z h
  by_cases hn : o.parent_ = none ∨ o.z_ = z
  · rw [SetZ_eq_noop s self z o ho hd hn] at h
    cases h
    exact hI
  · have hz : o.z_ ≠ z := fun hz => hn (Or.inr hz)
    cases hp : o.parent_ with
    | none => exact absurd (Or.inl hp) hn
    | some parent =>
      rw [SetZ_eq_move s self z o parent ho hd hp hz] at h
      cases h
      exact Inv_reinsert s _ self parent { o with z_ := z } hI rfl (fun p => rfl) hp

theorem Inv_dtor (s : Scene) (hI : s.Inv) (self : Nat) : (Drawable.dtor s self).Inv := by
  unfold Drawable.dtor
  split
  · exact hI
  · rename_i o ho
    have hl := Inv_guarded_remove s hI self o ho
    have hobjs := guarded_remove_objs s self o.parent_.isSome
    obtain ⟨hnd, hmem, hord⟩ := hI
    set mid := (if o.parent_.isSome then s.RemoveFromList self else s) with hmid
    have hnotin : ∀ p, self ∉ mid.drawables_ p := by
      intro p
      rw [hl p]
      exact fun h => ((hnd p).mem_erase_iff.1 h).1 rfl
    refine ⟨?_, ?_, ?_⟩
    · intro p
      show (mid.drawables_ p).Nodup
      rw [hl]
      exact (hnd p).erase self
    · intro p d
      show d ∈ mid.drawables_ p ↔ ∃ o2, Function.update mid.objs self none d = some o2 ∧ _
      by_cases hd : d = self
      · subst hd
        simp [hnotin p]
      · rw [Function.update_noteq hd, hobjs, ← hmem p d, hl, (hnd p).mem_erase_iff]
        simp [hd]
    · intro p
      show ZOrdered (mid.store self none).z_ (mid.drawables_ p)
      refine zordered_congr s.z_ _ _ ?_ (hl p ▸ zordered_erase _ _ _ (hord p))
      intro x hx
      have hx2 : x ≠ self := fun h => hnotin p (h ▸ hx)
      unfold Scene.z_ Scene.store
      simp only [Function.update_noteq hx2, hobjs]

theorem Inv_of_Reachable (s : Scene) (hr : s.Reachable) : s.Inv := by
  induction hr with
  | init => exact Inv_empty
  | step s s2 _ hstep ih =>
    cases hstep with
    | construct self parent z visible hfresh =>
      exact Inv_ctor s ih self parent z visible hfresh
    | setParent _ self parent h => exact Inv_SetParent s s2 ih self parent h
    | setZ _ self z h => exact Inv_SetZ s s2 ih self z h
    | destroy self _ => exact Inv_dtor s ih self

/-! ## Insertion order of the scene graph -/

/-- C1: `DrawableParent::InsertDrawable` applied to a collection in non-increasing `z` order
(the empty one included) gives a collection in non-increasing `z` order, on the list and on the
scene state alike; hence every finite sequence of inserts, started from such a collection and
in particular from the empty one, ends in non-increasing `z` order. The same order holds for
every collection of every scene reached by constructing, re-parenting, re-ordering and
destroying Drawables. -/
theorem InsertDrawable_keeps_z_order (s : Scene) (parent drawable : Nat)
    (h : ZOrdered s.z_ (s.drawables_ parent)) :
    ZOrdered s.z_ (DrawableParent.InsertDrawable s.z_ drawable (s.drawables_ parent)) ∧
    ZOrdered (s.InsertDrawable parent drawable).z_
      ((s.InsertDrawable parent drawable).drawables_ parent) ∧
    (∀ ds, ZOrdered s.z_ (insertAll s.z_ (s.drawables_ parent) ds)) ∧
    ZOrdered s.z_ [] ∧
    (∀ ds, ZOrdered s.z_ (insertAll s.z_ [] ds)) ∧
    (∀ r : Scene, r.Reachable → ∀ p, ZOrdered r.z_ (r.drawables_ p)) := by
  refine ⟨zordered_InsertDrawable _ _ _ h, ?_, fun ds => zordered_insertAll _ ds _ h, ?_,
    fun ds => zordered_insertAll _ ds [] ?_, fun r hr => (Inv_of_Reachable r hr).2.2⟩
  · have hz : (s.InsertDrawable parent drawable).z_ = s.z_ := rfl
    rw [hz]
    simpa [Scene.InsertDrawable] using zordered_InsertDrawable _ drawable _ h
  · simp [ZOrdered]
  · simp [ZOrdered]

theorem InsertDrawable_keeps_z_order_witness :
    ZOrdered sceneTwoFives.z_ (sceneTwoFives.drawables_ 0) ∧
    ZOrdered sceneTwoFives.z_
      (DrawableParent.InsertDrawable sceneTwoFives.z_ 2 (sceneTwoFives.drawables_ 0)) :=
  ⟨by decide, (InsertDrawable_keeps_z_order sceneTwoFives 0 2 (by decide)).1⟩

/-- C2: for a collection in non-increasing `z` order and a new node `n`, `InsertDrawable` puts
`n` immediately before the first existing node whose `z` is strictly less than `n`'s (every
node in front of `n` has `z` not less than `n`'s, the node right behind `n` has a strictly
smaller `z`), at the tail when there is no such node; the existing nodes keep their relative
order; nodes of equal `z` therefore appear in their insertion order; and constructing nodes
with `z = 5, 5, 10` in that order on one parent gives the order 10, 5 (first), 5 (second). -/
theorem InsertDrawable_position (z_ : Nat → Int) (drawables_ : List Nat) (n : Nat)
    (hs : ZOrdered z_ drawables_) (hn : n ∉ drawables_) :
    (∃ pre post, drawables_ = pre ++ post ∧
      DrawableParent.InsertDrawable z_ n drawables_ = pre ++ n :: post ∧
      (∀ e ∈ pre, ¬ z_ e < z_ n) ∧ (∀ e, post.head? = some e → z_ e < z_ n) ∧
      (∀ e ∈ post, z_ e < z_ n)) ∧
    ((∀ e ∈ drawables_, ¬ z_ e < z_ n) →
      DrawableParent.InsertDrawable z_ n drawables_ = drawables_ ++ [n]) ∧
    (DrawableParent.InsertDrawable z_ n drawables_).erase n = drawables_ ∧
    (∀ (ds : List Nat) (k : Int),
      (insertAll z_ [] ds).filter (fun e => decide (z_ e = k)) =
        ds.filter (fun e => decide (z_ e = k))) ∧
    (Drawable.ctor (Drawable.ctor (Drawable.ctor Scene.empty 0 0 5 true) 1 0 5 true)
      2 0 10 true).drawables_ 0 = [2, 0, 1] := by
  obtain ⟨pre, post, h1, h2, h3, h4⟩ := split_InsertDrawable z_ n drawables_
  have h5 := tail_lt_InsertDrawable z_ n pre post (h1 ▸ hs) h4
  refine ⟨⟨pre, post, h1, h2, h3, h4, h5⟩, ?_, erase_InsertDrawable z_ n drawables_ hn, ?_, ?_⟩
  · intro hall
    have hpost : post = [] := by
      cases post with
      | nil => rfl
      | cons h t =>
        exact absurd (h4 h rfl) (hall h (by simp [h1]))
    rw [h2, h1, hpost]
    simp
  · intro ds k
    have := filter_insertAll z_ k ds [] (by simp [ZOrdered])
    simpa using this
  · decide

theorem InsertDrawable_position_witness :
    ZOrdered sceneTwoFives.z_ [0, 1] ∧ 2 ∉ [0, 1] ∧
    (DrawableParent.InsertDrawable sceneTwoFives.z_ 2 [0, 1]).erase 2 = [0, 1] :=
  ⟨by decide, by decide,
    (InsertDrawable_position sceneTwoFives.z_ [0, 1] 2 (by decide) (by decide)).2.2.1⟩

/-- C3, as stated, fails: with an existing node 0 of `z = 5`, inserting the new node 1 of
`z = 5` gives the order 0, 1, so the new node is not placed before the existing one. -/
theorem InsertDrawable_tie_counterexample :
    ZOrdered (fun _ => (5 : Int)) [0] ∧ 0 ∈ [0] ∧ 1 ∉ [0] ∧
    DrawableParent.InsertDrawable (fun _ => (5 : Int)) 1 [0] = [0, 1] ∧
    ¬ PlacedBefore (DrawableParent.InsertDrawable (fun _ => (5 : Int)) 1 [0]) 1 0 := by
  decide

/-- C3, amended: when a collection in non-increasing `z` order contains a node `e` and a new
node `n` has the same `z` as `e`, then after `InsertDrawable(n)` the node `e` comes before `n`
(an existing node wins a tie against a new node of equal `z`). -/
theorem InsertDrawable_tie_existing_first (z_ : Nat → Int) (drawables_ : List Nat) (e n : Nat)
    (hs : ZOrdered z_ drawables_) (he : e ∈ drawables_) (hn : n ∉ drawables_)
    (hz : z_ n = z_ e) :
    PlacedBefore (DrawableParent.InsertDrawable z_ n drawables_) e n := by
  obtain ⟨pre, post, h1, h2, h3, h4⟩ := split_InsertDrawable z_ n drawables_
  have h5 := tail_lt_InsertDrawable z_ n pre post (h1 ▸ hs) h4
  have hepre : e ∈ pre := by
    rw [h1] at he
    rcases List.mem_append.1 he with h | h
    · exact h
    · exact absurd (h5 e h) (by omega)
  have hnpre : n ∉ pre := fun h => hn (by rw [h1]; exact List.mem_append_left _ h)
  refine ⟨(mem_InsertDrawable _ _ _ _).2 (Or.inr he), (mem_InsertDrawable _ _ _ _).2 (Or.inl rfl),
    ?_⟩
  rw [h2, List.indexOf_append_of_mem hepre, List.indexOf_append_of_not_mem hnpre,
    List.indexOf_cons_self]
  simpa using List.indexOf_lt_length.2 hepre

theorem InsertDrawable_tie_existing_first_witness :
    ZOrdered sceneTwoFives.z_ [0] ∧ 0 ∈ [0] ∧ 1 ∉ [0] ∧
    sceneTwoFives.z_ 1 = sceneTwoFives.z_ 0 ∧
    PlacedBefore (DrawableParent.InsertDrawable sceneTwoFives.z_ 1 [0]) 0 1 :=
  ⟨by decide, by decide, by decide, by decide,
    InsertDrawable_tie_existing_first sceneTwoFives.z_ [0] 0 1 (by decide) (by decide)
      (by decide) (by decide)⟩

/-- C4: `Drawable::SetZ(z)` on a live, non-disposed node returns the state unchanged when the
node is detached or `z` is its current value; otherwise, for a node linked once into its
parent's z-ordered collection, the node's `z_` becomes `z` (its other members and all other
nodes are as before), the parent's collection is a permutation of the old one, the other nodes
keep their relative order, the collection is again in non-increasing `z` order, and every
collection that does not hold the node is untouched. -/
theorem SetZ_reorders (s : Scene) (self : Nat) (z : Int) (o : Drawable)
    (ho : s.objs self = some o) (hd : o.disposed = false) :
    ((o.parent_ = none ∨ o.z_ = z) → Drawable.SetZ s self z = some s) ∧
    (∀ parent, o.parent_ = some parent → o.z_ ≠ z →
      self ∈ s.drawables_ parent → (s.drawables_ parent).Nodup →
      ZOrdered s.z_ (s.drawables_ parent) →
      ∃ s2, Drawable.SetZ s self z = some s2 ∧
        s2.objs self = some { o with z_ := z } ∧ s2.z_ self = z ∧
        (∀ d, d ≠ self → s2.objs d = s.objs d) ∧
        (s2.drawables_ parent).Perm (s.drawables_ parent) ∧
        (s2.drawables_ parent).erase self = (s.drawables_ parent).erase self ∧
        ZOrdered s2.z_ (s2.drawables_ parent) ∧
        (∀ p, p ≠ parent → self ∉ s.drawables_ p → s2.drawables_ p = s.drawables_ p)) := by
  refine ⟨SetZ_eq_noop s self z o ho hd, ?_⟩
  intro parent hp hz hmem hnd hord
  refine ⟨_, SetZ_eq_move s self z o parent ho hd hp hz, ?_⟩
  set mid := (s.store self (some { o with z_ := z })).RemoveFromList self with hmid
  have hzfun : (mid.InsertDrawable parent self).z_ = mid.z_ := rfl
  have hzmid : ∀ m, mid.z_ m = if m = self then z else s.z_ m := by
    intro m
    exact z_store s self { o with z_ := z } m
  have hl : ∀ p, mid.drawables_ p = (s.drawables_ p).erase self := fun p => rfl
  have hlp : (mid.InsertDrawable parent self).drawables_ parent =
      DrawableParent.InsertDrawable mid.z_ self ((s.drawables_ parent).erase self) := by
    simp [Scene.InsertDrawable, hl]
  have hnotin : self ∉ (s.drawables_ parent).erase self :=
    fun h => (hnd.mem_erase_iff.1 h).1 rfl
  refine ⟨?_, ?_, ?_, ?_, ?_, ?_, ?_⟩
  · simp [Scene.InsertDrawable, hmid, Scene.RemoveFromList, Scene.store]
  · rw [hzfun, hzmid]; simp
  · intro d hne
    simp [Scene.InsertDrawable, hmid, Scene.RemoveFromList, Scene.store,
      Function.update_noteq hne]
  · rw [hlp]
    exact (perm_InsertDrawable _ _ _).trans (List.perm_cons_erase hmem).symm
  · rw [hlp]
    exact erase_InsertDrawable _ _ _ hnotin
  · rw [hzfun, hlp]
    refine zordered_InsertDrawable _ _ _ ?_
    refine zordered_congr s.z_ mid.z_ _ ?_ (zordered_erase _ _ _ hord)
    intro x hx
    have hx2 : x ≠ self := fun h => hnotin (h ▸ hx)
    rw [hzmid, if_neg hx2]
  · intro p hpne hnot
    have : (mid.InsertDrawable parent self).drawables_ p = mid.drawables_ p := by
      simp [Scene.InsertDrawable, Function.update_noteq hpne]
    rw [this, hl]
    exact List.erase_of_not_mem hnot

theorem SetZ_reorders_witness :
    sceneTwoFives.objs 0 = some ⟨some 0, 5, true, false⟩ ∧
    (0 : Nat) ∈ sceneTwoFives.drawables_ 0 ∧ (sceneTwoFives.drawables_ 0).Nodup ∧
    ZOrdered sceneTwoFives.z_ (sceneTwoFives.drawables_ 0) ∧
    ∃ s2, Drawable.SetZ sceneTwoFives 0 3 = some s2 ∧
      s2.objs 0 = some ⟨some 0, 3, true, false⟩ ∧ s2.z_ 0 = 3 ∧
      (∀ d, d ≠ 0 → s2.objs d = sceneTwoFives.objs d) ∧
      (s2.drawables_ 0).Perm (sceneTwoFives.drawables_ 0) ∧
      (s2.drawables_ 0).erase 0 = (sceneTwoFives.drawables_ 0).erase 0 ∧
      ZOrdered s2.z_ (s2.drawables_ 0) ∧
      (∀ p, p ≠ 0 → 0 ∉ sceneTwoFives.drawables_ p →
        s2.drawables_ p = sceneTwoFives.drawables_ p) :=
  ⟨by decide, by decide, by decide, by decide,
    (SetZ_reorders sceneTwoFives 0 3 ⟨some 0, 5, true, false⟩ (by decide) rfl).2 0 rfl
      (by decide) (by decide) (by decide) (by decide)⟩

/-- C5: in every state reached from the empty scene by constructing Drawables, `SetParent`,
`SetZ` and destroying Drawables, a node that is in a parent's collection is a live object whose
back-reference names that parent, so it is in at most one collection, and in that one only
once; `SetParent(p)` on a non-disposed node attached to `q` succeeds, takes the node out of
`q`'s collection and puts it at its sorted position into `p`'s, which is then the only
collection holding it; destroying an attached node leaves it in no collection. -/
theorem Drawable_in_one_collection (s : Scene) (hr : s.Reachable) :
    (∀ d p, d ∈ s.drawables_ p → ∃ o, s.objs d = some o ∧ o.parent_ = some p) ∧
    (∀ d p q, d ∈ s.drawables_ p → d ∈ s.drawables_ q → p = q) ∧
    (∀ p, (s.drawables_ p).Nodup) ∧
    (∀ d o q p, s.objs d = some o → o.disposed = false → o.parent_ = some q →
      d ∈ s.drawables_ q ∧
      ∃ s2, Drawable.SetParent s d p = some s2 ∧
        (q ≠ p → d ∉ s2.drawables_ q) ∧
        (∀ r, d ∈ s2.drawables_ r ↔ r = p) ∧
        s2.objs d = some { o with parent_ := some p } ∧
        s2.drawables_ p =
          DrawableParent.InsertDrawable s2.z_ d ((s.drawables_ p).erase d) ∧
        ZOrdered s2.z_ (s2.drawables_ p) ∧
        (∀ r, r ≠ p → s2.drawables_ r = (s.drawables_ r).erase d)) ∧
    (∀ d o q, s.objs d = some o → o.parent_ = some q →
      d ∈ s.drawables_ q ∧
      (∀ r, d ∉ (Drawable.dtor s d).drawables_ r) ∧
      (Drawable.dtor s d).objs d = none ∧
      (∀ r, (Drawable.dtor s d).drawables_ r = (s.drawables_ r).erase d)) := by
  have hI := Inv_of_Reachable s hr
  refine ⟨fun d p h => (hI.2.1 p d).1 h, ?_, hI.1, ?_, ?_⟩
  · intro d p q hp hq
    obtain ⟨o, ho, h1⟩ := (hI.2.1 p d).1 hp
    obtain ⟨o2, ho2, h2⟩ := (hI.2.1 q d).1 hq
    rw [ho] at ho2
    cases ho2
    rw [h1] at h2
    exact Option.some.inj h2
  · intro d o q p ho hd hq
    refine ⟨(hI.2.1 q d).2 ⟨o, ho, hq⟩, _, SetParent_eq s d p o ho hd, ?_⟩
    have hI2 := Inv_SetParent s _ hI d p (SetParent_eq s d p o ho hd)
    set mid := (if o.parent_.isSome then s.RemoveFromList d else s) with hmid
    have hl : ∀ r, mid.drawables_ r = (s.drawables_ r).erase d :=
      Inv_guarded_remove s hI d o ho
    have hobj : ((mid.store d (some { o with parent_ := some p })).InsertDrawable p d).objs d =
        some { o with parent_ := some p } := by
      simp [Scene.InsertDrawable, Scene.store]
    have hiff : ∀ r, d ∈ ((mid.store d
        (some { o with parent_ := some p })).InsertDrawable p d).drawables_ r ↔ r = p := by
      intro r
      rw [hI2.2.1 r d, hobj]
      simp [eq_comm]
    refine ⟨?_, hiff, hobj, ?_, hI2.2.2 p, ?_⟩
    · intro hne hin
      exact hne ((hiff q).1 hin)
    · have hlp := hl p
      simp only [Scene.InsertDrawable, Scene.store, Function.update_same] at hlp ⊢
      rw [hlp]
      rfl
    · intro r hr2
      have hlr := hl r
      simp only [Scene.InsertDrawable, Scene.store, Function.update_noteq hr2] at hlr ⊢
      exact hlr
  · intro d o q ho hq
    have hI2 := Inv_dtor s hI d
    have hobj : (Drawable.dtor s d).objs d = none := by
      simp [Drawable.dtor, ho, Scene.store]
    refine ⟨(hI.2.1 q d).2 ⟨o, ho, hq⟩, ?_, hobj, ?_⟩
    · intro r hin
      obtain ⟨o2, ho2, _⟩ := (hI2.2.1 r d).1 hin
      rw [hobj] at ho2
      cases ho2
    · intro r
      have := Inv_guarded_remove s hI d o ho r
      simpa [Drawable.dtor, ho, Scene.store] using this

theorem Drawable_in_one_collection_witness :
    sceneTwoParents.Reachable ∧
    ∃ s2, Drawable.SetParent sceneTwoParents 0 1 = some s2 ∧
      ((0 : Nat) ≠ 1 → 0 ∉ s2.drawables_ 0) ∧
      (∀ r, 0 ∈ s2.drawables_ r ↔ r = 1) ∧
      s2.objs 0 = some ⟨some 1, 5, true, false⟩ ∧
      s2.drawables_ 1 =
        DrawableParent.InsertDrawable s2.z_ 0 ((sceneTwoParents.drawables_ 1).erase 0) ∧
      ZOrdered s2.z_ (s2.drawables_ 1) ∧
      (∀ r, r ≠ 1 → s2.drawables_ r = (sceneTwoParents.drawables_ r).erase 0) :=
  have hr : sceneTwoParents.Reachable :=
    Scene.Reachable.step _ _
      (Scene.Reachable.step _ _ Scene.Reachable.init
        (Scene.Step.construct Scene.empty 0 0 5 true rfl))
      (Scene.Step.construct _ 1 1 7 true (by decide))
  ⟨hr, ((Drawable_in_one_collection sceneTwoParents hr).2.2.2.1 0 ⟨some 0, 5, true, false⟩ 0 1
    (by decide) rfl rfl).2⟩

/-! ## Lemmas on single-precision arithmetic -/

theorem F32.log2Aux_spec : ∀ (fuel n : Nat), 0 < n → n ≤ fuel →
    2 ^ F32.log2Aux fuel n ≤ n ∧ n < 2 ^ (F32.log2Aux fuel n + 1) := by
  intro fuel
  induction fuel with
  | zero => intro n h1 h2; omega
  | succ f ih =>
    intro n h1 h2
    unfold F32.log2Aux
    split_ifs with h
    · constructor <;> simp <;> omega
    · have hn2 : 0 < n / 2 := Nat.div_pos (by omega) (by omega)
      have hle : n / 2 ≤ f := by omega
      obtain ⟨a, b⟩ := ih (n / 2) hn2 hle
      constructor
      · rw [pow_succ]; omega
      · rw [pow_succ]; omega

theorem F32.log2_spec (n : Nat) (h : 0 < n) :
    2 ^ F32.log2 n ≤ n ∧ n < 2 ^ (F32.log2 n + 1) :=
  F32.log2Aux_spec n n h le_rfl

theorem F32.pow2_ratio (k : Int) :
    (F32.pow2 k : ℚ) / (F32.pow2 (-k) : ℚ) = (2 : ℚ) ^ k := by
  unfold F32.pow2
  rcases le_or_lt 0 k with h | h
  · have h2 : (-k).toNat = 0 := by omega
    rw [h2]
    simp only [pow_zero, Nat.cast_one, div_one, Nat.cast_pow, Nat.cast_ofNat]
    rw [← zpow_natCast, Int.toNat_of_nonneg h]
  · have h2 : k.toNat = 0 := by omega
    rw [h2]
    simp only [pow_zero, Nat.cast_one, Nat.cast_pow, Nat.cast_ofNat, one_div]
    rw [← zpow_natCast, Int.toNat_of_nonneg (by omega), zpow_neg, inv_inv]

theorem F32.pow2_pos (k : Int) : 0 < F32.pow2 k := by
  unfold F32.pow2
  positivity

theorem F32.num_div_den (x : F32) : (x.num : ℚ) / (x.den : ℚ) = x.toRat := by
  unfold F32.num F32.den F32.toRat
  rw [← F32.pow2_ratio x.e]
  push_cast
  ring

/-- The scale chosen by `F32.round` is the binary exponent of `a / d`. -/
theorem F32.exponent_spec (a d : Nat) (ha : 0 < a) (hd : 0 < d) :
    (2 : ℚ) ^ F32.exponent a d ≤ (a : ℚ) / d ∧
    (a : ℚ) / d < (2 : ℚ) ^ (F32.exponent a d + 1) := by
  have key : ∀ e : Int,
      e = (if d * F32.pow2 ((F32.log2 a : Int) - (F32.log2 d : Int)) ≤
            a * F32.pow2 (-((F32.log2 a : Int) - (F32.log2 d : Int)))
          then (F32.log2 a : Int) - (F32.log2 d : Int)
          else (F32.log2 a : Int) - (F32.log2 d : Int) - 1) →
      (2 : ℚ) ^ e ≤ (a : ℚ) / d ∧ (a : ℚ) / d < (2 : ℚ) ^ (e + 1) := by
    intro e he
    obtain ⟨a1, a2⟩ := F32.log2_spec a ha
    obtain ⟨d1, d2⟩ := F32.log2_spec d hd
    have hdq : (0 : ℚ) < d := by exact_mod_cast hd
    have haq : (0 : ℚ) < a := by exact_mod_cast ha
    set la := F32.log2 a
    set ld := F32.log2 d
    have a1q : (2 : ℚ) ^ (la : Int) ≤ a := by rw [zpow_natCast]; exact_mod_cast a1
    have a2q : (a : ℚ) < (2 : ℚ) ^ ((la : Int) + 1) := by
      rw [show ((la : Int) + 1) = ((la + 1 : Nat) : Int) by push_cast; rfl, zpow_natCast]
      exact_mod_cast a2
    have d1q : (2 : ℚ) ^ (ld : Int) ≤ d := by rw [zpow_natCast]; exact_mod_cast d1
    have d2q : (d : ℚ) < (2 : ℚ) ^ ((ld : Int) + 1) := by
      rw [show ((ld : Int) + 1) = ((ld + 1 : Nat) : Int) by push_cast; rfl, zpow_natCast]
      exact_mod_cast d2
    have h2 : (0 : ℚ) < 2 := by norm_num
    -- a / d < 2 ^ (e0 + 1) and 2 ^ (e0 - 1) < a / d
    have hup : (a : ℚ) / d < (2 : ℚ) ^ ((la : Int) - ld + 1) := by
      rw [div_lt_iff₀ hdq]
      calc (a : ℚ) < (2 : ℚ) ^ ((la : Int) + 1) := a2q
        _ = (2 : ℚ) ^ ((la : Int) - ld + 1) * (2 : ℚ) ^ (ld : Int) := by
          rw [← zpow_add₀ (by norm_num : (2 : ℚ) ≠ 0)]; congr 1; ring
        _ ≤ (2 : ℚ) ^ ((la : Int) - ld + 1) * d :=
          mul_le_mul_of_nonneg_left d1q (le_of_lt (zpow_pos h2 _))
    have hlo : (2 : ℚ) ^ ((la : Int) - ld - 1) ≤ (a : ℚ) / d := by
      rw [le_div_iff₀ hdq]
      calc (2 : ℚ) ^ ((la : Int) - ld - 1) * d
          ≤ (2 : ℚ) ^ ((la : Int) - ld - 1) * (2 : ℚ) ^ ((ld : Int) + 1) :=
            mul_le_mul_of_nonneg_left (le_of_lt d2q) (le_of_lt (zpow_pos h2 _))
        _ = (2 : ℚ) ^ (la : Int) := by
          rw [← zpow_add₀ (by norm_num : (2 : ℚ) ≠ 0)]; congr 1; ring
        _ ≤ a := a1q
    have hcond : (d * F32.pow2 ((la : Int) - ld) ≤ a * F32.pow2 (-((la : Int) - ld))) ↔
        (2 : ℚ) ^ ((la : Int) - ld) ≤ (a : ℚ) / d := by
      have hp := F32.pow2_ratio ((la : Int) - ld)
      have hpos : (0 : ℚ) < (F32.pow2 (-((la : Int) - ld)) : ℚ) := by
        exact_mod_cast F32.pow2_pos _
      rw [← hp, div_le_div_iff₀ hpos hdq]
      constructor
      · intro h
        have : ((d * F32.pow2 ((la : Int) - ld) : Nat) : ℚ) ≤
            ((a * F32.pow2 (-((la : Int) - ld)) : Nat) : ℚ) := by exact_mod_cast h
        push_cast at this
        linarith
      · intro h
        have : ((d * F32.pow2 ((la : Int) - ld) : Nat) : ℚ) ≤
            ((a * F32.pow2 (-((la : Int) - ld)) : Nat) : ℚ) := by
          push_cast
          linarith
        exact_mod_cast this
    by_cases hc : d * F32.pow2 ((la : Int) - ld) ≤ a * F32.pow2 (-((la : Int) - ld))
    · rw [if_pos hc] at he
      subst he
      exact ⟨hcond.1 hc, hup⟩
    · rw [if_neg hc] at he
      subst he
      refine ⟨hlo, ?_⟩
      have := mt hcond.2 hc
      rw [show ((la : Int) - ld - 1 + 1) = (la : Int) - ld by ring]
      exact lt_of_not_le this
  exact key _ rfl

/-- Rounding the quotient of two naturals to the nearest integer, ties to even, is off by at
most one half. -/
theorem F32.nearest_error (num den : Nat) (hden : 0 < den) :
    |((F32.nearest num den : Nat) : ℚ) - (num : ℚ) / den| ≤ 1 / 2 := by
  unfold F32.nearest
  simp only []
  have hdq : (0 : ℚ) < den := by exact_mod_cast hden
  have hdm : (num : ℚ) = den * ((num / den : Nat) : ℚ) + ((num % den : Nat) : ℚ) := by
    exact_mod_cast (Nat.div_add_mod num den).symm
  have hQ : (num : ℚ) / den = ((num / den : Nat) : ℚ) + ((num % den : Nat) : ℚ) / den := by
    rw [hdm]
    field_simp
    ring
  have hr0 : (0 : ℚ) ≤ ((num % den : Nat) : ℚ) / den := by positivity
  have hr1 : ((num % den : Nat) : ℚ) / den < 1 := by
    rw [div_lt_one hdq]
    exact_mod_cast Nat.mod_lt num hden
  rw [hQ]
  split_ifs with h1 h2 h3
  · have : ((num % den : Nat) : ℚ) / den ≤ 1 / 2 := by
      rw [div_le_iff₀ hdq]
      have : ((2 * (num % den) : Nat) : ℚ) < den := by exact_mod_cast h1
      push_cast at this
      linarith
    rw [abs_le]
    constructor <;> linarith
  · have : 1 / 2 ≤ ((num % den : Nat) : ℚ) / den := by
      rw [le_div_iff₀ hdq]
      have : (den : ℚ) < ((2 * (num % den) : Nat) : ℚ) := by exact_mod_cast h2
      push_cast at this
      linarith
    rw [abs_le]
    push_cast
    constructor <;> linarith
  · have h4 : 2 * (num % den) = den := by omega
    have : ((num % den : Nat) : ℚ) / den = 1 / 2 := by
      rw [div_eq_iff (ne_of_gt hdq)]
      have : ((2 * (num % den) : Nat) : ℚ) = den := by exact_mod_cast h4
      push_cast at this
      linarith
    rw [abs_le]
    constructor <;> linarith
  · have h4 : 2 * (num % den) = den := by omega
    have : ((num % den : Nat) : ℚ) / den = 1 / 2 := by
      rw [div_eq_iff (ne_of_gt hdq)]
      have : ((2 * (num % den) : Nat) : ℚ) = den := by exact_mod_cast h4
      push_cast at this
      linarith
    rw [abs_le]
    push_cast
    constructor <;> linarith

theorem F32.scaled_ratio (a d : Nat) (k1 k2 : Int) (h : k2 = -k1) (hd : 0 < d) :
    ((a * F32.pow2 k1 : Nat) : ℚ) / ((d * F32.pow2 k2 : Nat) : ℚ) =
      (a : ℚ) / d * (2 : ℚ) ^ k1 := by
  subst h
  rw [← F32.pow2_ratio k1]
  have hdq : (d : ℚ) ≠ 0 := by exact_mod_cast (ne_of_gt hd)
  have hp : ((F32.pow2 (-k1) : Nat) : ℚ) ≠ 0 := by exact_mod_cast (ne_of_gt (F32.pow2_pos _))
  push_cast
  field_simp

/-- The shape of a rounded nonzero fraction: a significand `M` within one half of the scaled
magnitude, at the binary exponent `e` of the magnitude. -/
theorem F32.round_shape (n : Int) (d : Nat) (hn : n ≠ 0) (hd : 0 < d) :
    ∃ (e : Int) (M : Nat),
      F32.round n d =
        (if M = 2 ^ 24 then ⟨n.sign * 2 ^ 23, e - 22⟩ else ⟨n.sign * M, e - 23⟩) ∧
      ((2 : ℚ) ^ e ≤ (n.natAbs : ℚ) / d ∧ (n.natAbs : ℚ) / d < (2 : ℚ) ^ (e + 1)) ∧
      |(M : ℚ) - (n.natAbs : ℚ) / d * (2 : ℚ) ^ (23 - e)| ≤ 1 / 2 := by
  have ha : 0 < n.natAbs := Int.natAbs_pos.2 hn
  refine ⟨F32.exponent n.natAbs d,
    F32.nearest (n.natAbs * F32.pow2 (23 - F32.exponent n.natAbs d))
      (d * F32.pow2 (F32.exponent n.natAbs d - 23)), ?_, F32.exponent_spec n.natAbs d ha hd, ?_⟩
  · unfold F32.round
    rw [if_neg hn]
  · rw [← F32.scaled_ratio n.natAbs d (23 - F32.exponent n.natAbs d)
      (F32.exponent n.natAbs d - 23) (by ring) hd]
    exact F32.nearest_error _ _ (Nat.mul_pos hd (F32.pow2_pos _))

/-- Rounding to binary32 has a relative error of at most `2 ^ (-24)`. -/
theorem F32.round_error (n : Int) (d : Nat) (hd : 0 < d) :
    |(F32.round n d).toRat - (n : ℚ) / d| ≤ |(n : ℚ) / d| / 2 ^ 24 := by
  by_cases hn : n = 0
  · subst hn
    simp [F32.round, F32.toRat]
  · obtain ⟨e, M, hr, ⟨hlo, _⟩, hM⟩ := F32.round_shape n d hn hd
    have hdq : (0 : ℚ) < d := by exact_mod_cast hd
    have h2 : (2 : ℚ) ≠ 0 := by norm_num
    have hval : (F32.round n d).toRat = (n.sign : ℚ) * M * (2 : ℚ) ^ (e - 23) := by
      rw [hr]
      split_ifs with h24
      · simp only [F32.toRat]
        rw [h24, show e - 22 = (e - 23) + 1 by ring, zpow_add₀ h2]
        push_cast
        ring
      · simp only [F32.toRat]
        push_cast
        ring
    have hsign : (n : ℚ) = (n.sign : ℚ) * (n.natAbs : ℚ) := by
      have h : (n.sign : ℚ) * ((n.natAbs : Int) : ℚ) = (n : ℚ) := by
        rw [← Int.cast_mul, Int.sign_mul_natAbs]
      rw [← h, Int.cast_natCast]
    have hexact : (n : ℚ) / d =
        (n.sign : ℚ) * ((n.natAbs : ℚ) / d * (2 : ℚ) ^ (23 - e)) * (2 : ℚ) ^ (e - 23) := by
      have : (2 : ℚ) ^ (23 - e) * (2 : ℚ) ^ (e - 23) = 1 := by
        rw [← zpow_add₀ h2, show (23 - e) + (e - 23) = 0 by ring, zpow_zero]
      calc (n : ℚ) / d = (n.sign : ℚ) * ((n.natAbs : ℚ) / d) * 1 := by
            rw [hsign]; simp; ring
        _ = _ := by rw [← this]; ring
    have habs_sign : |(n.sign : ℚ)| = 1 := by
      rcases lt_or_gt_of_ne hn with h | h
      · rw [Int.sign_eq_neg_one_of_neg h]; simp
      · rw [Int.sign_eq_one_of_pos h]; simp
    have hpos : (0 : ℚ) < (2 : ℚ) ^ (e - 23) := zpow_pos (by norm_num) _
    have hdiff : (F32.round n d).toRat - (n : ℚ) / d =
        (n.sign : ℚ) * ((M : ℚ) - (n.natAbs : ℚ) / d * (2 : ℚ) ^ (23 - e)) *
          (2 : ℚ) ^ (e - 23) := by
      rw [hval, hexact]; ring
    have habsn : |(n : ℚ) / d| = (n.natAbs : ℚ) / d := by
      rw [abs_div, abs_of_pos hdq]
      congr 1
      rw [Nat.cast_natAbs]
      simp
    rw [hdiff, abs_mul, abs_mul, habs_sign, one_mul, abs_of_pos hpos, habsn]
    calc |(M : ℚ) - (n.natAbs : ℚ) / d * (2 : ℚ) ^ (23 - e)| * (2 : ℚ) ^ (e - 23)
        ≤ 1 / 2 * (2 : ℚ) ^ (e - 23) := mul_le_mul_of_nonneg_right hM (le_of_lt hpos)
      _ = (2 : ℚ) ^ e / 2 ^ 24 := by
        rw [show e - 23 = e + (-23) by ring, zpow_add₀ h2]
        norm_num
        ring
      _ ≤ (n.natAbs : ℚ) / d / 2 ^ 24 := by
        apply div_le_div_of_nonneg_right hlo
        positivity

/-- A value within one half of a natural number is that number, when it is a natural itself. -/
theorem F32.nat_of_near (M N : Nat) (h : |(M : ℚ) - (N : ℚ)| ≤ 1 / 2) : M = N := by
  rw [abs_le] at h
  have h1 : (N : ℚ) < (M : ℚ) + 1 := by linarith [h.1]
  have h2 : (M : ℚ) < (N : ℚ) + 1 := by linarith [h.2]
  have h3 : N < M + 1 := by exact_mod_cast h1
  have h4 : M < N + 1 := by exact_mod_cast h2
  omega

theorem F32.round_value (n : Int) (d : Nat) (hn : n ≠ 0) (hd : 0 < d) :
    ∃ (e : Int) (M : Nat),
      (F32.round n d).toRat = (n.sign : ℚ) * M * (2 : ℚ) ^ (e - 23) ∧
      ((2 : ℚ) ^ e ≤ (n.natAbs : ℚ) / d ∧ (n.natAbs : ℚ) / d < (2 : ℚ) ^ (e + 1)) ∧
      |(M : ℚ) - (n.natAbs : ℚ) / d * (2 : ℚ) ^ (23 - e)| ≤ 1 / 2 := by
  obtain ⟨e, M, hr, hb, hM⟩ := F32.round_shape n d hn hd
  refine ⟨e, M, ?_, hb, hM⟩
  have h2 : (2 : ℚ) ≠ 0 := by norm_num
  rw [hr]
  split_ifs with h24
  · simp only [F32.toRat]
    rw [h24, show e - 22 = (e - 23) + 1 by ring, zpow_add₀ h2]
    push_cast
    ring
  · simp only [F32.toRat]
    push_cast
    ring

theorem F32.sign_mul_natAbs_cast (n : Int) : (n.sign : ℚ) * (n.natAbs : ℚ) = (n : ℚ) := by
  have h : (n.sign : ℚ) * ((n.natAbs : Int) : ℚ) = (n : ℚ) := by
    rw [← Int.cast_mul, Int.sign_mul_natAbs]
  rw [← h, Int.cast_natCast]

/-- An `int` of magnitude below `2 ^ 24` converts to `float` without rounding. -/
theorem F32.ofInt_exact (i : Int) (h : i.natAbs < 2 ^ 24) : (F32.ofInt i).toRat = (i : ℚ) := by
  unfold F32.ofInt
  by_cases hn : i = 0
  · subst hn
    simp [F32.round, F32.toRat]
  · obtain ⟨e, M, hv, ⟨hlo, _⟩, hM⟩ := F32.round_value i 1 hn Nat.one_pos
    have h2 : (2 : ℚ) ≠ 0 := by norm_num
    simp only [Nat.cast_one, div_one] at hlo hM
    have he : e < 24 := by
      by_contra hcon
      have h24 : (2 : ℚ) ^ (24 : Int) ≤ (2 : ℚ) ^ e :=
        zpow_le_zpow_right₀ (by norm_num) (by omega)
      have : ((2 ^ 24 : Nat) : ℚ) ≤ (i.natAbs : ℚ) := by
        refine le_trans ?_ (le_trans h24 hlo)
        norm_num
      have : 2 ^ 24 ≤ i.natAbs := by exact_mod_cast this
      omega
    have hpow : (2 : ℚ) ^ (23 - e) = ((2 ^ (23 - e).toNat : Nat) : ℚ) := by
      rw [Nat.cast_pow, Nat.cast_ofNat, ← zpow_natCast, Int.toNat_of_nonneg (by omega)]
    rw [hpow, ← Nat.cast_mul] at hM
    have hMN := F32.nat_of_near _ _ hM
    rw [hv, hMN, Nat.cast_mul, ← hpow]
    have : (2 : ℚ) ^ (23 - e) * (2 : ℚ) ^ (e - 23) = 1 := by
      rw [← zpow_add₀ h2, show (23 - e) + (e - 23) = 0 by ring, zpow_zero]
    calc (i.sign : ℚ) * ((i.natAbs : ℚ) * (2 : ℚ) ^ (23 - e)) * (2 : ℚ) ^ (e - 23)
        = (i.sign : ℚ) * (i.natAbs : ℚ) * ((2 : ℚ) ^ (23 - e) * (2 : ℚ) ^ (e - 23)) := by ring
      _ = (i : ℚ) := by rw [this, mul_one, F32.sign_mul_natAbs_cast]

theorem F32.den_pos (x : F32) : 0 < x.den := F32.pow2_pos _

/-- The `float` product is the exact product up to a relative error of `2 ^ (-24)`. -/
theorem F32.mul_error (x y : F32) :
    |(x.mul y).toRat - x.toRat * y.toRat| ≤ |x.toRat * y.toRat| / 2 ^ 24 := by
  have h := F32.round_error (x.num * y.num) (x.den * y.den)
    (Nat.mul_pos x.den_pos y.den_pos)
  have hx : ((x.num * y.num : Int) : ℚ) / ((x.den * y.den : Nat) : ℚ) =
      x.toRat * y.toRat := by
    rw [← F32.num_div_den x, ← F32.num_div_den y]
    push_cast
    rw [div_mul_div_comm]
  rw [hx] at h
  exact h

/-- The `float` quotient is the exact quotient up to a relative error of `2 ^ (-24)`. -/
theorem F32.div_error (x y : F32) (hy : y.num ≠ 0) :
    |(x.div y).toRat - x.toRat / y.toRat| ≤ |x.toRat / y.toRat| / 2 ^ 24 := by
  have hpos : 0 < x.den * y.num.natAbs := Nat.mul_pos x.den_pos (Int.natAbs_pos.2 hy)
  have h := F32.round_error (y.num.sign * x.num * y.den) (x.den * y.num.natAbs) hpos
  have hyq : (y.num : ℚ) ≠ 0 := by exact_mod_cast hy
  have hxd : (x.den : ℚ) ≠ 0 := by exact_mod_cast (ne_of_gt x.den_pos)
  have hyd : (y.den : ℚ) ≠ 0 := by exact_mod_cast (ne_of_gt y.den_pos)
  have hna : (y.num.natAbs : ℚ) ≠ 0 := by exact_mod_cast (ne_of_gt (Int.natAbs_pos.2 hy))
  have hs := F32.sign_mul_natAbs_cast y.num
  have hss : (y.num.sign : ℚ) * (y.num.sign : ℚ) = 1 := by
    rcases lt_or_gt_of_ne hy with h | h
    · rw [Int.sign_eq_neg_one_of_neg h]; simp
    · rw [Int.sign_eq_one_of_pos h]; simp
  have hx : ((y.num.sign * x.num * y.den : Int) : ℚ) / ((x.den * y.num.natAbs : Nat) : ℚ) =
      x.toRat / y.toRat := by
    rw [← F32.num_div_den x, ← F32.num_div_den y]
    push_cast
    rw [div_div_div_eq, div_eq_div_iff (mul_ne_zero hxd hna) (mul_ne_zero hxd hyq)]
    rw [← hs]
    linear_combination ((x.num : ℚ) * (y.den : ℚ) * (x.den : ℚ) * (y.num.natAbs : ℚ)) * hss
  rw [hx] at h
  exact h

/-- For `0 ≤ i < d ≤ 2 ^ 24` the value `i * (1.0f / d)` differs from `i / d` by a relative
error of at most `2 ^ (-22)`. -/
theorem Graphics.progress_error (i d : Int) (hi : 0 ≤ i) (hid : i < d)
    (hd : d ≤ 2 ^ 24) :
    |(Graphics.progress i d).toRat - (i : ℚ) / d| ≤ (i : ℚ) / d / 2 ^ 22 := by
  have hd0 : (0 : ℚ) < d := by exact_mod_cast (lt_of_le_of_lt hi hid)
  have hi0 : (0 : ℚ) ≤ i := by exact_mod_cast hi
  have hie : (F32.ofInt i).toRat = (i : ℚ) := F32.ofInt_exact i (by omega)
  have hde : (F32.ofInt d).toRat = (d : ℚ) := by
    rcases eq_or_lt_of_le hd with h | h
    · subst h
      have hv : F32.ofInt (2 ^ 24) = ⟨8388608, 1⟩ := by decide
      rw [hv]
      norm_num [F32.toRat]
    · exact F32.ofInt_exact d (by omega)
  have h1e : (F32.ofInt 1).toRat = 1 := by
    have := F32.ofInt_exact 1 (by decide)
    simpa using this
  have hdn : (F32.ofInt d).num ≠ 0 := by
    intro h
    have := F32.num_div_den (F32.ofInt d)
    rw [h, hde] at this
    simp at this
    linarith
  have hX := F32.div_error (F32.ofInt 1) (F32.ofInt d) hdn
  rw [h1e, hde] at hX
  have hP := F32.mul_error (F32.ofInt i) ((F32.ofInt 1).div (F32.ofInt d))
  rw [hie] at hP
  unfold Graphics.progress
  set X := ((F32.ofInt 1).div (F32.ofInt d)).toRat with hXdef
  set P := ((F32.ofInt i).mul ((F32.ofInt 1).div (F32.ofInt d))).toRat with hPdef
  have h1d : |(1 : ℚ) / d| = 1 / d := abs_of_pos (by positivity)
  rw [h1d] at hX
  have hXabs : |X| ≤ 1 / d + 1 / d / 2 ^ 24 := by
    have := abs_le.1 hX
    rw [abs_le]
    constructor
    · have : (0 : ℚ) ≤ 1 / d / 2 ^ 24 := by positivity
      have : (0 : ℚ) ≤ 1 / d := by positivity
      linarith [this]
    · linarith [this.2]
  have hiX : |(i : ℚ) * X| = (i : ℚ) * |X| := by rw [abs_mul, abs_of_nonneg hi0]
  rw [hiX] at hP
  have hstep : |(i : ℚ) * X - (i : ℚ) / d| ≤ (i : ℚ) * (1 / d / 2 ^ 24) := by
    have : (i : ℚ) * X - (i : ℚ) / d = (i : ℚ) * (X - 1 / d) := by ring
    rw [this, abs_mul, abs_of_nonneg hi0]
    exact mul_le_mul_of_nonneg_left hX hi0
  have htri : |P - (i : ℚ) / d| ≤ |P - (i : ℚ) * X| + |(i : ℚ) * X - (i : ℚ) / d| := by
    have : P - (i : ℚ) / d = (P - (i : ℚ) * X) + ((i : ℚ) * X - (i : ℚ) / d) := by ring
    rw [this]
    exact abs_add _ _
  have hPb : |P - (i : ℚ) * X| ≤ (i : ℚ) * (1 / d + 1 / d / 2 ^ 24) / 2 ^ 24 := by
    refine le_trans hP ?_
    apply div_le_div_of_nonneg_right _ (by positivity)
    exact mul_le_mul_of_nonneg_left hXabs hi0
  have hfin : (i : ℚ) * (1 / d + 1 / d / 2 ^ 24) / 2 ^ 24 + (i : ℚ) * (1 / d / 2 ^ 24) ≤
      (i : ℚ) / d / 2 ^ 22 := by
    have hq : (0 : ℚ) ≤ (i : ℚ) / d := by positivity
    have : (i : ℚ) * (1 / d + 1 / d / 2 ^ 24) / 2 ^ 24 + (i : ℚ) * (1 / d / 2 ^ 24) =
        (i : ℚ) / d * ((1 + 1 / 2 ^ 24) / 2 ^ 24 + 1 / 2 ^ 24) := by
      field_simp
      ring
    rw [this, div_eq_mul_one_div ((i : ℚ) / d) (2 ^ 22)]
    apply mul_le_mul_of_nonneg_left _ hq
    norm_num
  linarith

/-! ## Lemmas on the compositor primitives -/

theorem clamp_0_255_zero : clamp 0 0 255 = 0 := by decide

theorem clamp_0_255_full : clamp 255 0 255 = 255 := by decide

theorem RaiseRunnerFlags_fields (env : Env) (g : Graphics) :
    (BindingRunner.RaiseRunnerFlags env g).brightness_ = g.brightness_ ∧
    (BindingRunner.RaiseRunnerFlags env g).frozen_ = g.frozen_ ∧
    (BindingRunner.RaiseRunnerFlags env g).frame_count_ = g.frame_count_ ∧
    (BindingRunner.RaiseRunnerFlags env g).presentations = g.presentations ∧
    (BindingRunner.RaiseRunnerFlags env g).composites = g.composites ∧
    (BindingRunner.RaiseRunnerFlags env g).progressValues = g.progressValues ∧
    (BindingRunner.RaiseRunnerFlags env g).skip_queries = g.skip_queries := by
  unfold BindingRunner.RaiseRunnerFlags
  cases env.binding_engine_ <;> cases env.quit_atomic_ g.flag_reads <;>
    cases env.reset_atomic_ g.flag_reads <;>
    simp [Graphics.emit, Graphics.presentations, Graphics.composites, Graphics.progressValues]

theorem RaiseRunnerFlags_counts (env : Env) (g : Graphics) :
    (BindingRunner.RaiseRunnerFlags env g).quitNotifications =
      g.quitNotifications +
        (if env.binding_engine_ && env.quit_atomic_ g.flag_reads then 1 else 0) ∧
    (BindingRunner.RaiseRunnerFlags env g).resetNotifications =
      g.resetNotifications +
        (if env.binding_engine_ && env.reset_atomic_ g.flag_reads then 1 else 0) := by
  unfold BindingRunner.RaiseRunnerFlags
  cases env.binding_engine_ <;> cases env.quit_atomic_ g.flag_reads <;>
    cases env.reset_atomic_ g.flag_reads <;>
    simp [Graphics.emit, Graphics.quitNotifications, Graphics.resetNotifications]


theorem frozenFadeStep_fields (env : Env) (g : Graphics) (v : Int) :
    (BindingRunner.CheckRunnerFlags env
      ((g.SetBrightness v).PresentScreenInternal
        Buffer.frozen_snapshot_).FrameProcessInternal).1 = env.flagSet g.flag_reads ∧
    (BindingRunner.CheckRunnerFlags env
      ((g.SetBrightness v).PresentScreenInternal
        Buffer.frozen_snapshot_).FrameProcessInternal).2.frozen_ = g.frozen_ ∧
    (BindingRunner.CheckRunnerFlags env
      ((g.SetBrightness v).PresentScreenInternal
        Buffer.frozen_snapshot_).FrameProcessInternal).2.frame_count_ = g.frame_count_ + 1 ∧
    (BindingRunner.CheckRunnerFlags env
      ((g.SetBrightness v).PresentScreenInternal
        Buffer.frozen_snapshot_).FrameProcessInternal).2.flag_reads = g.flag_reads + 1 ∧
    (BindingRunner.CheckRunnerFlags env
      ((g.SetBrightness v).PresentScreenInternal
        Buffer.frozen_snapshot_).FrameProcessInternal).2.presentations =
          g.presentations + 1 ∧
    (BindingRunner.CheckRunnerFlags env
      ((g.SetBrightness v).PresentScreenInternal
        Buffer.frozen_snapshot_).FrameProcessInternal).2.quitNotifications =
          g.quitNotifications ∧
    (BindingRunner.CheckRunnerFlags env
      ((g.SetBrightness v).PresentScreenInternal
        Buffer.frozen_snapshot_).FrameProcessInternal).2.resetNotifications =
          g.resetNotifications ∧
    (BindingRunner.CheckRunnerFlags env
      ((g.SetBrightness v).PresentScreenInternal
        Buffer.frozen_snapshot_).FrameProcessInternal).2.composites = g.composites := by
  simp [BindingRunner.CheckRunnerFlags, Graphics.SetBrightness, Graphics.PresentScreenInternal,
    Graphics.FrameProcessInternal, Graphics.emit, Graphics.presentations, Graphics.composites,
    Graphics.quitNotifications, Graphics.resetNotifications, Env.flagSet]

theorem FadeLoop_frozen_succ (env : Env) (value : Int → Int) (n : Nat) (i : Int)
    (g : Graphics) (hf : g.frozen_ = true) :
    Graphics.FadeLoop env value (n + 1) i g =
      if env.flagSet g.flag_reads then
        (BindingRunner.CheckRunnerFlags env
          ((g.SetBrightness (value i)).PresentScreenInternal
            Buffer.frozen_snapshot_).FrameProcessInternal).2
      else
        Graphics.FadeLoop env value n (i + 1)
          (BindingRunner.CheckRunnerFlags env
            ((g.SetBrightness (value i)).PresentScreenInternal
              Buffer.frozen_snapshot_).FrameProcessInternal).2 := by
  have h1 : (g.SetBrightness (value i)).frozen_ = true := hf
  rw [Graphics.FadeLoop]
  simp only [h1, if_true, (frozenFadeStep_fields env g (value i)).1]

/-- A frozen fade loop whose flags are first found set in iteration `k` (counted from 0, with
more than `k` iterations to go) runs exactly `k + 1` iterations. -/
theorem FadeLoop_frozen_break (env : Env) (value : Int → Int) (k : Nat) :
    ∀ (n : Nat) (i : Int) (g : Graphics), g.frozen_ = true → k < n →
      (∀ j, j < k → env.flagSet (g.flag_reads + j) = false) →
      env.flagSet (g.flag_reads + k) = true →
      (Graphics.FadeLoop env value n i g).frozen_ = true ∧
      (Graphics.FadeLoop env value n i g).frame_count_ = g.frame_count_ + ((k + 1 : Nat) : Int) ∧
      (Graphics.FadeLoop env value n i g).flag_reads = g.flag_reads + (k + 1) ∧
      (Graphics.FadeLoop env value n i g).presentations = g.presentations + (k + 1) ∧
      (Graphics.FadeLoop env value n i g).quitNotifications = g.quitNotifications ∧
      (Graphics.FadeLoop env value n i g).resetNotifications = g.resetNotifications ∧
      (Graphics.FadeLoop env value n i g).composites = g.composites := by
  induction k with
  | zero =>
    intro n i g hf hn _ hset
    obtain ⟨m, rfl⟩ : ∃ m, n = m + 1 := ⟨n - 1, by omega⟩
    obtain ⟨_, s2, s3, s4, s5, s6, s7, s8⟩ := frozenFadeStep_fields env g (value i)
    rw [FadeLoop_frozen_succ env value m i g hf, if_pos (by simpa using hset)]
    refine ⟨s2.trans hf, ?_, s4, s5, s6, s7, s8⟩
    rw [s3]; simp
  | succ k ih =>
    intro n i g hf hn hno hset
    obtain ⟨m, rfl⟩ : ∃ m, n = m + 1 := ⟨n - 1, by omega⟩
    obtain ⟨_, s2, s3, s4, s5, s6, s7, s8⟩ := frozenFadeStep_fields env g (value i)
    have h0 : env.flagSet g.flag_reads = false := by simpa using hno 0 (by omega)
    rw [FadeLoop_frozen_succ env value m i g hf, h0]
    simp only [Bool.false_eq_true, if_false]
    obtain ⟨r1, r2, r3, r4, r5, r6, r7⟩ := ih m (i + 1) _ (s2.trans hf) (by omega)
      (by
        intro j hj
        rw [s4]
        have := hno (j + 1) (by omega)
        rwa [show g.flag_reads + 1 + j = g.flag_reads + (j + 1) by omega])
      (by
        rw [s4]
        rwa [show g.flag_reads + 1 + k = g.flag_reads + (k + 1) by omega])
    refine ⟨r1, ?_, ?_, ?_, r5.trans s6, r6.trans s7, r7.trans s8⟩
    · rw [r2, s3]; push_cast; ring
    · rw [r3, s4]; omega
    · rw [r4, s5]; omega

/-- A frozen fade loop that never finds a flag set runs all its `n` iterations. -/
theorem FadeLoop_frozen_full (env : Env) (value : Int → Int) :
    ∀ (n : Nat) (i : Int) (g : Graphics), g.frozen_ = true →
      (∀ j, j < n → env.flagSet (g.flag_reads + j) = false) →
      (Graphics.FadeLoop env value n i g).frozen_ = true ∧
      (Graphics.FadeLoop env value n i g).frame_count_ = g.frame_count_ + (n : Int) ∧
      (Graphics.FadeLoop env value n i g).flag_reads = g.flag_reads + n ∧
      (Graphics.FadeLoop env value n i g).presentations = g.presentations + n ∧
      (Graphics.FadeLoop env value n i g).quitNotifications = g.quitNotifications ∧
      (Graphics.FadeLoop env value n i g).resetNotifications = g.resetNotifications ∧
      (Graphics.FadeLoop env value n i g).composites = g.composites := by
  intro n
  induction n with
  | zero =>
    intro i g hf _
    simp [Graphics.FadeLoop, hf]
  | succ m ih =>
    intro i g hf hno
    obtain ⟨_, s2, s3, s4, s5, s6, s7, s8⟩ := frozenFadeStep_fields env g (value i)
    have h0 : env.flagSet g.flag_reads = false := by simpa using hno 0 (by omega)
    rw [FadeLoop_frozen_succ env value m i g hf, h0]
    simp only [Bool.false_eq_true, if_false]
    obtain ⟨r1, r2, r3, r4, r5, r6, r7⟩ := ih (i + 1) _ (s2.trans hf)
      (by
        intro j hj
        rw [s4]
        have := hno (j + 1) (by omega)
        rwa [show g.flag_reads + 1 + j = g.flag_reads + (j + 1) by omega])
    refine ⟨r1, ?_, ?_, ?_, r5.trans s6, r6.trans s7, r7.trans s8⟩
    · rw [r2, s3]; push_cast; ring
    · rw [r3, s4]; omega
    · rw [r4, s5]; omega

theorem transitionStep_fields (env : Env) (g : Graphics) (i duration : Int)
    (bm : Option Bitmap) :
    (BindingRunner.CheckRunnerFlags env
      (g.TransitionSceneInternalLoop i duration bm).FrameProcessInternal).1 =
        env.flagSet g.flag_reads ∧
    (BindingRunner.CheckRunnerFlags env
      (g.TransitionSceneInternalLoop i duration bm).FrameProcessInternal).2.frozen_ =
        g.frozen_ ∧
    (BindingRunner.CheckRunnerFlags env
      (g.TransitionSceneInternalLoop i duration bm).FrameProcessInternal).2.brightness_ =
        g.brightness_ ∧
    (BindingRunner.CheckRunnerFlags env
      (g.TransitionSceneInternalLoop i duration bm).FrameProcessInternal).2.frame_count_ =
        g.frame_count_ + 1 ∧
    (BindingRunner.CheckRunnerFlags env
      (g.TransitionSceneInternalLoop i duration bm).FrameProcessInternal).2.flag_reads =
        g.flag_reads + 1 ∧
    (BindingRunner.CheckRunnerFlags env
      (g.TransitionSceneInternalLoop i duration bm).FrameProcessInternal).2.presentations =
        g.presentations + 1 ∧
    (BindingRunner.CheckRunnerFlags env
      (g.TransitionSceneInternalLoop i duration bm).FrameProcessInternal).2.quitNotifications =
        g.quitNotifications ∧
    (BindingRunner.CheckRunnerFlags env
      (g.TransitionSceneInternalLoop i duration bm).FrameProcessInternal).2.resetNotifications =
        g.resetNotifications ∧
    (BindingRunner.CheckRunnerFlags env
      (g.TransitionSceneInternalLoop i duration bm).FrameProcessInternal).2.composites =
        g.composites ∧
    (BindingRunner.CheckRunnerFlags env
      (g.TransitionSceneInternalLoop i duration bm).FrameProcessInternal).2.progressValues =
        g.progressValues ++ [Graphics.progress i duration] := by
  simp [BindingRunner.CheckRunnerFlags, Graphics.TransitionSceneInternalLoop,
    Graphics.PresentScreenInternal, Graphics.FrameProcessInternal, Graphics.emit,
    Graphics.presentations, Graphics.composites, Graphics.quitNotifications,
    Graphics.resetNotifications, Graphics.progressValues, Env.flagSet,
    List.filterMap_append]

theorem TransitionLoop_succ (env : Env) (duration : Int) (bm : Option Bitmap) (n : Nat)
    (i : Int) (g : Graphics) :
    Graphics.TransitionLoop env duration bm (n + 1) i g =
      if env.flagSet g.flag_reads then
        (BindingRunner.CheckRunnerFlags env
          (g.TransitionSceneInternalLoop i duration bm).FrameProcessInternal).2
      else
        Graphics.TransitionLoop env duration bm n (i + 1)
          (BindingRunner.CheckRunnerFlags env
            (g.TransitionSceneInternalLoop i duration bm).FrameProcessInternal).2 := by
  rw [Graphics.TransitionLoop]
  simp only [(transitionStep_fields env g i duration bm).1]

/-- A transition loop that never finds a flag set runs all its `n` iterations, passing the
progress of each iteration to the shader. -/
theorem TransitionLoop_full (env : Env) (duration : Int) (bm : Option Bitmap) :
    ∀ (n : Nat) (i : Int) (g : Graphics),
      (∀ j, j < n → env.flagSet (g.flag_reads + j) = false) →
      (Graphics.TransitionLoop env duration bm n i g).frozen_ = g.frozen_ ∧
      (Graphics.TransitionLoop env duration bm n i g).brightness_ = g.brightness_ ∧
      (Graphics.TransitionLoop env duration bm n i g).frame_count_ =
        g.frame_count_ + (n : Int) ∧
      (Graphics.TransitionLoop env duration bm n i g).flag_reads = g.flag_reads + n ∧
      (Graphics.TransitionLoop env duration bm n i g).presentations = g.presentations + n ∧
      (Graphics.TransitionLoop env duration bm n i g).quitNotifications =
        g.quitNotifications ∧
      (Graphics.TransitionLoop env duration bm n i g).resetNotifications =
        g.resetNotifications ∧
      (Graphics.TransitionLoop env duration bm n i g).composites = g.composites ∧
      (Graphics.TransitionLoop env duration bm n i g).progressValues =
        g.progressValues ++
          (List.range n).map (fun (j : Nat) => Graphics.progress (i + (j : Int)) duration) := by
  intro n
  induction n with
  | zero =>
    intro i g _
    simp [Graphics.TransitionLoop]
  | succ m ih =>
    intro i g hno
    obtain ⟨_, s2, s3, s4, s5, s6, s7, s8, s9, s10⟩ := transitionStep_fields env g i duration bm
    have h0 : env.flagSet g.flag_reads = false := by simpa using hno 0 (by omega)
    rw [TransitionLoop_succ env duration bm m i g, h0]
    simp only [Bool.false_eq_true, if_false]
    obtain ⟨r1, r2, r3, r4, r5, r6, r7, r8, r9⟩ := ih (i + 1) _
      (by
        intro j hj
        rw [s5]
        have := hno (j + 1) (by omega)
        rwa [show g.flag_reads + 1 + j = g.flag_reads + (j + 1) by omega])
    refine ⟨r1.trans s2, r2.trans s3, ?_, ?_, ?_, r6.trans s7, r7.trans s8, r8.trans s9, ?_⟩
    · rw [r3, s4]; push_cast; ring
    · rw [r4, s5]; omega
    · rw [r5, s6]; omega
    · rw [r9, s10, List.range_succ_eq_map, List.map_cons, List.map_map, List.append_assoc]
      simp only [List.singleton_append, Nat.cast_zero, add_zero]
      congr 2
      apply List.map_congr_left
      intro j _
      simp only [Function.comp_apply, Nat.cast_succ]
      congr 1
      ring

/-- Whatever the flags do, the transition loop delivers no callback and leaves the frozen flag
and the brightness alone. -/
theorem TransitionLoop_quiet (env : Env) (duration : Int) (bm : Option Bitmap) :
    ∀ (n : Nat) (i : Int) (g : Graphics),
      (Graphics.TransitionLoop env duration bm n i g).frozen_ = g.frozen_ ∧
      (Graphics.TransitionLoop env duration bm n i g).brightness_ = g.brightness_ ∧
      (Graphics.TransitionLoop env duration bm n i g).quitNotifications =
        g.quitNotifications ∧
      (Graphics.TransitionLoop env duration bm n i g).resetNotifications =
        g.resetNotifications := by
  intro n
  induction n with
  | zero =>
    intro i g
    simp [Graphics.TransitionLoop]
  | succ m ih =>
    intro i g
    obtain ⟨_, s2, s3, _, _, _, s7, s8, _, _⟩ := transitionStep_fields env g i duration bm
    rw [TransitionLoop_succ env duration bm m i g]
    split_ifs
    · exact ⟨s2, s3, s7, s8⟩
    · obtain ⟨r1, r2, r3, r4⟩ := ih (i + 1)
        (BindingRunner.CheckRunnerFlags env
          (g.TransitionSceneInternalLoop i duration bm).FrameProcessInternal).2
      exact ⟨r1.trans s2, r2.trans s3, r3.trans s7, r4.trans s8⟩

/-- Whatever the flags do, a frozen fade loop delivers no callback and stays frozen. -/
theorem FadeLoop_frozen_quiet (env : Env) (value : Int → Int) :
    ∀ (n : Nat) (i : Int) (g : Graphics), g.frozen_ = true →
      (Graphics.FadeLoop env value n i g).frozen_ = true ∧
      (Graphics.FadeLoop env value n i g).quitNotifications = g.quitNotifications ∧
      (Graphics.FadeLoop env value n i g).resetNotifications = g.resetNotifications := by
  intro n
  induction n with
  | zero =>
    intro i g hf
    simp [Graphics.FadeLoop, hf]
  | succ m ih =>
    intro i g hf
    obtain ⟨_, s2, _, _, _, s6, s7, _⟩ := frozenFadeStep_fields env g (value i)
    rw [FadeLoop_frozen_succ env value m i g hf]
    split_ifs
    · exact ⟨s2.trans hf, s6, s7⟩
    · obtain ⟨r1, r2, r3⟩ := ih (i + 1) _ (s2.trans hf)
      exact ⟨r1, r2.trans s6, r3.trans s7⟩

theorem transitionPrep_fields (g : Graphics) (bm : Option Bitmap) (vague : Int) :
    ((((g.SetBrightness 255).TransitionSceneInternal bm vague).emit
      (Event.BlendPush false)).frozen_ = g.frozen_) ∧
    ((((g.SetBrightness 255).TransitionSceneInternal bm vague).emit
      (Event.BlendPush false)).brightness_ = 255) ∧
    ((((g.SetBrightness 255).TransitionSceneInternal bm vague).emit
      (Event.BlendPush false)).frame_count_ = g.frame_count_) ∧
    ((((g.SetBrightness 255).TransitionSceneInternal bm vague).emit
      (Event.BlendPush false)).flag_reads = g.flag_reads) ∧
    ((((g.SetBrightness 255).TransitionSceneInternal bm vague).emit
      (Event.BlendPush false)).presentations = g.presentations) ∧
    ((((g.SetBrightness 255).TransitionSceneInternal bm vague).emit
      (Event.BlendPush false)).quitNotifications = g.quitNotifications) ∧
    ((((g.SetBrightness 255).TransitionSceneInternal bm vague).emit
      (Event.BlendPush false)).resetNotifications = g.resetNotifications) ∧
    ((((g.SetBrightness 255).TransitionSceneInternal bm vague).emit
      (Event.BlendPush false)).composites = g.composites + 1) ∧
    ((((g.SetBrightness 255).TransitionSceneInternal bm vague).emit
      (Event.BlendPush false)).progressValues = g.progressValues) := by
  cases bm <;>
    simp [Graphics.SetBrightness, Graphics.TransitionSceneInternal,
      Graphics.CompositeScreenInternal, Graphics.emit, Graphics.presentations,
      Graphics.composites, Graphics.quitNotifications, Graphics.resetNotifications,
      Graphics.progressValues, List.filterMap_append, clamp_0_255_full]

theorem Transition_eq (env : Env) (g : Graphics) (duration : Int) (bm : Option Bitmap)
    (vague : Int) (hf : g.frozen_ = true) (hb : ∀ b, bm = some b → b.disposed = false) :
    Graphics.Transition env g duration bm vague =
      BindingRunner.RaiseRunnerFlags env
        { ((Graphics.TransitionLoop env duration bm duration.toNat 0
            (((g.SetBrightness 255).TransitionSceneInternal bm (clamp vague 1 256)).emit
              (Event.BlendPush false))).emit Event.BlendPop) with frozen_ := false } := by
  unfold Graphics.Transition
  cases bm with
  | none => simp [hf]
  | some b => simp [hf, hb b rfl]

theorem emit_BlendPop_fields (g : Graphics) :
    (g.emit Event.BlendPop).presentations = g.presentations ∧
    (g.emit Event.BlendPop).quitNotifications = g.quitNotifications ∧
    (g.emit Event.BlendPop).resetNotifications = g.resetNotifications ∧
    (g.emit Event.BlendPop).composites = g.composites ∧
    (g.emit Event.BlendPop).progressValues = g.progressValues := by
  simp [Graphics.emit, Graphics.presentations, Graphics.composites,
    Graphics.quitNotifications, Graphics.resetNotifications, Graphics.progressValues,
    List.filterMap_append]

theorem Update_finish_fields (env : Env) (g : Graphics) :
    (BindingRunner.RaiseRunnerFlags env
      (BindingRunner.CheckRunnerFlags env g.FrameProcessInternal).2).frozen_ = g.frozen_ ∧
    (BindingRunner.RaiseRunnerFlags env
      (BindingRunner.CheckRunnerFlags env g.FrameProcessInternal).2).quitNotifications =
        g.quitNotifications +
          (if env.binding_engine_ && env.quit_atomic_ (g.flag_reads + 1) then 1 else 0) ∧
    (BindingRunner.RaiseRunnerFlags env
      (BindingRunner.CheckRunnerFlags env g.FrameProcessInternal).2).resetNotifications =
        g.resetNotifications +
          (if env.binding_engine_ && env.reset_atomic_ (g.flag_reads + 1) then 1 else 0) := by
  obtain ⟨_, f2, _⟩ := RaiseRunnerFlags_fields env
    (BindingRunner.CheckRunnerFlags env g.FrameProcessInternal).2
  obtain ⟨c1, c2⟩ := RaiseRunnerFlags_counts env
    (BindingRunner.CheckRunnerFlags env g.FrameProcessInternal).2
  refine ⟨f2, ?_, ?_⟩
  · rw [c1]
    simp [BindingRunner.CheckRunnerFlags, Graphics.FrameProcessInternal, Graphics.emit,
      Graphics.quitNotifications]
  · rw [c2]
    simp [BindingRunner.CheckRunnerFlags, Graphics.FrameProcessInternal, Graphics.emit,
      Graphics.resetNotifications]

/-- An `Update` that does not return through the frame-skip branch raises the flags once, at
the inspection after its check. -/
theorem Update_raises_once (env : Env) (g : Graphics)
    (h : g.frozen_ = true ∨ env.allow_frame_skip = false ∨
      env.RequireFrameSkip g.skip_queries = false) :
    (Graphics.Update env g).frozen_ = g.frozen_ ∧
    (Graphics.Update env g).quitNotifications = g.quitNotifications +
      (if env.binding_engine_ && env.quit_atomic_ (g.flag_reads + 1) then 1 else 0) ∧
    (Graphics.Update env g).resetNotifications = g.resetNotifications +
      (if env.binding_engine_ && env.reset_atomic_ (g.flag_reads + 1) then 1 else 0) := by
  unfold Graphics.Update
  by_cases hf : g.frozen_ = true
  · simp only [hf, Bool.not_true, Bool.false_eq_true, if_false]
    have := Update_finish_fields env g
    rw [hf] at this
    exact this
  · have hf2 : g.frozen_ = false := by simpa using hf
    have hns : (env.RequireFrameSkip g.skip_queries && env.allow_frame_skip) = false := by
      rcases h with h | h | h
      · exact absurd h hf
      · simp [h]
      · simp [h]
    simp only [hf2, Bool.not_false, if_true, hns, Bool.false_eq_true, if_false]
    cases env.RequireFrameSkip g.skip_queries
    · have := Update_finish_fields env
        (Graphics.PresentScreenInternal
          (Graphics.CompositeScreenInternal { g with skip_queries := g.skip_queries + 1 })
          Buffer.screen_buffer_0)
      simpa [Graphics.PresentScreenInternal, Graphics.CompositeScreenInternal, Graphics.emit,
        Graphics.quitNotifications, Graphics.resetNotifications, hf2] using this
    · have := Update_finish_fields env
        (Graphics.PresentScreenInternal
          (Graphics.CompositeScreenInternal
            (Graphics.emit { g with skip_queries := g.skip_queries + 1 } Event.FpsReset))
          Buffer.screen_buffer_0)
      simpa [Graphics.PresentScreenInternal, Graphics.CompositeScreenInternal, Graphics.emit,
        Graphics.quitNotifications, Graphics.resetNotifications, hf2] using this

/-- With a flag set at every inspection and a binding engine attached, `n` calls of `Update`
that are not cut short by a frame skip deliver `n` notifications. -/
theorem Wait_notifications (env : Env) (he : env.binding_engine_ = true) :
    ∀ (n : Nat) (g : Graphics),
      (g.frozen_ = true ∨ env.allow_frame_skip = false ∨ ∀ t, env.RequireFrameSkip t = false) →
      ((∀ t, env.quit_atomic_ t = true) →
        (Nat.iterate (Graphics.Update env) n g).quitNotifications = g.quitNotifications + n) ∧
      ((∀ t, env.reset_atomic_ t = true) →
        (Nat.iterate (Graphics.Update env) n g).resetNotifications =
          g.resetNotifications + n) := by
  intro n
  induction n with
  | zero => intro g _; simp
  | succ m ih =>
    intro g h
    have h1 : g.frozen_ = true ∨ env.allow_frame_skip = false ∨
        env.RequireFrameSkip g.skip_queries = false := by
      rcases h with h | h | h
      · exact Or.inl h
      · exact Or.inr (Or.inl h)
      · exact Or.inr (Or.inr (h _))
    obtain ⟨u1, u2, u3⟩ := Update_raises_once env g h1
    have h2 : (Graphics.Update env g).frozen_ = true ∨ env.allow_frame_skip = false ∨
        ∀ t, env.RequireFrameSkip t = false := by
      rcases h with h | h | h
      · exact Or.inl (u1.trans h)
      · exact Or.inr (Or.inl h)
      · exact Or.inr (Or.inr h)
    obtain ⟨i1, i2⟩ := ih (Graphics.Update env g) h2
    rw [Function.iterate_succ_apply]
    constructor
    · intro hq
      rw [i1 hq, u2, he, hq]
      simp
      omega
    · intro hr
      rw [i2 hr, u3, he, hr]
      simp
      omega

/-! ## Fades -/

/-- C6: whatever the starting brightness, the duration (zero and negative included), the mode
and the pattern of the cancellation flags, `FadeOut` returns with brightness 0 and `FadeIn`
with brightness 255, so `FadeOut(d)` followed by `FadeIn(d)` leaves brightness 255. -/
theorem Fade_final_brightness (env : Env) (g : Graphics) (d : Int) :
    (Graphics.FadeOut env g d).GetBrightness = 0 ∧
    (Graphics.FadeIn env g d).GetBrightness = 255 ∧
    (Graphics.FadeIn env (Graphics.FadeOut env g d) d).GetBrightness = 255 := by
  have hout : ∀ g : Graphics, (Graphics.FadeOut env g d).GetBrightness = 0 := by
    intro g
    unfold Graphics.FadeOut Graphics.GetBrightness
    simp only [(RaiseRunnerFlags_fields env _).1, Graphics.SetBrightness, clamp_0_255_zero]
  have hin : ∀ g : Graphics, (Graphics.FadeIn env g d).GetBrightness = 255 := by
    intro g
    unfold Graphics.FadeIn Graphics.GetBrightness
    simp only [(RaiseRunnerFlags_fields env _).1, Graphics.SetBrightness, clamp_0_255_full]
  exact ⟨hout g, hin g, hin _⟩

theorem Fade_frozen_general (env : Env) (value : Int → Int) (final : Int) (g : Graphics)
    (n k : Nat) (hf : g.frozen_ = true) (hk : k < n)
    (hno : ∀ j, j < k → env.flagSet (g.flag_reads + j) = false)
    (hset : env.flagSet (g.flag_reads + k) = true) :
    (BindingRunner.RaiseRunnerFlags env
      ((Graphics.FadeLoop env value n 0 g).SetBrightness final)).frame_count_ =
        g.frame_count_ + ((k + 1 : Nat) : Int) ∧
    (BindingRunner.RaiseRunnerFlags env
      ((Graphics.FadeLoop env value n 0 g).SetBrightness final)).presentations =
        g.presentations + (k + 1) ∧
    (BindingRunner.RaiseRunnerFlags env
      ((Graphics.FadeLoop env value n 0 g).SetBrightness final)).brightness_ =
        clamp final 0 255 ∧
    (BindingRunner.RaiseRunnerFlags env
      ((Graphics.FadeLoop env value n 0 g).SetBrightness final)).quitNotifications =
        g.quitNotifications +
          (if env.binding_engine_ && env.quit_atomic_ (g.flag_reads + (k + 1)) then 1 else 0) ∧
    (BindingRunner.RaiseRunnerFlags env
      ((Graphics.FadeLoop env value n 0 g).SetBrightness final)).resetNotifications =
        g.resetNotifications +
          (if env.binding_engine_ && env.reset_atomic_ (g.flag_reads + (k + 1)) then 1 else 0) := by
  obtain ⟨_, r2, r3, r4, r5, r6, _⟩ := FadeLoop_frozen_break env value k n 0 g hf hk hno hset
  obtain ⟨f1, _, f3, f4, _, _, _⟩ :=
    RaiseRunnerFlags_fields env ((Graphics.FadeLoop env value n 0 g).SetBrightness final)
  obtain ⟨c1, c2⟩ :=
    RaiseRunnerFlags_counts env ((Graphics.FadeLoop env value n 0 g).SetBrightness final)
  refine ⟨?_, ?_, ?_, ?_, ?_⟩
  · rw [f3]; exact r2
  · rw [f4]; exact r4
  · rw [f1]; rfl
  · rw [c1]
    have : ((Graphics.FadeLoop env value n 0 g).SetBrightness final).flag_reads =
        g.flag_reads + (k + 1) := r3
    rw [this]
    have : ((Graphics.FadeLoop env value n 0 g).SetBrightness final).quitNotifications =
        g.quitNotifications := r5
    rw [this]
  · rw [c2]
    have : ((Graphics.FadeLoop env value n 0 g).SetBrightness final).flag_reads =
        g.flag_reads + (k + 1) := r3
    rw [this]
    have : ((Graphics.FadeLoop env value n 0 g).SetBrightness final).resetNotifications =
        g.resetNotifications := r6
    rw [this]

/-- C7, as stated, fails in Normal mode: `FadeOut(10)` from brightness 255, not frozen, with
the quit flag clear at the first 8 inspections (the check and the raise of the `Update` calls
of iterations 0 to 3) and set from the check of iteration 4 on. The loop does not stop: all 10
iterations run (10 frames, 10 presentations) and `QuitRequired` is delivered 7 times. -/
theorem FadeOut_normal_counterexample :
    Graphics.start.frozen_ = false ∧ Graphics.start.brightness_ = 255 ∧
    (Graphics.FadeLoop (Env.quitFrom 8)
      (Graphics.FadeOutValue (F32.ofInt 255) 10) 4 0 Graphics.start).flag_reads = 8 ∧
    (Env.quitFrom 8).flagSet 7 = false ∧ (Env.quitFrom 8).flagSet 8 = true ∧
    (Graphics.FadeOut (Env.quitFrom 8) Graphics.start 10).frame_count_ = 10 ∧
    (Graphics.FadeOut (Env.quitFrom 8) Graphics.start 10).presentations = 10 ∧
    (Graphics.FadeOut (Env.quitFrom 8) Graphics.start 10).quitNotifications = 7 ∧
    (Graphics.FadeOut (Env.quitFrom 8) Graphics.start 10).brightness_ = 0 := by
  decide

/-- C7, amended: in Frozen mode, when the flags are first found set at the check of iteration
`k` (counted from 0, `k < max(d, 1)`), `FadeOut` and `FadeIn` run no iteration after `k`:
exactly `k + 1` frames are processed and presented, brightness is forced to 0 (to 255 for
`FadeIn`), and the final raise delivers each callback at most once, namely when a binding
engine is attached and that flag is set at the raise. In the scenario `FadeOut(10)` from
brightness 255 in Frozen mode with the quit flag set from iteration 4 on, the loop stops after
iteration 4 (5 frames), brightness is 0 and `QuitRequired` is delivered exactly once. -/
theorem Fade_frozen_stops_at_flag (env : Env) (g : Graphics) (d : Int) (k : Nat)
    (hf : g.frozen_ = true) (hk : (k : Int) < max d 1)
    (hno : ∀ j, j < k → env.flagSet (g.flag_reads + j) = false)
    (hset : env.flagSet (g.flag_reads + k) = true) :
    ((Graphics.FadeOut env g d).frame_count_ = g.frame_count_ + ((k + 1 : Nat) : Int) ∧
      (Graphics.FadeOut env g d).presentations = g.presentations + (k + 1) ∧
      (Graphics.FadeOut env g d).brightness_ = 0 ∧
      (Graphics.FadeOut env g d).quitNotifications = g.quitNotifications +
        (if env.binding_engine_ && env.quit_atomic_ (g.flag_reads + (k + 1)) then 1 else 0) ∧
      (Graphics.FadeOut env g d).resetNotifications = g.resetNotifications +
        (if env.binding_engine_ && env.reset_atomic_ (g.flag_reads + (k + 1)) then 1
          else 0)) ∧
    ((Graphics.FadeIn env g d).frame_count_ = g.frame_count_ + ((k + 1 : Nat) : Int) ∧
      (Graphics.FadeIn env g d).presentations = g.presentations + (k + 1) ∧
      (Graphics.FadeIn env g d).brightness_ = 255 ∧
      (Graphics.FadeIn env g d).quitNotifications = g.quitNotifications +
        (if env.binding_engine_ && env.quit_atomic_ (g.flag_reads + (k + 1)) then 1 else 0) ∧
      (Graphics.FadeIn env g d).resetNotifications = g.resetNotifications +
        (if env.binding_engine_ && env.reset_atomic_ (g.flag_reads + (k + 1)) then 1
          else 0)) ∧
    (Graphics.startFrozen.frozen_ = true ∧ Graphics.startFrozen.brightness_ = 255 ∧
      (Graphics.FadeOut (Env.quitFrom 4) Graphics.startFrozen 10).frame_count_ =
        Graphics.startFrozen.frame_count_ + 5 ∧
      (Graphics.FadeOut (Env.quitFrom 4) Graphics.startFrozen 10).presentations = 5 ∧
      (Graphics.FadeOut (Env.quitFrom 4) Graphics.startFrozen 10).brightness_ = 0 ∧
      (Graphics.FadeOut (Env.quitFrom 4) Graphics.startFrozen 10).quitNotifications = 1 ∧
      (Graphics.FadeOut (Env.quitFrom 4) Graphics.startFrozen 10).resetNotifications = 0) := by
  have hn : k < (max d 1).toNat := by omega
  refine ⟨?_, ?_, by decide⟩
  · have h := Fade_frozen_general env
      (Graphics.FadeOutValue (F32.ofInt g.brightness_) (max d 1)) 0 g _ k hf hn hno hset
    rw [clamp_0_255_zero] at h
    exact h
  · have h := Fade_frozen_general env
      (Graphics.FadeInValue (F32.ofInt g.brightness_)
        ((F32.ofInt 255).sub (F32.ofInt g.brightness_)) (max d 1)) 255 g _ k hf hn hno hset
    rw [clamp_0_255_full] at h
    exact h

theorem Fade_frozen_stops_at_flag_witness :
    Graphics.startFrozen.frozen_ = true ∧ ((4 : Nat) : Int) < max 10 1 ∧
    (∀ j, j < 4 → (Env.quitFrom 4).flagSet (Graphics.startFrozen.flag_reads + j) = false) ∧
    (Env.quitFrom 4).flagSet (Graphics.startFrozen.flag_reads + 4) = true ∧
    (Graphics.FadeIn (Env.quitFrom 4) Graphics.startFrozen 10).frame_count_ =
      Graphics.startFrozen.frame_count_ + ((4 + 1 : Nat) : Int) :=
  ⟨by decide, by decide, by decide, by decide,
    (Fade_frozen_stops_at_flag (Env.quitFrom 4) Graphics.startFrozen 10 4 (by decide)
      (by decide) (by decide) (by decide)).2.1.1⟩

/-! ## Cancellation flags -/

/-- C8, as stated, fails: with the quit flag set before the first inspection and staying set,
two calls of `Update` deliver `QuitRequired` twice, and three calls three times. -/
theorem notification_counterexample :
    (∀ t, (Env.quitFrom 0).quit_atomic_ t = true) ∧
    (Graphics.Update (Env.quitFrom 0)
      (Graphics.Update (Env.quitFrom 0) Graphics.start)).quitNotifications = 2 ∧
    (Graphics.Wait (Env.quitFrom 0) Graphics.start 3).quitNotifications = 3 ∧
    ¬ (Graphics.Update (Env.quitFrom 0)
      (Graphics.Update (Env.quitFrom 0) Graphics.start)).quitNotifications ≤ 1 := by
  refine ⟨fun t => ?_, by decide, by decide, by decide⟩
  simp [Env.quitFrom]

/-- C8, amended: while a cancellation flag stays set and a binding engine is attached, the
binding layer is notified once per raise of the flags, not once per request. Each `Update` not
cut short by a frame skip delivers exactly one notification (`QuitRequired` for the quit flag,
`ResetRequired` for the reset flag), so `n` such calls deliver `n`; each Frozen-mode `FadeOut`
and `FadeIn` and each Frozen-mode `Transition` with a null or non-disposed bitmap delivers
exactly one. -/
theorem notification_per_raise (env : Env) (g : Graphics) (he : env.binding_engine_ = true)
    (hskip : g.frozen_ = true ∨ env.allow_frame_skip = false ∨
      ∀ t, env.RequireFrameSkip t = false) :
    ((∀ t, env.quit_atomic_ t = true) →
      (Graphics.Update env g).quitNotifications = g.quitNotifications + 1 ∧
      (∀ n : Nat, (Graphics.Wait env g n).quitNotifications = g.quitNotifications + n) ∧
      (g.frozen_ = true → ∀ d,
        (Graphics.FadeOut env g d).quitNotifications = g.quitNotifications + 1 ∧
        (Graphics.FadeIn env g d).quitNotifications = g.quitNotifications + 1) ∧
      (g.frozen_ = true → ∀ d bm vague, (∀ b, bm = some b → b.disposed = false) →
        (Graphics.Transition env g d bm vague).quitNotifications =
          g.quitNotifications + 1)) ∧
    ((∀ t, env.reset_atomic_ t = true) →
      (Graphics.Update env g).resetNotifications = g.resetNotifications + 1 ∧
      (∀ n : Nat, (Graphics.Wait env g n).resetNotifications = g.resetNotifications + n) ∧
      (g.frozen_ = true → ∀ d,
        (Graphics.FadeOut env g d).resetNotifications = g.resetNotifications + 1 ∧
        (Graphics.FadeIn env g d).resetNotifications = g.resetNotifications + 1) ∧
      (g.frozen_ = true → ∀ d bm vague, (∀ b, bm = some b → b.disposed = false) →
        (Graphics.Transition env g d bm vague).resetNotifications =
          g.resetNotifications + 1)) := by
  have h1 : g.frozen_ = true ∨ env.allow_frame_skip = false ∨
      env.RequireFrameSkip g.skip_queries = false := by
    rcases hskip with h | h | h
    · exact Or.inl h
    · exact Or.inr (Or.inl h)
    · exact Or.inr (Or.inr (h _))
  obtain ⟨_, u2, u3⟩ := Update_raises_once env g h1
  have hfade : ∀ (value : Int → Int) (final : Int) (n : Nat), g.frozen_ = true →
      (BindingRunner.RaiseRunnerFlags env
        ((Graphics.FadeLoop env value n 0 g).SetBrightness final)).quitNotifications =
        g.quitNotifications + (if env.binding_engine_ &&
          env.quit_atomic_ ((Graphics.FadeLoop env value n 0 g).flag_reads) then 1 else 0) ∧
      (BindingRunner.RaiseRunnerFlags env
        ((Graphics.FadeLoop env value n 0 g).SetBrightness final)).resetNotifications =
        g.resetNotifications + (if env.binding_engine_ &&
          env.reset_atomic_ ((Graphics.FadeLoop env value n 0 g).flag_reads) then 1 else 0) := by
    intro value final n hf
    obtain ⟨_, q2, q3⟩ := FadeLoop_frozen_quiet env value n 0 g hf
    obtain ⟨c1, c2⟩ := RaiseRunnerFlags_counts env
      ((Graphics.FadeLoop env value n 0 g).SetBrightness final)
    exact ⟨c1.trans (by rw [← q2]; rfl), c2.trans (by rw [← q3]; rfl)⟩
  have htrans : ∀ d bm vague, g.frozen_ = true → (∀ b, bm = some b → b.disposed = false) →
      ((∀ t, env.quit_atomic_ t = true) →
        (Graphics.Transition env g d bm vague).quitNotifications = g.quitNotifications + 1) ∧
      ((∀ t, env.reset_atomic_ t = true) →
        (Graphics.Transition env g d bm vague).resetNotifications =
          g.resetNotifications + 1) := by
    intro d bm vague hf hb
    rw [Transition_eq env g d bm vague hf hb]
    obtain ⟨_, _, _, _, _, p6, p7, _, _⟩ := transitionPrep_fields g bm (clamp vague 1 256)
    obtain ⟨_, _, l3, l4⟩ := TransitionLoop_quiet env d bm d.toNat 0
      (((g.SetBrightness 255).TransitionSceneInternal bm (clamp vague 1 256)).emit
        (Event.BlendPush false))
    obtain ⟨_, b2, b3, _, _⟩ := emit_BlendPop_fields
      (Graphics.TransitionLoop env d bm d.toNat 0
        (((g.SetBrightness 255).TransitionSceneInternal bm (clamp vague 1 256)).emit
          (Event.BlendPush false)))
    obtain ⟨c1, c2⟩ := RaiseRunnerFlags_counts env
      { ((Graphics.TransitionLoop env d bm d.toNat 0
          (((g.SetBrightness 255).TransitionSceneInternal bm (clamp vague 1 256)).emit
            (Event.BlendPush false))).emit Event.BlendPop) with frozen_ := false }
    constructor
    · intro hq
      rw [c1, he, hq]
      simp only [Bool.and_self, if_true, Nat.add_right_cancel_iff]
      exact (b2.trans l3).trans p6
    · intro hr
      rw [c2, he, hr]
      simp only [Bool.and_self, if_true, Nat.add_right_cancel_iff]
      exact (b3.trans l4).trans p7
  constructor
  · intro hq
    refine ⟨by rw [u2, he, hq]; simp, ?_, ?_, ?_⟩
    · intro n
      have := (Wait_notifications env he n g hskip).1 hq
      simpa [Graphics.Wait] using this
    · intro hf d
      constructor
      · have := (hfade (Graphics.FadeOutValue (F32.ofInt g.brightness_) (max d 1)) 0
          (max d 1).toNat hf).1
        rw [he, hq] at this
        simpa [Graphics.FadeOut] using this
      · have := (hfade (Graphics.FadeInValue (F32.ofInt g.brightness_)
          ((F32.ofInt 255).sub (F32.ofInt g.brightness_)) (max d 1)) 255
          (max d 1).toNat hf).1
        rw [he, hq] at this
        simpa [Graphics.FadeIn] using this
    · intro hf d bm vague hb
      exact (htrans d bm vague hf hb).1 hq
  · intro hr
    refine ⟨by rw [u3, he, hr]; simp, ?_, ?_, ?_⟩
    · intro n
      have := (Wait_notifications env he n g hskip).2 hr
      simpa [Graphics.Wait] using this
    · intro hf d
      constructor
      · have := (hfade (Graphics.FadeOutValue (F32.ofInt g.brightness_) (max d 1)) 0
          (max d 1).toNat hf).2
        rw [he, hr] at this
        simpa [Graphics.FadeOut] using this
      · have := (hfade (Graphics.FadeInValue (F32.ofInt g.brightness_)
          ((F32.ofInt 255).sub (F32.ofInt g.brightness_)) (max d 1)) 255
          (max d 1).toNat hf).2
        rw [he, hr] at this
        simpa [Graphics.FadeIn] using this
    · intro hf d bm vague hb
      exact (htrans d bm vague hf hb).2 hr

theorem notification_per_raise_witness :
    (Env.quitFrom 0).binding_engine_ = true ∧
    (Graphics.start.frozen_ = true ∨ (Env.quitFrom 0).allow_frame_skip = false ∨
      ∀ t, (Env.quitFrom 0).RequireFrameSkip t = false) ∧
    (∀ t, (Env.quitFrom 0).quit_atomic_ t = true) ∧
    (Graphics.Update (Env.quitFrom 0) Graphics.start).quitNotifications =
      Graphics.start.quitNotifications + 1 ∧
    (Graphics.Wait (Env.quitFrom 0) Graphics.start (5 : Nat)).quitNotifications =
      Graphics.start.quitNotifications + 5 :=
  have hq : ∀ t, (Env.quitFrom 0).quit_atomic_ t = true := fun t => by simp [Env.quitFrom]
  have h := (notification_per_raise (Env.quitFrom 0) Graphics.start rfl (Or.inr (Or.inl rfl))).1
    hq
  ⟨rfl, Or.inr (Or.inl rfl), hq, h.1, h.2.1 5⟩

/-! ## Transition -/

/-- C10: `Transition` called while the compositor is not Frozen, or with a transition bitmap
that is disposed, returns the state it was called on: brightness, the frozen flag, the frame
count, the three buffers and the trace of effects are as before, so no composite, no
presentation and no callback took place. -/
theorem Transition_misuse_is_noop (env : Env) (g : Graphics) (duration : Int)
    (trans_bitmap : Option Bitmap) (vague : Int)
    (h : g.frozen_ = false ∨ ∃ b, trans_bitmap = some b ∧ b.disposed = true) :
    Graphics.Transition env g duration trans_bitmap vague = g ∧
    (Graphics.Transition env g duration trans_bitmap vague).brightness_ = g.brightness_ ∧
    (Graphics.Transition env g duration trans_bitmap vague).frozen_ = g.frozen_ ∧
    (Graphics.Transition env g duration trans_bitmap vague).frame_count_ = g.frame_count_ ∧
    (Graphics.Transition env g duration trans_bitmap vague).screen_buffer_0 =
      g.screen_buffer_0 ∧
    (Graphics.Transition env g duration trans_bitmap vague).screen_buffer_1 =
      g.screen_buffer_1 ∧
    (Graphics.Transition env g duration trans_bitmap vague).frozen_snapshot_ =
      g.frozen_snapshot_ ∧
    (Graphics.Transition env g duration trans_bitmap vague).trace = g.trace ∧
    (Graphics.Transition env g duration trans_bitmap vague).composites = g.composites ∧
    (Graphics.Transition env g duration trans_bitmap vague).presentations = g.presentations ∧
    (Graphics.Transition env g duration trans_bitmap vague).quitNotifications =
      g.quitNotifications ∧
    (Graphics.Transition env g duration trans_bitmap vague).resetNotifications =
      g.resetNotifications := by
  have heq : Graphics.Transition env g duration trans_bitmap vague = g := by
    unfold Graphics.Transition
    rcases h with h | ⟨b, rfl, hb⟩
    · cases trans_bitmap with
      | none => simp [h]
      | some b => cases hb : b.disposed <;> simp [h, hb]
    · simp [hb]
  rw [heq]
  simp

theorem Transition_misuse_is_noop_witness :
    (Graphics.start.frozen_ = false ∨
      ∃ b, (some ⟨7, true⟩ : Option Bitmap) = some b ∧ b.disposed = true) ∧
    Graphics.Transition (Env.quitFrom 0) Graphics.start 4 (some ⟨7, true⟩) 128 =
      Graphics.start :=
  ⟨Or.inl rfl,
    (Transition_misuse_is_noop (Env.quitFrom 0) Graphics.start 4 (some ⟨7, true⟩) 128
      (Or.inl rfl)).1⟩

/-- C9, as stated, fails on the progress values: the shader gets the single-precision product
`i * (1.0f / d)`, which for `d = 6` is not `i / 6`. In iteration 5 it is `13981014 / 2 ^ 24`,
neither the rational `5 / 6` nor the single-precision quotient `5.0f / 6.0f`, which is
`13981013 / 2 ^ 24`. -/
theorem Transition_progress_counterexample :
    Graphics.startFrozen.frozen_ = true ∧
    (∀ t, Env.quiet.flagSet t = false) ∧
    (Graphics.Transition Env.quiet Graphics.startFrozen 6 none 128).progressValues.map
      F32.toRat ≠ (List.range 6).map (fun (i : Nat) => (i : ℚ) / 6) ∧
    (Graphics.Transition Env.quiet Graphics.startFrozen 6 none 128).progressValues.get? 5 =
      some ⟨13981014, -24⟩ ∧
    F32.toRat ⟨13981014, -24⟩ ≠ 5 / 6 ∧
    (F32.ofInt 5).div (F32.ofInt 6) = ⟨13981013, -24⟩ := by
  have hv : (Graphics.Transition Env.quiet Graphics.startFrozen 6 none 128).progressValues =
      [⟨0, 0⟩, ⟨11184811, -26⟩, ⟨11184811, -25⟩, ⟨8388608, -24⟩, ⟨11184811, -24⟩,
        ⟨13981014, -24⟩] := by decide
  refine ⟨by decide, fun t => rfl, ?_, by rw [hv]; rfl, ?_, by decide⟩
  · rw [hv]
    intro h
    have h5 := congrArg (fun l => l.get? 5) h
    simp only [List.map, List.get?] at h5
    norm_num [F32.toRat, List.range, List.range.loop] at h5
  · norm_num [F32.toRat]

/-- C9, amended: `Transition` called while Frozen, with `d ≥ 1`, a null or non-disposed bitmap
and no flag found set by the `d` checks of its loop, performs exactly `d` presentations, passes
in iteration `i` the single-precision value `i * (1.0f / d)` to the shader, advances the frame
count by `d`, composites the scene once, and returns with the frozen flag cleared and brightness
255. The progress value is `i / d` up to a relative rounding error of at most `2 ^ (-22)` (for
`d ≤ 2 ^ 24`); for `d = 4` the progress values are exactly 0, 0.25, 0.5, 0.75. -/
theorem Transition_runs_d_frames (env : Env) (g : Graphics) (d : Int) (bm : Option Bitmap)
    (vague : Int) (hf : g.frozen_ = true) (hd : 1 ≤ d)
    (hb : ∀ b, bm = some b → b.disposed = false)
    (hno : ∀ j, j < d.toNat → env.flagSet (g.flag_reads + j) = false) :
    (Graphics.Transition env g d bm vague).presentations = g.presentations + d.toNat ∧
    (Graphics.Transition env g d bm vague).progressValues =
      g.progressValues ++ (List.range d.toNat).map (fun (i : Nat) => Graphics.progress i d) ∧
    (Graphics.Transition env g d bm vague).frame_count_ = g.frame_count_ + d ∧
    (Graphics.Transition env g d bm vague).composites = g.composites + 1 ∧
    (Graphics.Transition env g d bm vague).frozen_ = false ∧
    (Graphics.Transition env g d bm vague).brightness_ = 255 ∧
    (d ≤ 2 ^ 24 → ∀ i : Int, 0 ≤ i → i < d →
      |(Graphics.progress i d).toRat - (i : ℚ) / d| ≤ (i : ℚ) / d / 2 ^ 22) ∧
    ((List.range 4).map (fun (i : Nat) => Graphics.progress i 4)).map F32.toRat =
      [0, 1 / 4, 1 / 2, 3 / 4] := by
  rw [Transition_eq env g d bm vague hf hb]
  obtain ⟨p1, p2, p3, p4, p5, p6, p7, p8, p9⟩ := transitionPrep_fields g bm (clamp vague 1 256)
  obtain ⟨l1, l2, l3, l4, l5, l6, l7, l8, l9⟩ := TransitionLoop_full env d bm d.toNat 0
    (((g.SetBrightness 255).TransitionSceneInternal bm (clamp vague 1 256)).emit
      (Event.BlendPush false)) (by rw [p4]; exact hno)
  obtain ⟨b1, b2, b3, b4, b5⟩ := emit_BlendPop_fields
    (Graphics.TransitionLoop env d bm d.toNat 0
      (((g.SetBrightness 255).TransitionSceneInternal bm (clamp vague 1 256)).emit
        (Event.BlendPush false)))
  obtain ⟨f1, f2, f3, f4, f5, f6, _⟩ := RaiseRunnerFlags_fields env
    { ((Graphics.TransitionLoop env d bm d.toNat 0
        (((g.SetBrightness 255).TransitionSceneInternal bm (clamp vague 1 256)).emit
          (Event.BlendPush false))).emit Event.BlendPop) with frozen_ := false }
  refine ⟨?_, ?_, ?_, ?_, ?_, ?_, fun h24 i hi hid => Graphics.progress_error i d hi hid h24,
    ?_⟩
  · rw [f4]
    exact (b1.trans l5).trans (by rw [p5])
  · rw [f6]
    refine (b5.trans l9).trans ?_
    rw [p9]
    simp
  · rw [f3]
    refine (l3.trans ?_)
    rw [p3, Int.toNat_of_nonneg (by omega)]
  · rw [f5]
    exact (b4.trans l8).trans p8
  · rw [f2]
  · rw [f1]
    exact l2.trans p2
  · have hv : (List.range 4).map (fun (i : Nat) => Graphics.progress i 4) =
        [⟨0, 0⟩, ⟨8388608, -25⟩, ⟨8388608, -24⟩, ⟨12582912, -24⟩] := by decide
    rw [hv]
    norm_num [F32.toRat]

theorem Transition_runs_d_frames_witness :
    Graphics.startFrozen.frozen_ = true ∧ (1 : Int) ≤ 4 ∧
    (∀ b, (none : Option Bitmap) = some b → b.disposed = false) ∧
    (∀ j, j < (4 : Int).toNat → Env.quiet.flagSet (Graphics.startFrozen.flag_reads + j) = false) ∧
    (Graphics.Transition Env.quiet Graphics.startFrozen 4 none 128).presentations =
      Graphics.startFrozen.presentations + (4 : Int).toNat ∧
    (Graphics.Transition Env.quiet Graphics.startFrozen 4 none 128).frozen_ = false ∧
    (Graphics.Transition Env.quiet Graphics.startFrozen 4 none 128).brightness_ = 255 :=
  have h := Transition_runs_d_frames Env.quiet Graphics.startFrozen 4 none 128 rfl
    (by decide) (fun b hb => Option.noConfusion hb) (fun _ _ => rfl)
  ⟨rfl, by decide, fun b hb => Option.noConfusion hb, fun _ _ => rfl, h.1, h.2.2.2.2.1,
    h.2.2.2.2.2.1⟩

/-! ## Lemmas on the remaining operations -/

theorem clamp_range (v : Int) : 0 ≤ clamp v 0 255 ∧ clamp v 0 255 ≤ 255 := by
  unfold clamp
  split_ifs <;> omega

theorem clamp_of_range (v : Int) (h0 : 0 ≤ v) (h1 : v ≤ 255) : clamp v 0 255 = v := by
  unfold clamp
  split_ifs <;> omega

/-- The members a tick does not write, and the frame counter. -/
theorem RaiseRunnerFlags_config (env : Env) (g : Graphics) :
    (BindingRunner.RaiseRunnerFlags env g).frame_rate_ = g.frame_rate_ ∧
    (BindingRunner.RaiseRunnerFlags env g).limiter_frame_rate = g.limiter_frame_rate := by
  unfold BindingRunner.RaiseRunnerFlags
  cases env.binding_engine_ <;> cases env.quit_atomic_ g.flag_reads <;>
    cases env.reset_atomic_ g.flag_reads <;> simp [Graphics.emit]

theorem Update_stable (env : Env) (g : Graphics) :
    (Graphics.Update env g).frame_count_ = g.frame_count_ + 1 ∧
    (Graphics.Update env g).brightness_ = g.brightness_ ∧
    (Graphics.Update env g).frozen_ = g.frozen_ ∧
    (Graphics.Update env g).frame_rate_ = g.frame_rate_ ∧
    (Graphics.Update env g).limiter_frame_rate = g.limiter_frame_rate := by
  have hfin : ∀ x : Graphics,
      (BindingRunner.RaiseRunnerFlags env
        (BindingRunner.CheckRunnerFlags env x.FrameProcessInternal).2).frame_count_ =
          x.frame_count_ + 1 ∧
      (BindingRunner.RaiseRunnerFlags env
        (BindingRunner.CheckRunnerFlags env x.FrameProcessInternal).2).brightness_ =
          x.brightness_ ∧
      (BindingRunner.RaiseRunnerFlags env
        (BindingRunner.CheckRunnerFlags env x.FrameProcessInternal).2).frozen_ = x.frozen_ ∧
      (BindingRunner.RaiseRunnerFlags env
        (BindingRunner.CheckRunnerFlags env x.FrameProcessInternal).2).frame_rate_ =
          x.frame_rate_ ∧
      (BindingRunner.RaiseRunnerFlags env
        (BindingRunner.CheckRunnerFlags env x.FrameProcessInternal).2).limiter_frame_rate =
          x.limiter_frame_rate := by
    intro x
    obtain ⟨f1, f2, f3, _⟩ := RaiseRunnerFlags_fields env
      (BindingRunner.CheckRunnerFlags env x.FrameProcessInternal).2
    obtain ⟨c1, c2⟩ := RaiseRunnerFlags_config env
      (BindingRunner.CheckRunnerFlags env x.FrameProcessInternal).2
    rw [f1, f2, f3, c1, c2]
    simp [BindingRunner.CheckRunnerFlags, Graphics.FrameProcessInternal, Graphics.emit]
  unfold Graphics.Update
  cases hf : g.frozen_
  · simp only [Bool.not_false, if_true]
    cases hs : env.RequireFrameSkip g.skip_queries <;> cases ha : env.allow_frame_skip
    all_goals first
      | (simp only [Bool.and_true, Bool.and_false, Bool.false_and, Bool.true_and,
          Bool.false_eq_true, if_false, if_true]
         have := hfin (Graphics.PresentScreenInternal
          (Graphics.CompositeScreenInternal { g with skip_queries := g.skip_queries + 1 })
          Buffer.screen_buffer_0)
         simpa [Graphics.PresentScreenInternal, Graphics.CompositeScreenInternal,
          Graphics.emit, hf] using this)
      | (simp only [Bool.and_true, Bool.and_false, Bool.false_and, Bool.true_and,
          Bool.false_eq_true, if_false, if_true]
         have := hfin (Graphics.PresentScreenInternal
          (Graphics.CompositeScreenInternal
            (Graphics.emit { g with skip_queries := g.skip_queries + 1 } Event.FpsReset))
          Buffer.screen_buffer_0)
         simpa [Graphics.PresentScreenInternal, Graphics.CompositeScreenInternal,
          Graphics.emit, hf] using this)
      | simp [Graphics.FrameProcessInternal, Graphics.emit, hf]
  · simp only [Bool.not_true, Bool.false_eq_true, if_false]
    have := hfin g
    rw [hf] at this
    exact this

theorem foldl_emit (f : Nat → Event) (l : List Nat) (g : Graphics) :
    l.foldl (fun acc d => acc.emit (f d)) g = { g with trace := g.trace ++ l.map f } := by
  induction l generalizing g with
  | nil => simp
  | cons a l ih =>
    rw [List.foldl_cons, ih]
    simp [Graphics.emit]

theorem frozenFadeStep_config (env : Env) (g : Graphics) (v : Int) :
    (BindingRunner.CheckRunnerFlags env
      ((g.SetBrightness v).PresentScreenInternal
        Buffer.frozen_snapshot_).FrameProcessInternal).2.brightness_ = clamp v 0 255 ∧
    (BindingRunner.CheckRunnerFlags env
      ((g.SetBrightness v).PresentScreenInternal
        Buffer.frozen_snapshot_).FrameProcessInternal).2.frame_rate_ = g.frame_rate_ ∧
    (BindingRunner.CheckRunnerFlags env
      ((g.SetBrightness v).PresentScreenInternal
        Buffer.frozen_snapshot_).FrameProcessInternal).2.limiter_frame_rate =
          g.limiter_frame_rate := by
  simp [BindingRunner.CheckRunnerFlags, Graphics.SetBrightness, Graphics.PresentScreenInternal,
    Graphics.FrameProcessInternal, Graphics.emit]

theorem FadeLoop_normal_succ (env : Env) (value : Int → Int) (n : Nat) (i : Int)
    (g : Graphics) (hf : g.frozen_ = false) :
    Graphics.FadeLoop env value (n + 1) i g =
      Graphics.FadeLoop env value n (i + 1) (Graphics.Update env (g.SetBrightness (value i))) := by
  have h1 : (g.SetBrightness (value i)).frozen_ = false := hf
  rw [Graphics.FadeLoop]
  simp only [h1, Bool.false_eq_true, if_false]

/-- What a fade loop of `n` iterations leaves alone, in either mode: it never lowers the frame
count, raises it by at most `n` (by exactly `n` in Normal mode), keeps the mode and the frame
rate, and keeps the brightness within 0 and 255. -/
theorem FadeLoop_stable (env : Env) (value : Int → Int) :
    ∀ (n : Nat) (i : Int) (g : Graphics),
      g.frame_count_ ≤ (Graphics.FadeLoop env value n i g).frame_count_ ∧
      (Graphics.FadeLoop env value n i g).frame_count_ ≤ g.frame_count_ + (n : Int) ∧
      (g.frozen_ = false →
        (Graphics.FadeLoop env value n i g).frame_count_ = g.frame_count_ + (n : Int)) ∧
      (Graphics.FadeLoop env value n i g).frozen_ = g.frozen_ ∧
      (Graphics.FadeLoop env value n i g).frame_rate_ = g.frame_rate_ ∧
      (Graphics.FadeLoop env value n i g).limiter_frame_rate = g.limiter_frame_rate ∧
      ((0 ≤ g.brightness_ ∧ g.brightness_ ≤ 255) →
        0 ≤ (Graphics.FadeLoop env value n i g).brightness_ ∧
        (Graphics.FadeLoop env value n i g).brightness_ ≤ 255) := by
  intro n
  induction n with
  | zero =>
    intro i g
    simp [Graphics.FadeLoop]
  | succ m ih =>
    intro i g
    cases hf : g.frozen_
    · rw [FadeLoop_normal_succ env value m i g hf]
      obtain ⟨u1, u2, u3, u4, u5⟩ := Update_stable env (g.SetBrightness (value i))
      obtain ⟨r1, r2, r3, r4, r5, r6, r7⟩ :=
        ih (i + 1) (Graphics.Update env (g.SetBrightness (value i)))
      have hb : (g.SetBrightness (value i)).brightness_ = clamp (value i) 0 255 := rfl
      have hc : (g.SetBrightness (value i)).frame_count_ = g.frame_count_ := rfl
      have hfz : (g.SetBrightness (value i)).frozen_ = g.frozen_ := rfl
      have hfr : (g.SetBrightness (value i)).frame_rate_ = g.frame_rate_ := rfl
      have hlr : (g.SetBrightness (value i)).limiter_frame_rate = g.limiter_frame_rate := rfl
      rw [u1, hc] at r1 r2 r3
      rw [u3, hfz, hf] at r3 r4
      refine ⟨by omega, by push_cast; omega, fun _ => ?_, r4, ?_, ?_, fun _ => ?_⟩
      · have := r3 rfl
        push_cast
        omega
      · rw [r5, u4, hfr]
      · rw [r6, u5, hlr]
      · apply r7
        rw [u2, hb]
        exact clamp_range _
    · obtain ⟨_, s2, s3, _, _, _, _, _⟩ := frozenFadeStep_fields env g (value i)
      obtain ⟨t1, t2, t3⟩ := frozenFadeStep_config env g (value i)
      rw [FadeLoop_frozen_succ env value m i g hf]
      split_ifs
      · refine ⟨by rw [s3]; omega, by rw [s3]; push_cast; omega, (fun h => absurd h (by simp)),
          s2.trans hf, t2, t3, fun _ => ?_⟩
        rw [t1]
        exact clamp_range _
      · obtain ⟨r1, r2, _, r4, r5, r6, r7⟩ := ih (i + 1)
          (BindingRunner.CheckRunnerFlags env
            ((g.SetBrightness (value i)).PresentScreenInternal
              Buffer.frozen_snapshot_).FrameProcessInternal).2
        rw [s3] at r1 r2
        refine ⟨by omega, by push_cast; omega, (fun h => absurd h (by simp)), r4.trans (s2.trans hf),
          r5.trans t2, r6.trans t3, fun _ => ?_⟩
        apply r7
        rw [t1]
        exact clamp_range _

theorem transitionStep_config (env : Env) (g : Graphics) (i duration : Int)
    (bm : Option Bitmap) :
    (BindingRunner.CheckRunnerFlags env
      (g.TransitionSceneInternalLoop i duration bm).FrameProcessInternal).2.frame_rate_ =
        g.frame_rate_ ∧
    (BindingRunner.CheckRunnerFlags env
      (g.TransitionSceneInternalLoop i duration bm).FrameProcessInternal).2.limiter_frame_rate =
        g.limiter_frame_rate := by
  simp [BindingRunner.CheckRunnerFlags, Graphics.TransitionSceneInternalLoop,
    Graphics.PresentScreenInternal, Graphics.FrameProcessInternal, Graphics.emit]

/-- What a transition loop of `n` iterations leaves alone: it never lowers the frame count,
raises it by at most `n`, and keeps the frame rate. -/
theorem TransitionLoop_stable (env : Env) (duration : Int) (bm : Option Bitmap) :
    ∀ (n : Nat) (i : Int) (g : Graphics),
      g.frame_count_ ≤ (Graphics.TransitionLoop env duration bm n i g).frame_count_ ∧
      (Graphics.TransitionLoop env duration bm n i g).frame_count_ ≤
        g.frame_count_ + (n : Int) ∧
      (Graphics.TransitionLoop env duration bm n i g).frame_rate_ = g.frame_rate_ ∧
      (Graphics.TransitionLoop env duration bm n i g).limiter_frame_rate =
        g.limiter_frame_rate := by
  intro n
  induction n with
  | zero =>
    intro i g
    simp [Graphics.TransitionLoop]
  | succ m ih =>
    intro i g
    obtain ⟨_, _, _, s4, _, _, _, _, _, _⟩ := transitionStep_fields env g i duration bm
    obtain ⟨t1, t2⟩ := transitionStep_config env g i duration bm
    rw [TransitionLoop_succ env duration bm m i g]
    split_ifs
    · exact ⟨by rw [s4]; omega, by rw [s4]; push_cast; omega, t1, t2⟩
    · obtain ⟨r1, r2, r3, r4⟩ := ih (i + 1)
        (BindingRunner.CheckRunnerFlags env
          (g.TransitionSceneInternalLoop i duration bm).FrameProcessInternal).2
      rw [s4] at r1 r2
      exact ⟨by omega, by push_cast; omega, r3.trans t1, r4.trans t2⟩

/-- `n` calls of `Update` raise the frame count by `n` and keep brightness, mode and frame
rate. -/
theorem iterate_Update_stable (env : Env) :
    ∀ (n : Nat) (g : Graphics),
      (Nat.iterate (Graphics.Update env) n g).frame_count_ = g.frame_count_ + (n : Int) ∧
      (Nat.iterate (Graphics.Update env) n g).brightness_ = g.brightness_ ∧
      (Nat.iterate (Graphics.Update env) n g).frozen_ = g.frozen_ ∧
      (Nat.iterate (Graphics.Update env) n g).frame_rate_ = g.frame_rate_ ∧
      (Nat.iterate (Graphics.Update env) n g).limiter_frame_rate = g.limiter_frame_rate := by
  intro n
  induction n with
  | zero => intro g; simp
  | succ m ih =>
    intro g
    obtain ⟨u1, u2, u3, u4, u5⟩ := Update_stable env g
    obtain ⟨r1, r2, r3, r4, r5⟩ := ih (Graphics.Update env g)
    rw [Function.iterate_succ_apply]
    refine ⟨?_, r2.trans u2, r3.trans u3, r4.trans u4, r5.trans u5⟩
    rw [r1, u1]
    push_cast
    ring

theorem FadeOut_stable (env : Env) (g : Graphics) (d : Int) :
    g.frame_count_ ≤ (Graphics.FadeOut env g d).frame_count_ ∧
    (Graphics.FadeOut env g d).brightness_ = 0 ∧
    (Graphics.FadeOut env g d).frame_rate_ = g.frame_rate_ ∧
    (Graphics.FadeOut env g d).limiter_frame_rate = g.limiter_frame_rate := by
  unfold Graphics.FadeOut
  obtain ⟨r1, _, _, _, r5, r6, _⟩ := FadeLoop_stable env
    (Graphics.FadeOutValue (F32.ofInt g.brightness_) (max d 1)) (max d 1).toNat 0 g
  obtain ⟨f1, _, f3, _⟩ := RaiseRunnerFlags_fields env
    ((Graphics.FadeLoop env (Graphics.FadeOutValue (F32.ofInt g.brightness_) (max d 1))
      (max d 1).toNat 0 g).SetBrightness 0)
  obtain ⟨c1, c2⟩ := RaiseRunnerFlags_config env
    ((Graphics.FadeLoop env (Graphics.FadeOutValue (F32.ofInt g.brightness_) (max d 1))
      (max d 1).toNat 0 g).SetBrightness 0)
  simp only []
  rw [f1, f3, c1, c2]
  exact ⟨r1, clamp_0_255_zero, r5, r6⟩

theorem FadeIn_stable (env : Env) (g : Graphics) (d : Int) :
    g.frame_count_ ≤ (Graphics.FadeIn env g d).frame_count_ ∧
    (Graphics.FadeIn env g d).brightness_ = 255 ∧
    (Graphics.FadeIn env g d).frame_rate_ = g.frame_rate_ ∧
    (Graphics.FadeIn env g d).limiter_frame_rate = g.limiter_frame_rate := by
  unfold Graphics.FadeIn
  obtain ⟨r1, _, _, _, r5, r6, _⟩ := FadeLoop_stable env
    (Graphics.FadeInValue (F32.ofInt g.brightness_)
      ((F32.ofInt 255).sub (F32.ofInt g.brightness_)) (max d 1)) (max d 1).toNat 0 g
  obtain ⟨f1, _, f3, _⟩ := RaiseRunnerFlags_fields env
    ((Graphics.FadeLoop env (Graphics.FadeInValue (F32.ofInt g.brightness_)
      ((F32.ofInt 255).sub (F32.ofInt g.brightness_)) (max d 1))
      (max d 1).toNat 0 g).SetBrightness 255)
  obtain ⟨c1, c2⟩ := RaiseRunnerFlags_config env
    ((Graphics.FadeLoop env (Graphics.FadeInValue (F32.ofInt g.brightness_)
      ((F32.ofInt 255).sub (F32.ofInt g.brightness_)) (max d 1))
      (max d 1).toNat 0 g).SetBrightness 255)
  simp only []
  rw [f1, f3, c1, c2]
  exact ⟨r1, clamp_0_255_full, r5, r6⟩

theorem transitionPrep_config (g : Graphics) (bm : Option Bitmap) (vague : Int) :
    ((((g.SetBrightness 255).TransitionSceneInternal bm vague).emit
      (Event.BlendPush false)).frame_rate_ = g.frame_rate_) ∧
    ((((g.SetBrightness 255).TransitionSceneInternal bm vague).emit
      (Event.BlendPush false)).limiter_frame_rate = g.limiter_frame_rate) := by
  cases bm <;>
    simp [Graphics.SetBrightness, Graphics.TransitionSceneInternal,
      Graphics.CompositeScreenInternal, Graphics.emit]

theorem Transition_cases (env : Env) (g : Graphics) (d : Int) (bm : Option Bitmap)
    (vague : Int) :
    Graphics.Transition env g d bm vague = g ∨
    (g.frozen_ = true ∧ ∀ b, bm = some b → b.disposed = false) := by
  cases hf : g.frozen_
  · left
    unfold Graphics.Transition
    cases bm with
    | none => simp [hf]
    | some b => cases hb : b.disposed <;> simp [hf, hb]
  · cases bm with
    | none => exact Or.inr ⟨rfl, fun b hb => Option.noConfusion hb⟩
    | some b =>
      cases hb : b.disposed
      · refine Or.inr ⟨rfl, fun b2 h2 => ?_⟩
        cases h2
        exact hb
      · left
        unfold Graphics.Transition
        simp [hb]

theorem Transition_stable (env : Env) (g : Graphics) (d : Int) (bm : Option Bitmap)
    (vague : Int) :
    g.frame_count_ ≤ (Graphics.Transition env g d bm vague).frame_count_ ∧
    ((Graphics.Transition env g d bm vague).brightness_ = g.brightness_ ∨
      (Graphics.Transition env g d bm vague).brightness_ = 255) ∧
    (Graphics.Transition env g d bm vague).frame_rate_ = g.frame_rate_ ∧
    (Graphics.Transition env g d bm vague).limiter_frame_rate = g.limiter_frame_rate := by
  rcases Transition_cases env g d bm vague with h | ⟨hf, hb⟩
  · rw [h]
    exact ⟨le_rfl, Or.inl rfl, rfl, rfl⟩
  · rw [Transition_eq env g d bm vague hf hb]
    obtain ⟨_, p2, p3, _⟩ := transitionPrep_fields g bm (clamp vague 1 256)
    obtain ⟨q1, q2⟩ := transitionPrep_config g bm (clamp vague 1 256)
    obtain ⟨l1, _, l3, l4⟩ := TransitionLoop_stable env d bm d.toNat 0
      (((g.SetBrightness 255).TransitionSceneInternal bm (clamp vague 1 256)).emit
        (Event.BlendPush false))
    obtain ⟨_, k2, _, _⟩ := TransitionLoop_quiet env d bm d.toNat 0
      (((g.SetBrightness 255).TransitionSceneInternal bm (clamp vague 1 256)).emit
        (Event.BlendPush false))
    obtain ⟨f1, _, f3, _⟩ := RaiseRunnerFlags_fields env
      { ((Graphics.TransitionLoop env d bm d.toNat 0
          (((g.SetBrightness 255).TransitionSceneInternal bm (clamp vague 1 256)).emit
            (Event.BlendPush false))).emit Event.BlendPop) with frozen_ := false }
    obtain ⟨c1, c2⟩ := RaiseRunnerFlags_config env
      { ((Graphics.TransitionLoop env d bm d.toNat 0
          (((g.SetBrightness 255).TransitionSceneInternal bm (clamp vague 1 256)).emit
            (Event.BlendPush false))).emit Event.BlendPop) with frozen_ := false }
    rw [f1, f3, c1, c2]
    rw [p3] at l1
    exact ⟨l1, Or.inr (k2.trans p2), l3.trans q1, l4.trans q2⟩

theorem ResizeResolutionInternal_eq (g : Graphics) :
    g.ResizeResolutionInternal =
      { g with
        screen_buffer_0 := Image.Undefined
        screen_buffer_1 := Image.Undefined
        frozen_snapshot_ := Image.Undefined
        viewport_rect_ := Rect.ofSize g.resolution_
        trace := g.trace ++
          [Event.Alloc Buffer.screen_buffer_0 g.resolution_,
            Event.Alloc Buffer.screen_buffer_1 g.resolution_,
            Event.Alloc Buffer.frozen_snapshot_ g.resolution_,
            Event.QuadResize g.resolution_] ++
          g.drawables_.map (fun d => Event.OnViewportRectChanged d (Rect.ofSize g.resolution_)) } := by
  unfold Graphics.ResizeResolutionInternal Graphics.NotifyViewportChanged
  simp only [foldl_emit]
  simp [Graphics.Alloc, Graphics.emit, Graphics.setBuffer]

theorem Reset_eq (env : Env) (g : Graphics) :
    Graphics.Reset env g =
      { g with
        frozen_ := false
        brightness_ := 255
        frame_rate_ := if 2 ≤ env.rgss_version then 60 else 40
        limiter_frame_rate := if 2 ≤ env.rgss_version then 60 else 40
        trace := g.trace ++ g.disposable_elements_.reverse.map Event.Dispose ++
          [Event.FpsReset] } := by
  unfold Graphics.Reset
  simp only [foldl_emit]
  have h : max (if 2 ≤ env.rgss_version then (60 : Int) else 40) 10 =
      if 2 ≤ env.rgss_version then 60 else 40 := by
    split_ifs <;> decide
  simp [Graphics.SetFrameRate, Graphics.SetBrightness, Graphics.FrameReset, Graphics.emit,
    clamp_0_255_full, h]

theorem ApplyViewportEffect_stable (g : Graphics) (frontend backend : Buffer)
    (color tone flash_color : Vec4) :
    (g.ApplyViewportEffect frontend backend color tone flash_color).frame_count_ =
      g.frame_count_ ∧
    (g.ApplyViewportEffect frontend backend color tone flash_color).brightness_ =
      g.brightness_ ∧
    (g.ApplyViewportEffect frontend backend color tone flash_color).frame_rate_ =
      g.frame_rate_ ∧
    (g.ApplyViewportEffect frontend backend color tone flash_color).limiter_frame_rate =
      g.limiter_frame_rate := by
  unfold Graphics.ApplyViewportEffect
  split_ifs
  · exact ⟨rfl, rfl, rfl, rfl⟩
  · cases frontend <;> cases backend <;>
      simp [Graphics.emit, Graphics.setBuffer]

theorem stable_of_fields (g g2 : Graphics)
    (hb : g2.brightness_ = g.brightness_ ∨ (0 ≤ g2.brightness_ ∧ g2.brightness_ ≤ 255))
    (hr : (g2.frame_rate_ = g.frame_rate_ ∧ g2.limiter_frame_rate = g.limiter_frame_rate) ∨
      (10 ≤ g2.frame_rate_ ∧ g2.limiter_frame_rate = g2.frame_rate_))
    (hc : ∀ c : Int, g2.frame_count_ = g.frame_count_ + c → 0 ≤ c) :
    ((0 ≤ g.brightness_ ∧ g.brightness_ ≤ 255) →
      0 ≤ g2.brightness_ ∧ g2.brightness_ ≤ 255) ∧
    ((10 ≤ g.frame_rate_ ∧ g.limiter_frame_rate = g.frame_rate_) →
      10 ≤ g2.frame_rate_ ∧ g2.limiter_frame_rate = g2.frame_rate_) ∧
    g.frame_count_ ≤ g2.frame_count_ := by
  refine ⟨fun h => ?_, fun h => ?_, ?_⟩
  · rcases hb with hb | hb
    · rw [hb]; exact h
    · exact hb
  · rcases hr with ⟨h1, h2⟩ | hr
    · rw [h1, h2]; exact h
    · exact hr
  · have := hc (g2.frame_count_ - g.frame_count_) (by ring)
    omega

/-- What every public operation keeps: brightness within 0 and 255, a frame rate of at least
10 that agrees with the one given to the frame limiter; and no operation but `SetFrameCount`
lowers the frame count. -/
theorem run_stable (env : Env) (g : Graphics) (op : Graphics.Op) :
    ((0 ≤ g.brightness_ ∧ g.brightness_ ≤ 255) →
      0 ≤ (Graphics.run env g op).brightness_ ∧ (Graphics.run env g op).brightness_ ≤ 255) ∧
    ((10 ≤ g.frame_rate_ ∧ g.limiter_frame_rate = g.frame_rate_) →
      10 ≤ (Graphics.run env g op).frame_rate_ ∧
      (Graphics.run env g op).limiter_frame_rate = (Graphics.run env g op).frame_rate_) ∧
    ((∀ c, op ≠ Graphics.Op.SetFrameCount c) →
      g.frame_count_ ≤ (Graphics.run env g op).frame_count_) := by
  have key : ∀ g2 : Graphics, Graphics.run env g op = g2 →
      (g2.brightness_ = g.brightness_ ∨ (0 ≤ g2.brightness_ ∧ g2.brightness_ ≤ 255)) →
      ((g2.frame_rate_ = g.frame_rate_ ∧ g2.limiter_frame_rate = g.limiter_frame_rate) ∨
        (10 ≤ g2.frame_rate_ ∧ g2.limiter_frame_rate = g2.frame_rate_)) →
      (∀ c : Int, g2.frame_count_ = g.frame_count_ + c → 0 ≤ c) →
      ((0 ≤ g.brightness_ ∧ g.brightness_ ≤ 255) →
        0 ≤ (Graphics.run env g op).brightness_ ∧
        (Graphics.run env g op).brightness_ ≤ 255) ∧
      ((10 ≤ g.frame_rate_ ∧ g.limiter_frame_rate = g.frame_rate_) →
        10 ≤ (Graphics.run env g op).frame_rate_ ∧
        (Graphics.run env g op).limiter_frame_rate = (Graphics.run env g op).frame_rate_) ∧
      ((∀ c, op ≠ Graphics.Op.SetFrameCount c) →
        g.frame_count_ ≤ (Graphics.run env g op).frame_count_) := by
    intro g2 h hb hr hc
    rw [h]
    obtain ⟨a, b, c⟩ := stable_of_fields g g2 hb hr hc
    exact ⟨a, b, fun _ => c⟩
  cases op with
  | SetBrightness b =>
    exact key (g.SetBrightness b) rfl (Or.inr (clamp_range b)) (Or.inl ⟨rfl, rfl⟩)
      (fun c hc => by
        have : (g.SetBrightness b).frame_count_ = g.frame_count_ := rfl
        omega)
  | Wait d =>
    obtain ⟨r1, r2, _, r4, r5⟩ := iterate_Update_stable env d.toNat g
    change (Graphics.Wait env g d).frame_count_ = _ at r1
    change (Graphics.Wait env g d).brightness_ = _ at r2
    change (Graphics.Wait env g d).frame_rate_ = _ at r4
    change (Graphics.Wait env g d).limiter_frame_rate = _ at r5
    exact key (Graphics.Wait env g d) rfl (Or.inl r2) (Or.inl ⟨r4, r5⟩)
      (fun c hc => by
        have : (Graphics.Wait env g d).frame_count_ = g.frame_count_ + (d.toNat : Int) := r1
        omega)
  | SnapToBitmap =>
    exact key g.SnapToBitmap rfl (Or.inl rfl) (Or.inl ⟨rfl, rfl⟩)
      (fun c hc => by
        have : g.SnapToBitmap.frame_count_ = g.frame_count_ := rfl
        omega)
  | FadeOut d =>
    obtain ⟨r1, r2, r3, r4⟩ := FadeOut_stable env g d
    exact key (Graphics.FadeOut env g d) rfl (Or.inr (by rw [r2]; decide)) (Or.inl ⟨r3, r4⟩)
      (fun c hc => by omega)
  | FadeIn d =>
    obtain ⟨r1, r2, r3, r4⟩ := FadeIn_stable env g d
    exact key (Graphics.FadeIn env g d) rfl (Or.inr (by rw [r2]; decide)) (Or.inl ⟨r3, r4⟩)
      (fun c hc => by omega)
  | Update =>
    obtain ⟨r1, r2, _, r4, r5⟩ := Update_stable env g
    exact key (Graphics.Update env g) rfl (Or.inl r2) (Or.inl ⟨r4, r5⟩) (fun c hc => by omega)
  | ResizeScreen r =>
    have h : (g.ResizeScreen r).brightness_ = g.brightness_ ∧
        (g.ResizeScreen r).frame_rate_ = g.frame_rate_ ∧
        (g.ResizeScreen r).limiter_frame_rate = g.limiter_frame_rate ∧
        (g.ResizeScreen r).frame_count_ = g.frame_count_ := by
      unfold Graphics.ResizeScreen
      split_ifs
      · exact ⟨rfl, rfl, rfl, rfl⟩
      · rw [ResizeResolutionInternal_eq]
        exact ⟨rfl, rfl, rfl, rfl⟩
    obtain ⟨h1, h2, h3, h4⟩ := h
    exact key (g.ResizeScreen r) rfl (Or.inl h1) (Or.inl ⟨h2, h3⟩) (fun c hc => by omega)
  | Reset =>
    have h : (Graphics.Reset env g).brightness_ = 255 ∧
        (Graphics.Reset env g).frame_rate_ = (if 2 ≤ env.rgss_version then 60 else 40) ∧
        (Graphics.Reset env g).limiter_frame_rate =
          (if 2 ≤ env.rgss_version then 60 else 40) ∧
        (Graphics.Reset env g).frame_count_ = g.frame_count_ := by
      rw [Reset_eq]
      exact ⟨rfl, rfl, rfl, rfl⟩
    obtain ⟨h1, h2, h3, h4⟩ := h
    refine key (Graphics.Reset env g) rfl (Or.inr (by rw [h1]; decide)) (Or.inr ⟨?_, by rw [h2, h3]⟩)
      (fun c hc => by omega)
    rw [h2]
    split_ifs <;> decide
  | Freeze =>
    have h : g.Freeze.brightness_ = g.brightness_ ∧ g.Freeze.frame_rate_ = g.frame_rate_ ∧
        g.Freeze.limiter_frame_rate = g.limiter_frame_rate ∧
        g.Freeze.frame_count_ = g.frame_count_ := by
      unfold Graphics.Freeze
      split_ifs <;> exact ⟨rfl, rfl, rfl, rfl⟩
    obtain ⟨h1, h2, h3, h4⟩ := h
    exact key g.Freeze rfl (Or.inl h1) (Or.inl ⟨h2, h3⟩) (fun c hc => by omega)
  | Transition d bm vague =>
    obtain ⟨r1, r2, r3, r4⟩ := Transition_stable env g d bm vague
    refine key (Graphics.Transition env g d bm vague) rfl ?_ (Or.inl ⟨r3, r4⟩) (fun c hc => by omega)
    rcases r2 with r2 | r2
    · exact Or.inl r2
    · exact Or.inr (by rw [r2]; decide)
  | SetFrameRate r =>
    exact key (g.SetFrameRate r) rfl (Or.inl rfl) (Or.inr ⟨le_max_right _ _, rfl⟩)
      (fun c hc => by
        have : (g.SetFrameRate r).frame_count_ = g.frame_count_ := rfl
        omega)
  | SetFrameCount c =>
    exact ⟨fun h => h, fun h => h, fun h => absurd rfl (h c)⟩
  | FrameReset =>
    exact key g.FrameReset rfl (Or.inl rfl) (Or.inl ⟨rfl, rfl⟩)
      (fun c hc => by
        have : g.FrameReset.frame_count_ = g.frame_count_ := rfl
        omega)
  | AddDisposable d =>
    exact key (g.AddDisposable d) rfl (Or.inl rfl) (Or.inl ⟨rfl, rfl⟩)
      (fun c hc => by
        have : (g.AddDisposable d).frame_count_ = g.frame_count_ := rfl
        omega)
  | RemoveDisposable d =>
    exact key (g.RemoveDisposable d) rfl (Or.inl rfl) (Or.inl ⟨rfl, rfl⟩)
      (fun c hc => by
        have : (g.RemoveDisposable d).frame_count_ = g.frame_count_ := rfl
        omega)
  | RenderEffectRequire c t f =>
    obtain ⟨r1, r2, r3, r4⟩ := ApplyViewportEffect_stable g Buffer.screen_buffer_0
      Buffer.screen_buffer_1 c t f
    change (g.RenderEffectRequire c t f).frame_count_ = _ at r1
    change (g.RenderEffectRequire c t f).brightness_ = _ at r2
    change (g.RenderEffectRequire c t f).frame_rate_ = _ at r3
    change (g.RenderEffectRequire c t f).limiter_frame_rate = _ at r4
    exact key (g.RenderEffectRequire c t f) rfl (Or.inl r2) (Or.inl ⟨r3, r4⟩)
      (fun k hk => by omega)
  | SceneChange l =>
    exact key ({ g with drawables_ := l } : Graphics) rfl (Or.inl rfl) (Or.inl ⟨rfl, rfl⟩)
      (fun c hc => by
        have : ({ g with drawables_ := l } : Graphics).frame_count_ = g.frame_count_ := rfl
        omega)

/-- In every reachable state the brightness lies within 0 and 255 and the frame rate is at
least 10 and is the rate the frame limiter was given. -/
theorem Reachable_invariant (env : Env) (g : Graphics) (hr : Graphics.Reachable env g) :
    (0 ≤ g.brightness_ ∧ g.brightness_ ≤ 255) ∧
    (10 ≤ g.frame_rate_ ∧ g.limiter_frame_rate = g.frame_rate_) := by
  induction hr with
  | ctor r =>
    refine ⟨⟨?_, ?_⟩, ?_, rfl⟩
    · show (0 : Int) ≤ 255
      decide
    · show (255 : Int) ≤ 255
      decide
    · show (10 : Int) ≤ if 2 ≤ env.rgss_version then 60 else 40
      split_ifs <;> decide
  | step g op _ ih =>
    obtain ⟨h1, h2, _⟩ := run_stable env g op
    exact ⟨h1 ih.1, h2 ih.2⟩

theorem F32.lt_iff (x y : F32) : F32.lt x y = true ↔ x.toRat < y.toRat := by
  unfold F32.lt
  rw [decide_eq_true_iff, ← F32.num_div_den x, ← F32.num_div_den y]
  have hx : (0 : ℚ) < x.den := by exact_mod_cast x.den_pos
  have hy : (0 : ℚ) < y.den := by exact_mod_cast y.den_pos
  rw [div_lt_div_iff₀ hx hy]
  constructor
  · intro h
    have : ((x.num * y.den : Int) : ℚ) < ((y.num * x.den : Int) : ℚ) := by exact_mod_cast h
    push_cast at this
    exact this
  · intro h
    have : ((x.num * y.den : Int) : ℚ) < ((y.num * x.den : Int) : ℚ) := by
      push_cast
      exact h
    exact_mod_cast this

/-! ## Freeze -/

/-- C11: `Freeze` is idempotent: from any state a second `Freeze()` returns the state the first
one produced, so the frozen flag is set, the snapshot target is the one the first call wrote,
and the second call adds no composite and no other effect. -/
theorem Freeze_idempotent (g : Graphics) :
    g.Freeze.Freeze = g.Freeze ∧
    g.Freeze.frozen_ = true ∧
    g.Freeze.Freeze.frozen_snapshot_ = g.Freeze.frozen_snapshot_ ∧
    g.Freeze.Freeze.composites = g.Freeze.composites ∧
    g.Freeze.Freeze.trace = g.Freeze.trace ∧
    g.Freeze.frozen_snapshot_ =
      (if g.frozen_ then g.frozen_snapshot_ else Image.Scene g.brightness_) ∧
    g.Freeze.composites = g.composites + (if g.frozen_ then 0 else 1) := by
  have hf : g.Freeze.frozen_ = true := by
    unfold Graphics.Freeze
    cases h : g.frozen_ <;> simp [h]
  have h2 : g.Freeze.Freeze = g.Freeze := by
    rw [Graphics.Freeze.eq_1 g.Freeze, if_pos hf]
  refine ⟨h2, hf, by rw [h2], by rw [h2], by rw [h2], ?_, ?_⟩
  · unfold Graphics.Freeze
    cases h : g.frozen_ <;>
      simp [Graphics.FreezeSceneInternal, Graphics.CompositeScreenInternal, Graphics.emit]
  · unfold Graphics.Freeze
    cases h : g.frozen_ <;>
      simp [Graphics.FreezeSceneInternal, Graphics.CompositeScreenInternal, Graphics.emit,
        Graphics.composites]

/-! ## Update in Normal mode -/

/-- C15: `Update` in Normal mode. When the pacing controller requires a skip and the
configuration allows frame skipping, `Update` is `FrameProcessInternal` alone: the frame delay,
the frame counter plus one and the FPS message, with no composite, no presentation and no look
at the flags. In every other Normal-mode case it composites the scene into screen buffer 0 (after
a pacing reset when a skip was required but is not allowed), presents screen buffer 0, processes
the frame, and then checks and raises the flags. -/
theorem Update_normal (env : Env) (g : Graphics) (hn : g.frozen_ = false) :
    ((env.RequireFrameSkip g.skip_queries && env.allow_frame_skip) = true →
      Graphics.Update env g =
        { g with skip_queries := g.skip_queries + 1 }.FrameProcessInternal ∧
      (Graphics.Update env g).trace = g.trace ++ [Event.Delay, Event.UpdateFpsDisplay] ∧
      (Graphics.Update env g).composites = g.composites ∧
      (Graphics.Update env g).presentations = g.presentations ∧
      (Graphics.Update env g).screen_buffer_0 = g.screen_buffer_0 ∧
      (Graphics.Update env g).flag_reads = g.flag_reads ∧
      (Graphics.Update env g).quitNotifications = g.quitNotifications ∧
      (Graphics.Update env g).resetNotifications = g.resetNotifications ∧
      (Graphics.Update env g).frame_count_ = g.frame_count_ + 1) ∧
    ((env.RequireFrameSkip g.skip_queries && env.allow_frame_skip) = false →
      (Graphics.Update env g).trace =
        g.trace ++ (if env.RequireFrameSkip g.skip_queries then [Event.FpsReset] else []) ++
          [Event.Composite g.brightness_, Event.Present Buffer.screen_buffer_0,
            Event.Delay, Event.UpdateFpsDisplay] ++
          (if env.binding_engine_ && env.quit_atomic_ (g.flag_reads + 1)
            then [Event.QuitRequired] else []) ++
          (if env.binding_engine_ && env.reset_atomic_ (g.flag_reads + 1)
            then [Event.ResetRequired] else []) ∧
      (Graphics.Update env g).composites = g.composites + 1 ∧
      (Graphics.Update env g).presentations = g.presentations + 1 ∧
      (Graphics.Update env g).screen_buffer_0 = Image.Scene g.brightness_ ∧
      (Graphics.Update env g).flag_reads =
        g.flag_reads + 1 + (if env.binding_engine_ then 1 else 0) ∧
      (Graphics.Update env g).frame_count_ = g.frame_count_ + 1) := by
  constructor
  · intro hs
    have hu : Graphics.Update env g =
        { g with skip_queries := g.skip_queries + 1 }.FrameProcessInternal := by
      unfold Graphics.Update
      simp only [hn, Bool.not_false, if_true, hs]
    rw [hu]
    refine ⟨rfl, ?_, ?_, ?_, ?_, ?_, ?_, ?_, ?_⟩ <;>
      simp [Graphics.FrameProcessInternal, Graphics.emit, Graphics.composites,
        Graphics.presentations, Graphics.quitNotifications, Graphics.resetNotifications]
  · intro hs
    unfold Graphics.Update
    simp only [hn, Bool.not_false, if_true, hs, Bool.false_eq_true, if_false]
    cases hq : env.RequireFrameSkip g.skip_queries <;> cases he : env.binding_engine_ <;>
      cases h1 : env.quit_atomic_ (g.flag_reads + 1) <;>
      cases h2 : env.reset_atomic_ (g.flag_reads + 1) <;>
      simp [BindingRunner.RaiseRunnerFlags, BindingRunner.CheckRunnerFlags,
        Graphics.FrameProcessInternal, Graphics.CompositeScreenInternal,
        Graphics.PresentScreenInternal, Graphics.emit, Graphics.composites,
        Graphics.presentations, he, h1, h2]

/-- Witness of C15: the first `Update` of a fresh compositor whose pacing controller asks for no
skip. -/
theorem Update_normal_witness :
    Graphics.start.frozen_ = false ∧
    (Graphics.Update Env.quiet Graphics.start).trace =
      [Event.Composite 255, Event.Present Buffer.screen_buffer_0, Event.Delay,
        Event.UpdateFpsDisplay] ∧
    (Graphics.Update Env.skipping Graphics.start).trace =
      [Event.Delay, Event.UpdateFpsDisplay] ∧
    (Graphics.Update Env.skipping Graphics.start).frame_count_ = 1 := by
  have h := (Update_normal Env.quiet Graphics.start (by decide)).2 (by decide)
  have k := (Update_normal Env.skipping Graphics.start (by decide)).1 (by decide)
  refine ⟨by decide, ?_, ?_, ?_⟩
  · rw [h.1]
    decide
  · rw [k.2.1]
    decide
  · rw [k.2.2.2.2.2.2.2.2]
    decide

/-! ## Transition with a duration of zero or less -/

/-- C20: `Transition` does not floor its duration. Called while Frozen with `duration ≤ 0` and a
null or non-disposed bitmap, the loop runs no iteration: nothing is presented, no progress value
is passed to a shader and the frame count is unchanged; the only look at the flags is the final
raise. The scene is still composited once, brightness is 255, the frozen flag is cleared, and
the flags are raised once, with the values they have at that moment. -/
theorem Transition_nonpositive_duration (env : Env) (g : Graphics) (duration : Int)
    (bm : Option Bitmap) (vague : Int) (hf : g.frozen_ = true)
    (hb : ∀ b, bm = some b → b.disposed = false) (hd : duration ≤ 0) :
    Graphics.Transition env g duration bm vague =
      BindingRunner.RaiseRunnerFlags env
        { ((((g.SetBrightness 255).TransitionSceneInternal bm (clamp vague 1 256)).emit
            (Event.BlendPush false)).emit Event.BlendPop) with frozen_ := false } ∧
    (Graphics.Transition env g duration bm vague).presentations = g.presentations ∧
    (Graphics.Transition env g duration bm vague).progressValues = g.progressValues ∧
    (Graphics.Transition env g duration bm vague).frame_count_ = g.frame_count_ ∧
    (Graphics.Transition env g duration bm vague).composites = g.composites + 1 ∧
    (Graphics.Transition env g duration bm vague).brightness_ = 255 ∧
    (Graphics.Transition env g duration bm vague).frozen_ = false ∧
    (Graphics.Transition env g duration bm vague).flag_reads =
      g.flag_reads + (if env.binding_engine_ then 1 else 0) ∧
    (Graphics.Transition env g duration bm vague).quitNotifications = g.quitNotifications +
      (if env.binding_engine_ && env.quit_atomic_ g.flag_reads then 1 else 0) ∧
    (Graphics.Transition env g duration bm vague).resetNotifications = g.resetNotifications +
      (if env.binding_engine_ && env.reset_atomic_ g.flag_reads then 1 else 0) := by
  have h0 : duration.toNat = 0 := Int.toNat_eq_zero.mpr hd
  have he := Transition_eq env g duration bm vague hf hb
  rw [h0] at he
  have hl : Graphics.TransitionLoop env duration bm 0 0
      (((g.SetBrightness 255).TransitionSceneInternal bm (clamp vague 1 256)).emit
        (Event.BlendPush false)) =
      (((g.SetBrightness 255).TransitionSceneInternal bm (clamp vague 1 256)).emit
        (Event.BlendPush false)) := by
    simp [Graphics.TransitionLoop]
  rw [hl] at he
  obtain ⟨p1, p2, p3, p4, p5, p6, p7, p8, p9⟩ :=
    transitionPrep_fields g bm (clamp vague 1 256)
  obtain ⟨b1, b2, b3, b4, b5⟩ := emit_BlendPop_fields
    (((g.SetBrightness 255).TransitionSceneInternal bm (clamp vague 1 256)).emit
      (Event.BlendPush false))
  obtain ⟨r1, r2, r3, r4, r5, r6, r7⟩ := RaiseRunnerFlags_fields env
    { ((((g.SetBrightness 255).TransitionSceneInternal bm (clamp vague 1 256)).emit
        (Event.BlendPush false)).emit Event.BlendPop) with frozen_ := false }
  obtain ⟨c1, c2⟩ := RaiseRunnerFlags_counts env
    { ((((g.SetBrightness 255).TransitionSceneInternal bm (clamp vague 1 256)).emit
        (Event.BlendPush false)).emit Event.BlendPop) with frozen_ := false }
  rw [he]
  refine ⟨rfl, ?_, ?_, ?_, ?_, ?_, ?_, ?_, ?_, ?_⟩
  · rw [r4]
    exact b1.trans p5
  · rw [r6]
    exact b5.trans p9
  · rw [r3]
    exact p3
  · rw [r5]
    exact b4.trans p8
  · rw [r1]
    exact p2
  · rw [r2]
  · unfold BindingRunner.RaiseRunnerFlags
    cases env.binding_engine_ <;>
      simp [Graphics.emit, Graphics.SetBrightness, Graphics.TransitionSceneInternal,
        Graphics.CompositeScreenInternal]
    all_goals cases bm <;> simp
  · rw [c1]
    have hfr : ({ ((((g.SetBrightness 255).TransitionSceneInternal bm (clamp vague 1 256)).emit
        (Event.BlendPush false)).emit Event.BlendPop) with frozen_ := false } :
        Graphics).flag_reads = g.flag_reads := p4
    have hq : ({ ((((g.SetBrightness 255).TransitionSceneInternal bm (clamp vague 1 256)).emit
        (Event.BlendPush false)).emit Event.BlendPop) with frozen_ := false } :
        Graphics).quitNotifications = g.quitNotifications := b2.trans p6
    rw [hfr, hq]
  · rw [c2]
    have hfr : ({ ((((g.SetBrightness 255).TransitionSceneInternal bm (clamp vague 1 256)).emit
        (Event.BlendPush false)).emit Event.BlendPop) with frozen_ := false } :
        Graphics).flag_reads = g.flag_reads := p4
    have hq : ({ ((((g.SetBrightness 255).TransitionSceneInternal bm (clamp vague 1 256)).emit
        (Event.BlendPush false)).emit Event.BlendPop) with frozen_ := false } :
        Graphics).resetNotifications = g.resetNotifications := b3.trans p7
    rw [hfr, hq]

/-- Witness of C20: `Transition(0)` and `Transition(-3)` of a frozen compositor with the quit
flag set. -/
theorem Transition_nonpositive_duration_witness :
    Graphics.startFrozen.frozen_ = true ∧
    (Graphics.Transition (Env.quitFrom 0) Graphics.startFrozen 0 none 40).presentations = 0 ∧
    (Graphics.Transition (Env.quitFrom 0) Graphics.startFrozen (-3) none 40).frame_count_ = 0 ∧
    (Graphics.Transition (Env.quitFrom 0) Graphics.startFrozen 0 none 40).frozen_ = false ∧
    (Graphics.Transition (Env.quitFrom 0) Graphics.startFrozen 0 none 40).quitNotifications
      = 1 := by
  have h := Transition_nonpositive_duration (Env.quitFrom 0) Graphics.startFrozen 0 none 40
    (by decide) (fun b hb => by cases hb) (by decide)
  have k := Transition_nonpositive_duration (Env.quitFrom 0) Graphics.startFrozen (-3) none 40
    (by decide) (fun b hb => by cases hb) (by decide)
  refine ⟨by decide, ?_, ?_, h.2.2.2.2.2.2.1, ?_⟩
  · rw [h.2.1]
    decide
  · rw [k.2.2.2.1]
    decide
  · rw [h.2.2.2.2.2.2.2.2.1]
    decide

/-! ## Brightness and frame rate -/

/-- C17: after `SetBrightness(v)` the brightness read back is `v` clamped to the range 0 to 255;
setting the same value twice gives the state of setting it once; in a reachable state writing
back the brightness read changes nothing, and the brightness lies between 0 and 255. -/
theorem SetBrightness_clamps (env : Env) (g : Graphics) (v : Int)
    (hr : Graphics.Reachable env g) :
    (g.SetBrightness v).GetBrightness = (if v < 0 then 0 else if 255 < v then 255 else v) ∧
    (g.SetBrightness v).SetBrightness v = g.SetBrightness v ∧
    g.SetBrightness g.GetBrightness = g ∧
    0 ≤ g.GetBrightness ∧ g.GetBrightness ≤ 255 := by
  have hb := (Reachable_invariant env g hr).1
  refine ⟨rfl, rfl, ?_, hb.1, hb.2⟩
  unfold Graphics.SetBrightness Graphics.GetBrightness
  rw [clamp_of_range g.brightness_ hb.1 hb.2]

/-- Witness of C17: setting 300, then -7, on a compositor that has been frozen. -/
theorem SetBrightness_clamps_witness :
    Graphics.Reachable Env.quiet Graphics.startFrozen ∧
    (Graphics.startFrozen.SetBrightness 300).GetBrightness = 255 ∧
    (Graphics.startFrozen.SetBrightness (-7)).GetBrightness = 0 ∧
    Graphics.startFrozen.SetBrightness Graphics.startFrozen.GetBrightness =
      Graphics.startFrozen :=
  have hr : Graphics.Reachable Env.quiet Graphics.startFrozen :=
    Graphics.Reachable.step _ Graphics.Op.Freeze (Graphics.Reachable.ctor (640, 480))
  ⟨hr, (SetBrightness_clamps Env.quiet Graphics.startFrozen 300 hr).1,
    (SetBrightness_clamps Env.quiet Graphics.startFrozen (-7) hr).1,
    (SetBrightness_clamps Env.quiet Graphics.startFrozen 0 hr).2.2.1⟩

/-- C18: after `SetFrameRate(rate)` the frame rate read back is `max(rate, 10)`, the value
handed to the pacing controller; setting the same rate twice gives the state of setting it
once; in a reachable state the frame rate is at least 10 and is the rate of the pacing
controller. -/
theorem SetFrameRate_floor (env : Env) (g : Graphics) (rate : Int)
    (hr : Graphics.Reachable env g) :
    (g.SetFrameRate rate).GetFrameRate = max rate 10 ∧
    (g.SetFrameRate rate).limiter_frame_rate = max rate 10 ∧
    (g.SetFrameRate rate).SetFrameRate rate = g.SetFrameRate rate ∧
    10 ≤ g.GetFrameRate ∧ g.limiter_frame_rate = g.GetFrameRate := by
  have hb := (Reachable_invariant env g hr).2
  exact ⟨rfl, rfl, rfl, hb.1, hb.2⟩

/-- Witness of C18: rates 3 and 120 on a fresh compositor. -/
theorem SetFrameRate_floor_witness :
    Graphics.Reachable Env.quiet Graphics.start ∧
    (Graphics.start.SetFrameRate 3).GetFrameRate = 10 ∧
    (Graphics.start.SetFrameRate 120).GetFrameRate = 120 ∧
    10 ≤ Graphics.start.GetFrameRate :=
  ⟨Graphics.Reachable.ctor (640, 480),
    (SetFrameRate_floor Env.quiet Graphics.start 3 (Graphics.Reachable.ctor (640, 480))).1,
    (SetFrameRate_floor Env.quiet Graphics.start 120 (Graphics.Reachable.ctor (640, 480))).1,
    (SetFrameRate_floor Env.quiet Graphics.start 0
      (Graphics.Reachable.ctor (640, 480))).2.2.2.1⟩

/-! ## ResizeScreen -/

/-- C12: `ResizeScreen(r)` with the current resolution returns the state unchanged (no
allocation, no notification). With another resolution it sets `resolution_` to `r` and the
viewport rectangle to the rectangle of size `r` at the origin, allocates the two screen buffers
and the frozen snapshot target at size `r`, and calls `OnViewportRectChanged` with the new
rectangle once for each Drawable of the collection (which holds a Drawable once), head to
tail. -/
theorem ResizeScreen_reallocates (g : Graphics) (r : Int × Int) (hnd : g.drawables_.Nodup) :
    (r = g.resolution_ → g.ResizeScreen r = g) ∧
    (r ≠ g.resolution_ →
      g.ResizeScreen r =
        { g with
          resolution_ := r
          screen_buffer_0 := Image.Undefined
          screen_buffer_1 := Image.Undefined
          frozen_snapshot_ := Image.Undefined
          viewport_rect_ := Rect.ofSize r
          trace := g.trace ++
            [Event.Alloc Buffer.screen_buffer_0 r, Event.Alloc Buffer.screen_buffer_1 r,
              Event.Alloc Buffer.frozen_snapshot_ r, Event.QuadResize r] ++
            g.drawables_.map (fun d => Event.OnViewportRectChanged d (Rect.ofSize r)) } ∧
      (g.ResizeScreen r).allocations = g.allocations ++
        [(Buffer.screen_buffer_0, r), (Buffer.screen_buffer_1, r),
          (Buffer.frozen_snapshot_, r)] ∧
      (g.ResizeScreen r).viewportNotifications = g.viewportNotifications ++
        g.drawables_.map (fun d => (d, Rect.ofSize r)) ∧
      ∀ d, ((g.drawables_.map (fun d => (d, Rect.ofSize r))).map Prod.fst).count d =
        if d ∈ g.drawables_ then 1 else 0) := by
  constructor
  · intro h
    unfold Graphics.ResizeScreen
    rw [if_pos h.symm]
  · intro h
    have he : g.ResizeScreen r = { g with resolution_ := r }.ResizeResolutionInternal := by
      unfold Graphics.ResizeScreen
      rw [if_neg (fun k => h k.symm)]
    rw [he, ResizeResolutionInternal_eq]
    refine ⟨rfl, ?_, ?_, ?_⟩
    · simp [Graphics.allocations, List.filterMap_append]
    · simp [Graphics.viewportNotifications, List.filterMap_append, List.filterMap_map]
      rw [← List.filterMap_eq_map]
      rfl
    · intro d
      rw [List.map_map]
      have : (Prod.fst ∘ fun (d : Nat) => (d, Rect.ofSize r)) = id := rfl
      rw [this, List.map_id]
      exact List.count_eq_of_nodup hnd

/-- Witness of C12: the screen with two sprites resized from 640 x 480 to 544 x 416 and to
640 x 480. -/
theorem ResizeScreen_reallocates_witness :
    Graphics.twoSprites.drawables_.Nodup ∧
    Graphics.twoSprites.ResizeScreen (640, 480) = Graphics.twoSprites ∧
    (Graphics.twoSprites.ResizeScreen (544, 416)).viewportNotifications =
      [(1, Rect.ofSize (544, 416)), (0, Rect.ofSize (544, 416))] ∧
    (Graphics.twoSprites.ResizeScreen (544, 416)).allocations =
      [(Buffer.screen_buffer_0, (544, 416)), (Buffer.screen_buffer_1, (544, 416)),
        (Buffer.frozen_snapshot_, (544, 416))] := by
  have h := ResizeScreen_reallocates Graphics.twoSprites (544, 416) (by decide)
  have k := ResizeScreen_reallocates Graphics.twoSprites (640, 480) (by decide)
  refine ⟨by decide, k.1 (by decide), ?_, ?_⟩
  · rw [(h.2 (by decide)).2.2.1]
    decide
  · rw [(h.2 (by decide)).2.1]
    decide

/-! ## Reset -/

/-- C16, counterexample: two sprites, sprite 0 (`z = 5`) created before sprite 1 (`z = 10`).
The z-ordered collection of the screen is 1, 0, so its tail-to-head order is 0, 1; `Reset`
walks the list of disposables, which is in order of registration, and calls `Dispose` on
sprite 1 first and sprite 0 second. -/
theorem Reset_order_counterexample :
    Graphics.twoSprites.drawables_ = [1, 0] ∧
    Graphics.twoSprites.disposable_elements_ = [0, 1] ∧
    (Graphics.Reset Env.quiet Graphics.twoSprites).disposals = [1, 0] ∧
    (Graphics.Reset Env.quiet Graphics.twoSprites).disposals ≠
      Graphics.twoSprites.drawables_.reverse := by
  decide

/-- C16, amended: `Reset` returns with `frozen_` false, brightness 255 and the frame rate of
the content version (60 from RGSS2 on, 40 before), after calling `Dispose` once on every element
of the list of disposables, from its tail to its head, which is the reverse of the order in which
the elements were registered with `AddDisposable`; the z-ordered collection of the screen is
neither read nor changed. -/
theorem Reset_disposes_registered (env : Env) (g : Graphics)
    (hnd : g.disposable_elements_.Nodup) :
    (Graphics.Reset env g).frozen_ = false ∧
    (Graphics.Reset env g).GetBrightness = 255 ∧
    (Graphics.Reset env g).GetFrameRate = (if 2 ≤ env.rgss_version then 60 else 40) ∧
    (Graphics.Reset env g).disposals = g.disposals ++ g.disposable_elements_.reverse ∧
    (∀ d, g.disposable_elements_.reverse.count d =
      if d ∈ g.disposable_elements_ then 1 else 0) ∧
    (∀ a b, (Graphics.Reset env ((g.AddDisposable a).AddDisposable b)).disposals =
      g.disposals ++ b :: a :: g.disposable_elements_.reverse) ∧
    (∀ l, (Graphics.Reset env { g with drawables_ := l }).disposals =
      (Graphics.Reset env g).disposals) ∧
    (Graphics.Reset env g).drawables_ = g.drawables_ := by
  have hd : ∀ x : Graphics,
      (Graphics.Reset env x).disposals = x.disposals ++ x.disposable_elements_.reverse := by
    intro x
    rw [Reset_eq]
    simp only [Graphics.disposals, List.filterMap_append, List.filterMap_map,
      List.filterMap_reverse]
    change _ ++ (List.filterMap some x.disposable_elements_).reverse ++ _ = _
    rw [List.filterMap_some]
    simp
  refine ⟨?_, ?_, ?_, hd g, ?_, ?_, ?_, ?_⟩
  · rw [Reset_eq]
  · rw [Reset_eq]
    rfl
  · rw [Reset_eq]
    rfl
  · intro d
    rw [List.count_reverse]
    exact List.count_eq_of_nodup hnd
  · intro a b
    rw [hd]
    simp [Graphics.AddDisposable, LinkedList.Append, Graphics.disposals]
  · intro l
    rw [hd, hd]
    rfl
  · rw [Reset_eq]

/-- Witness of C16: `Reset` of the screen with two sprites, frozen and dimmed. -/
theorem Reset_disposes_registered_witness :
    Graphics.twoSprites.disposable_elements_.Nodup ∧
    (Graphics.Reset Env.quiet (Graphics.twoSprites.Freeze.SetBrightness 17)).frozen_ = false ∧
    (Graphics.Reset Env.quiet (Graphics.twoSprites.Freeze.SetBrightness 17)).GetBrightness
      = 255 ∧
    (Graphics.Reset Env.quiet (Graphics.twoSprites.Freeze.SetBrightness 17)).disposals
      = [1, 0] := by
  have h := Reset_disposes_registered Env.quiet (Graphics.twoSprites.Freeze.SetBrightness 17)
    (by decide)
  refine ⟨by decide, h.1, h.2.1, ?_⟩
  rw [h.2.2.2.1]
  decide

/-! ## The flat color of the viewport effect -/

/-- C13, counterexample: an opaque red color and an opaque green flash color have the same
alpha; the shader gets the red color, not the flash color. -/
theorem effect_tie_counterexample :
    Graphics.hasEffect (Vec4.opaque3 1 0 0) Vec4.zero (Vec4.opaque3 0 1 0) = true ∧
    (Vec4.opaque3 1 0 0).w = (Vec4.opaque3 0 1 0).w ∧
    (Graphics.start.RenderEffectRequire (Vec4.opaque3 1 0 0) Vec4.zero
      (Vec4.opaque3 0 1 0)).shaderColors = [Vec4.opaque3 1 0 0] ∧
    Vec4.opaque3 1 0 0 ≠ Vec4.opaque3 0 1 0 := by
  decide

/-- C13, amended: whenever `ApplyViewportEffect` is not a no-op, the shader gets exactly one
flat color: `flash_color` when its alpha is strictly larger than the alpha of `color`, and
`color` otherwise, so that `color` wins ties. -/
theorem effect_color_wins_ties (g : Graphics) (frontend backend : Buffer)
    (color tone flash_color : Vec4) (he : Graphics.hasEffect color tone flash_color = true) :
    (g.ApplyViewportEffect frontend backend color tone flash_color).shaderColors =
      g.shaderColors ++ [Graphics.effectColor color flash_color] ∧
    (color.w.toRat < flash_color.w.toRat →
      Graphics.effectColor color flash_color = flash_color) ∧
    (flash_color.w.toRat < color.w.toRat → Graphics.effectColor color flash_color = color) ∧
    (flash_color.w.toRat = color.w.toRat → Graphics.effectColor color flash_color = color) := by
  have hle : flash_color.w.toRat ≤ color.w.toRat →
      Graphics.effectColor color flash_color = color := by
    intro h
    unfold Graphics.effectColor
    have : ¬ (F32.lt color.w flash_color.w = true) := by
      rw [F32.lt_iff]
      exact not_lt.mpr h
    rw [if_neg this]
  refine ⟨?_, ?_, fun h => hle h.le, fun h => hle h.le⟩
  · unfold Graphics.ApplyViewportEffect
    simp only [he, Bool.not_true, Bool.false_eq_true, if_false]
    cases frontend <;> cases backend <;>
      simp [Graphics.shaderColors, Graphics.emit, Graphics.setBuffer, List.filterMap_append]
  · intro h
    unfold Graphics.effectColor
    rw [if_pos ((F32.lt_iff _ _).mpr h)]

/-- Witness of C13: a half-transparent color under an opaque flash, and the reverse. -/
theorem effect_color_wins_ties_witness :
    Graphics.hasEffect (Vec4.mk (F32.ofInt 1) (F32.ofInt 0) (F32.ofInt 0)
      ((F32.ofInt 1).div (F32.ofInt 2))) Vec4.zero (Vec4.opaque3 0 1 0) = true ∧
    (Graphics.start.ApplyViewportEffect Buffer.screen_buffer_0 Buffer.screen_buffer_1
      (Vec4.mk (F32.ofInt 1) (F32.ofInt 0) (F32.ofInt 0) ((F32.ofInt 1).div (F32.ofInt 2)))
      Vec4.zero (Vec4.opaque3 0 1 0)).shaderColors = [Vec4.opaque3 0 1 0] := by
  have h := effect_color_wins_ties Graphics.start Buffer.screen_buffer_0 Buffer.screen_buffer_1
    (Vec4.mk (F32.ofInt 1) (F32.ofInt 0) (F32.ofInt 0) ((F32.ofInt 1).div (F32.ofInt 2)))
    Vec4.zero (Vec4.opaque3 0 1 0) (by decide)
  refine ⟨by decide, ?_⟩
  rw [h.1]
  decide

/-! ## Lemmas on exact `float` results and on the conversion to `int` -/

/-- The fraction rounded by `F32.div`. -/
theorem F32.div_ratio (x y : F32) (hy : y.num ≠ 0) :
    ((y.num.sign * x.num * y.den : Int) : ℚ) / ((x.den * y.num.natAbs : Nat) : ℚ) =
      x.toRat / y.toRat := by
  have hyq : (y.num : ℚ) ≠ 0 := by exact_mod_cast hy
  have hxd : (x.den : ℚ) ≠ 0 := by exact_mod_cast (ne_of_gt x.den_pos)
  have hyd : (y.den : ℚ) ≠ 0 := by exact_mod_cast (ne_of_gt y.den_pos)
  have hna : (y.num.natAbs : ℚ) ≠ 0 := by exact_mod_cast (ne_of_gt (Int.natAbs_pos.2 hy))
  have hs := F32.sign_mul_natAbs_cast y.num
  have hss : (y.num.sign : ℚ) * (y.num.sign : ℚ) = 1 := by
    rcases lt_or_gt_of_ne hy with h | h
    · rw [Int.sign_eq_neg_one_of_neg h]; simp
    · rw [Int.sign_eq_one_of_pos h]; simp
  rw [← F32.num_div_den x, ← F32.num_div_den y]
  push_cast
  rw [div_div_div_eq, div_eq_div_iff (mul_ne_zero hxd hna) (mul_ne_zero hxd hyq)]
  rw [← hs]
  linear_combination ((x.num : ℚ) * (y.den : ℚ) * (x.den : ℚ) * (y.num.natAbs : ℚ)) * hss

/-- The fraction rounded by `F32.mul`. -/
theorem F32.mul_ratio (x y : F32) :
    ((x.num * y.num : Int) : ℚ) / ((x.den * y.den : Nat) : ℚ) = x.toRat * y.toRat := by
  rw [← F32.num_div_den x, ← F32.num_div_den y]
  push_cast
  rw [div_mul_div_comm]

/-- A fraction whose magnitude is `K * 2 ^ j` with `K < 2 ^ 24` is a binary32 value: rounding
returns it. -/
theorem F32.round_exact (n : Int) (d : Nat) (hd : 0 < d) (K : Nat) (j : Int)
    (hK : K < 2 ^ 24) (habs : |(n : ℚ) / d| = (K : ℚ) * (2 : ℚ) ^ j) :
    (F32.round n d).toRat = (n : ℚ) / d := by
  have hdq : (0 : ℚ) < d := by exact_mod_cast hd
  have h : (n.natAbs : ℚ) / d = (K : ℚ) * (2 : ℚ) ^ j := by
    rw [← habs, Nat.cast_natAbs, Int.cast_abs, abs_div, abs_of_pos hdq]
  by_cases hn : n = 0
  · subst hn
    simp [F32.round, F32.toRat]
  · obtain ⟨e, M, hv, ⟨hlo, _⟩, hM⟩ := F32.round_value n d hn hd
    have h2 : (2 : ℚ) ≠ 0 := by norm_num
    have h2p : (0 : ℚ) < 2 := by norm_num
    rw [h] at hlo hM
    have hKq : (K : ℚ) < (2 : ℚ) ^ (24 : Int) := by
      have : (K : ℚ) < ((2 ^ 24 : Nat) : ℚ) := by exact_mod_cast hK
      refine lt_of_lt_of_le this ?_
      norm_num
    have he : e < 24 + j := by
      by_contra hcon
      have h24 : (2 : ℚ) ^ (24 + j) ≤ (2 : ℚ) ^ e :=
        zpow_le_zpow_right₀ (by norm_num) (by omega)
      have hj : (0 : ℚ) < (2 : ℚ) ^ j := zpow_pos h2p j
      have h3 : (K : ℚ) * (2 : ℚ) ^ j < (2 : ℚ) ^ (24 : Int) * (2 : ℚ) ^ j :=
        mul_lt_mul_of_pos_right hKq hj
      rw [← zpow_add₀ h2] at h3
      linarith
    have hpow : (2 : ℚ) ^ (j + (23 - e)) = ((2 ^ (j + (23 - e)).toNat : Nat) : ℚ) := by
      rw [Nat.cast_pow, Nat.cast_ofNat, ← zpow_natCast, Int.toNat_of_nonneg (by omega)]
    have hM2 : |(M : ℚ) - ((K * 2 ^ (j + (23 - e)).toNat : Nat) : ℚ)| ≤ 1 / 2 := by
      rw [Nat.cast_mul, ← hpow, zpow_add₀ h2, ← mul_assoc]
      exact hM
    have hMN := F32.nat_of_near _ _ hM2
    rw [hv, hMN, Nat.cast_mul, ← hpow]
    have hone : (2 : ℚ) ^ (j + (23 - e)) * (2 : ℚ) ^ (e - 23) = (2 : ℚ) ^ j := by
      rw [← zpow_add₀ h2]
      congr 1
      ring
    have hnd : (n : ℚ) / d = (n.sign : ℚ) * ((n.natAbs : ℚ) / d) := by
      rw [← mul_div_assoc, F32.sign_mul_natAbs_cast]
    rw [hnd, h]
    calc (n.sign : ℚ) * ((K : ℚ) * (2 : ℚ) ^ (j + (23 - e))) * (2 : ℚ) ^ (e - 23)
        = (n.sign : ℚ) * ((K : ℚ) * ((2 : ℚ) ^ (j + (23 - e)) * (2 : ℚ) ^ (e - 23))) := by ring
      _ = (n.sign : ℚ) * ((K : ℚ) * (2 : ℚ) ^ j) := by rw [hone]

/-- Half of an `int` of magnitude below `2 ^ 24` is computed without rounding. -/
theorem F32.half_exact (k : Int) (h : k.natAbs < 2 ^ 24) :
    ((F32.ofInt k).div (F32.ofInt 2)).toRat = (k : ℚ) / 2 := by
  have h2 : (F32.ofInt 2).toRat = 2 := by
    have := F32.ofInt_exact 2 (by decide)
    simpa using this
  have hk := F32.ofInt_exact k h
  have hy : (F32.ofInt 2).num ≠ 0 := by decide
  have hpos : 0 < (F32.ofInt k).den * (F32.ofInt 2).num.natAbs :=
    Nat.mul_pos (F32.den_pos _) (Int.natAbs_pos.2 hy)
  have hr := F32.div_ratio (F32.ofInt k) (F32.ofInt 2) hy
  rw [hk, h2] at hr
  unfold F32.div
  have habs : |((((F32.ofInt 2).num.sign * (F32.ofInt k).num * (F32.ofInt 2).den : Int) : ℚ) /
      (((F32.ofInt k).den * (F32.ofInt 2).num.natAbs : Nat) : ℚ))| =
      (k.natAbs : ℚ) * (2 : ℚ) ^ (-1 : Int) := by
    rw [hr, Nat.cast_natAbs, Int.cast_abs, abs_div, abs_of_pos (by norm_num : (0 : ℚ) < 2),
      zpow_neg, zpow_one]
    rfl
  rw [F32.round_exact _ _ hpos k.natAbs (-1) h habs, hr]

/-- The conversion of a non-negative `float` to `int` is the floor of its value. -/
theorem F32.toInt_floor (x : F32) (h : 0 ≤ x.toRat) :
    0 ≤ x.toInt ∧ (x.toInt : ℚ) ≤ x.toRat ∧ x.toRat < (x.toInt : ℚ) + 1 := by
  have hd : 0 < x.den := x.den_pos
  have hdq : (0 : ℚ) < x.den := by exact_mod_cast hd
  have hnum : 0 ≤ x.num := by
    by_contra hcon
    have hneg : (x.num : ℚ) < 0 := by exact_mod_cast (not_le.mp hcon)
    have : x.toRat < 0 := by
      rw [← F32.num_div_den]
      exact div_neg_of_neg_of_pos hneg hdq
    linarith
  rcases eq_or_lt_of_le hnum with h0 | hpos
  · have hz : x.toRat = 0 := by
      rw [← F32.num_div_den, ← h0]
      simp
    unfold F32.toInt
    rw [← h0, hz]
    simp
  · have hs : x.num.sign = 1 := Int.sign_eq_one_of_pos hpos
    have hto : x.toInt = ((x.num.natAbs / x.den : Nat) : Int) := by
      unfold F32.toInt
      rw [hs, one_mul]
    have hna : ((x.num.natAbs : Nat) : ℚ) = (x.num : ℚ) := by
      have : ((x.num.natAbs : Int) : ℚ) = (x.num : ℚ) := by
        rw [Int.natAbs_of_nonneg hnum]
      rw [← this, Int.cast_natCast]
    have hdm := Nat.div_add_mod x.num.natAbs x.den
    have hml := Nat.mod_lt x.num.natAbs hd
    have hdmq : ((x.den : ℚ) * ((x.num.natAbs / x.den : Nat) : ℚ) +
        ((x.num.natAbs % x.den : Nat) : ℚ)) = (x.num : ℚ) := by
      rw [← hna]
      exact_mod_cast hdm
    have hmlq : ((x.num.natAbs % x.den : Nat) : ℚ) < (x.den : ℚ) := by exact_mod_cast hml
    have hm0 : (0 : ℚ) ≤ ((x.num.natAbs % x.den : Nat) : ℚ) := Nat.cast_nonneg _
    rw [hto, ← F32.num_div_den]
    refine ⟨Int.natCast_nonneg _, ?_, ?_⟩
    · rw [Int.cast_natCast, le_div_iff₀ hdq]
      nlinarith
    · rw [Int.cast_natCast, div_lt_iff₀ hdq]
      nlinarith

/-- The integer nearest to a quotient depends on the value of the quotient only. -/
theorem F32.nearest_congr (a b c d : Nat) (hb : 0 < b) (hd : 0 < d) (h : a * d = c * b) :
    F32.nearest a b = F32.nearest c d := by
  have hq : a / b = c / d := by
    have h1 : a / b = (a * d) / (b * d) := (Nat.mul_div_mul_right a b hd).symm
    have h2 : c / d = (c * b) / (d * b) := (Nat.mul_div_mul_right c d hb).symm
    rw [h1, h2, h, Nat.mul_comm b d]
  have ha := Nat.div_add_mod a b
  have hc := Nat.div_add_mod c d
  rw [hq] at ha
  have hr : (a % b) * d = (c % d) * b := by
    have e1 : (b * (c / d) + a % b) * d = (d * (c / d) + c % d) * b := by rw [ha, hc, h]
    nlinarith
  have c1 : 2 * (a % b) < b ↔ 2 * (c % d) < d := by
    constructor
    · intro k
      by_contra hcon
      have : d ≤ 2 * (c % d) := not_lt.mp hcon
      nlinarith
    · intro k
      by_contra hcon
      have : b ≤ 2 * (a % b) := not_lt.mp hcon
      nlinarith
  have c2 : b < 2 * (a % b) ↔ d < 2 * (c % d) := by
    constructor
    · intro k
      by_contra hcon
      have : 2 * (c % d) ≤ d := not_lt.mp hcon
      nlinarith
    · intro k
      by_contra hcon
      have : 2 * (a % b) ≤ b := not_lt.mp hcon
      nlinarith
  unfold F32.nearest
  simp only [hq, c1, c2]

/-- The binary exponent of a positive value is unique. -/
theorem F32.exponent_unique (v : ℚ) (e1 e2 : Int)
    (h1 : (2 : ℚ) ^ e1 ≤ v ∧ v < (2 : ℚ) ^ (e1 + 1))
    (h2 : (2 : ℚ) ^ e2 ≤ v ∧ v < (2 : ℚ) ^ (e2 + 1)) : e1 = e2 := by
  have key : ∀ a b : Int, (2 : ℚ) ^ a ≤ v → v < (2 : ℚ) ^ (b + 1) → a ≤ b := by
    intro a b ha hb
    by_contra hcon
    have : (2 : ℚ) ^ (b + 1) ≤ (2 : ℚ) ^ a :=
      zpow_le_zpow_right₀ (by norm_num) (by omega)
    linarith
  have := key e1 e2 h1.1 h2.2
  have := key e2 e1 h2.1 h1.2
  omega

/-- Rounding to binary32 depends on the value of the fraction only. -/
theorem F32.round_congr (n n2 : Int) (d d2 : Nat) (hd : 0 < d) (hd2 : 0 < d2)
    (h : n * d2 = n2 * d) : F32.round n d = F32.round n2 d2 := by
  have hdi : (0 : Int) < d := by exact_mod_cast hd
  have hd2i : (0 : Int) < d2 := by exact_mod_cast hd2
  by_cases hn : n = 0
  · have hn2 : n2 = 0 := by
      subst hn
      rw [zero_mul] at h
      rcases mul_eq_zero.mp h.symm with k | k
      · exact k
      · omega
    subst hn
    subst hn2
    rfl
  · have hn2 : n2 ≠ 0 := by
      intro k
      subst k
      rw [zero_mul] at h
      rcases mul_eq_zero.mp h with k | k
      · exact hn k
      · omega
    have hsign : n.sign = n2.sign := by
      have := congrArg Int.sign h
      rw [Int.sign_mul, Int.sign_mul, Int.sign_eq_one_of_pos hdi,
        Int.sign_eq_one_of_pos hd2i, mul_one, mul_one] at this
      exact this
    have habs : n.natAbs * d2 = n2.natAbs * d := by
      have := congrArg Int.natAbs h
      rw [Int.natAbs_mul, Int.natAbs_mul, Int.natAbs_ofNat, Int.natAbs_ofNat] at this
      exact this
    have hdq : (0 : ℚ) < d := by exact_mod_cast hd
    have hd2q : (0 : ℚ) < d2 := by exact_mod_cast hd2
    have hval : (n.natAbs : ℚ) / d = (n2.natAbs : ℚ) / d2 := by
      rw [div_eq_div_iff (ne_of_gt hdq) (ne_of_gt hd2q)]
      exact_mod_cast habs
    have he : F32.exponent n.natAbs d = F32.exponent n2.natAbs d2 := by
      have s1 := F32.exponent_spec n.natAbs d (Int.natAbs_pos.2 hn) hd
      have s2 := F32.exponent_spec n2.natAbs d2 (Int.natAbs_pos.2 hn2) hd2
      rw [hval] at s1
      exact F32.exponent_unique _ _ _ s1 s2
    have hM : F32.nearest (n.natAbs * F32.pow2 (23 - F32.exponent n.natAbs d))
        (d * F32.pow2 (F32.exponent n.natAbs d - 23)) =
        F32.nearest (n2.natAbs * F32.pow2 (23 - F32.exponent n2.natAbs d2))
          (d2 * F32.pow2 (F32.exponent n2.natAbs d2 - 23)) := by
      rw [← he]
      apply F32.nearest_congr _ _ _ _ (Nat.mul_pos hd (F32.pow2_pos _))
        (Nat.mul_pos hd2 (F32.pow2_pos _))
      calc n.natAbs * F32.pow2 (23 - F32.exponent n.natAbs d) *
            (d2 * F32.pow2 (F32.exponent n.natAbs d - 23))
          = (n.natAbs * d2) * (F32.pow2 (23 - F32.exponent n.natAbs d) *
              F32.pow2 (F32.exponent n.natAbs d - 23)) := by ring
        _ = (n2.natAbs * d) * (F32.pow2 (23 - F32.exponent n.natAbs d) *
              F32.pow2 (F32.exponent n.natAbs d - 23)) := by rw [habs]
        _ = n2.natAbs * F32.pow2 (23 - F32.exponent n.natAbs d) *
            (d * F32.pow2 (F32.exponent n.natAbs d - 23)) := by ring
    unfold F32.round
    simp only [hn, hn2, if_false]
    rw [hM, he, hsign]

/-- Two `float` quotients of integers with the same exact value are the same `float`. -/
theorem F32.div_congr (a b c d : Int) (hb : 0 < b) (hd : 0 < d)
    (hbb : b.natAbs < 2 ^ 24) (hdb : d.natAbs < 2 ^ 24)
    (hab : a.natAbs < 2 ^ 24) (hcb : c.natAbs < 2 ^ 24) (h : a * d = c * b) :
    (F32.ofInt a).div (F32.ofInt b) = (F32.ofInt c).div (F32.ofInt d) := by
  have ea := F32.ofInt_exact a hab
  have eb := F32.ofInt_exact b hbb
  have ec := F32.ofInt_exact c hcb
  have ed := F32.ofInt_exact d hdb
  have hbq : (0 : ℚ) < b := by exact_mod_cast hb
  have hdq : (0 : ℚ) < d := by exact_mod_cast hd
  have nb : (F32.ofInt b).num ≠ 0 := by
    intro k
    have := F32.num_div_den (F32.ofInt b)
    rw [k, eb] at this
    simp at this
    linarith
  have nd : (F32.ofInt d).num ≠ 0 := by
    intro k
    have := F32.num_div_den (F32.ofInt d)
    rw [k, ed] at this
    simp at this
    linarith
  have r1 := F32.div_ratio (F32.ofInt a) (F32.ofInt b) nb
  have r2 := F32.div_ratio (F32.ofInt c) (F32.ofInt d) nd
  rw [ea, eb] at r1
  rw [ec, ed] at r2
  have p1 : 0 < (F32.ofInt a).den * (F32.ofInt b).num.natAbs :=
    Nat.mul_pos (F32.den_pos _) (Int.natAbs_pos.2 nb)
  have p2 : 0 < (F32.ofInt c).den * (F32.ofInt d).num.natAbs :=
    Nat.mul_pos (F32.den_pos _) (Int.natAbs_pos.2 nd)
  have p1q : (0 : ℚ) < (((F32.ofInt a).den * (F32.ofInt b).num.natAbs : Nat) : ℚ) := by
    exact_mod_cast p1
  have p2q : (0 : ℚ) < (((F32.ofInt c).den * (F32.ofInt d).num.natAbs : Nat) : ℚ) := by
    exact_mod_cast p2
  unfold F32.div
  apply F32.round_congr _ _ _ _ p1 p2
  have hq : (a : ℚ) / b = (c : ℚ) / d := by
    rw [div_eq_div_iff (ne_of_gt hbq) (ne_of_gt hdq)]
    exact_mod_cast h
  have := r1.trans (hq.trans r2.symm)
  rw [div_eq_div_iff (ne_of_gt p1q) (ne_of_gt p2q)] at this
  have key : ((((F32.ofInt b).num.sign * (F32.ofInt a).num * (F32.ofInt b).den) *
      (((F32.ofInt c).den * (F32.ofInt d).num.natAbs : Nat) : Int) : Int) : ℚ) =
      ((((F32.ofInt d).num.sign * (F32.ofInt c).num * (F32.ofInt d).den) *
      (((F32.ofInt a).den * (F32.ofInt b).num.natAbs : Nat) : Int) : Int) : ℚ) := by
    push_cast
    push_cast at this
    simp only [Nat.cast_natAbs, Int.cast_abs] at this
    exact this
  exact_mod_cast key

/-! ## Lemmas on the letterbox computation -/

theorem F32.num_ne_zero_of_pos (x : F32) (h : 0 < x.toRat) : x.num ≠ 0 := by
  intro k
  have := F32.num_div_den x
  rw [k] at this
  simp at this
  linarith

/-- The `float` quotient of two positive `int`s below `2 ^ 24` lies within a relative distance
of `2 ^ (-24)` of the exact quotient. -/
theorem F32.ratio_bounds (a b : Int) (ha : 0 < a) (hb : 0 < b) (ha2 : a < 2 ^ 24)
    (hb2 : b < 2 ^ 24) :
    (a : ℚ) / b * (1 - 1 / 2 ^ 24) ≤ ((F32.ofInt a).div (F32.ofInt b)).toRat ∧
    ((F32.ofInt a).div (F32.ofInt b)).toRat ≤ (a : ℚ) / b * (1 + 1 / 2 ^ 24) ∧
    0 < ((F32.ofInt a).div (F32.ofInt b)).toRat := by
  have ea := F32.ofInt_exact a (by omega)
  have eb := F32.ofInt_exact b (by omega)
  have haq : (0 : ℚ) < a := by exact_mod_cast ha
  have hbq : (0 : ℚ) < b := by exact_mod_cast hb
  have nb : (F32.ofInt b).num ≠ 0 := F32.num_ne_zero_of_pos _ (by rw [eb]; exact hbq)
  have h := F32.div_error (F32.ofInt a) (F32.ofInt b) nb
  rw [ea, eb] at h
  have hq : (0 : ℚ) < (a : ℚ) / b := div_pos haq hbq
  rw [abs_of_pos hq] at h
  have := abs_le.mp h
  refine ⟨by linarith [this.1], by linarith [this.2], ?_⟩
  have h1 : (0 : ℚ) < (a : ℚ) / b * (1 - 1 / 2 ^ 24) := mul_pos hq (by norm_num)
  linarith [this.1]

/-- A value `T` with `P - 1 < T * D < P + 1` truncates to the quotient `P / D`, or to one less
when `D` divides `P`. -/
theorem F32.floor_near_quotient (t : Int) (T : ℚ) (P D : Int) (hD : 0 < D)
    (ht1 : (t : ℚ) ≤ T) (ht2 : T < (t : ℚ) + 1)
    (hlo : (P : ℚ) - 1 < T * D) (hhi : T * D < (P : ℚ) + 1) :
    t = P / D ∨ (P % D = 0 ∧ t = P / D - 1) := by
  have hDq : (0 : ℚ) < D := by exact_mod_cast hD
  have h1 : (t : ℚ) * D < (P : ℚ) + 1 := by nlinarith
  have h2 : (P : ℚ) - 1 < ((t : ℚ) + 1) * D := by nlinarith
  have h1i : t * D < P + 1 := by exact_mod_cast h1
  have h2i : P - 1 < (t + 1) * D := by exact_mod_cast h2
  have hdm := Int.ediv_add_emod P D
  have hm0 := Int.emod_nonneg P (ne_of_gt hD)
  have hm1 := Int.emod_lt_of_pos P hD
  have hup : t ≤ P / D := by
    by_contra hcon
    have : P / D + 1 ≤ t := by omega
    nlinarith
  have hdn : P / D - 1 ≤ t := by
    by_contra hcon
    have : t + 1 ≤ P / D - 1 := by omega
    nlinarith
  rcases eq_or_lt_of_le hup with k | k
  · exact Or.inl k
  · right
    have ht : t = P / D - 1 := by omega
    refine ⟨?_, ht⟩
    rw [ht] at h2i
    have : P - 1 < P / D * D := by simpa using h2i
    nlinarith

/-- Distinct exact ratios give `float` ratios in the same order, as long as the cross products
stay below `2 ^ 23`. -/
theorem F32.ratio_lt (W H w h : Int) (hW : 0 < W) (hH : 0 < H) (hw : 0 < w) (hh : 0 < h)
    (hb : W * h + w * H < 2 ^ 23) (hlt : W * h < w * H) :
    ((F32.ofInt W).div (F32.ofInt H)).toRat < ((F32.ofInt w).div (F32.ofInt h)).toRat := by
  have bW : W < 2 ^ 24 := by nlinarith
  have bH : H < 2 ^ 24 := by nlinarith
  have bw : w < 2 ^ 24 := by nlinarith
  have bh : h < 2 ^ 24 := by nlinarith
  obtain ⟨_, r2, _⟩ := F32.ratio_bounds W H hW hH bW bH
  obtain ⟨s1, _, _⟩ := F32.ratio_bounds w h hw hh bw bh
  have hWq : (0 : ℚ) < W := by exact_mod_cast hW
  have hHq : (0 : ℚ) < H := by exact_mod_cast hH
  have hwq : (0 : ℚ) < w := by exact_mod_cast hw
  have hhq : (0 : ℚ) < h := by exact_mod_cast hh
  have hbq : (W : ℚ) * h + w * H < 2 ^ 23 := by exact_mod_cast hb
  have hltq : (W : ℚ) * h + 1 ≤ w * H := by exact_mod_cast (Int.add_one_le_iff.mpr hlt)
  have key : (W : ℚ) / H * (1 + 1 / 2 ^ 24) < (w : ℚ) / h * (1 - 1 / 2 ^ 24) := by
    rw [div_mul_eq_mul_div, div_mul_eq_mul_div, div_lt_div_iff₀ hHq hhq]
    nlinarith
  linarith

/-- The scaled height `W / (w / h)` computed in `float` is within `1 / w` of the exact
`W * h / w`. -/
theorem F32.scaled_height_bounds (W w h : Int) (hW : 0 < W) (hw : 0 < w) (hh : 0 < h)
    (bw : w < 2 ^ 24) (bh : h < 2 ^ 24) (hb : W * h < 2 ^ 23) :
    0 ≤ ((F32.ofInt W).div ((F32.ofInt w).div (F32.ofInt h))).toRat ∧
    ((W * h : Int) : ℚ) - 1 <
      ((F32.ofInt W).div ((F32.ofInt w).div (F32.ofInt h))).toRat * w ∧
    ((F32.ofInt W).div ((F32.ofInt w).div (F32.ofInt h))).toRat * w <
      ((W * h : Int) : ℚ) + 1 := by
  have bW : W < 2 ^ 24 := by nlinarith
  obtain ⟨s1, s2, s3⟩ := F32.ratio_bounds w h hw hh bw bh
  have eW := F32.ofInt_exact W (by omega)
  have hWq : (0 : ℚ) < W := by exact_mod_cast hW
  have hwq : (0 : ℚ) < w := by exact_mod_cast hw
  have hhq : (0 : ℚ) < h := by exact_mod_cast hh
  have hbq : (W : ℚ) * h ≤ 2 ^ 23 - 1 := by
    have : W * h ≤ 2 ^ 23 - 1 := by omega
    exact_mod_cast this
  have nr := F32.num_ne_zero_of_pos _ s3
  have herr := F32.div_error (F32.ofInt W) ((F32.ofInt w).div (F32.ofInt h)) nr
  rw [eW] at herr
  generalize ((F32.ofInt W).div ((F32.ofInt w).div (F32.ofInt h))).toRat = T at herr ⊢
  generalize ((F32.ofInt w).div (F32.ofInt h)).toRat = ρ at herr s1 s2 s3
  have hV : (0 : ℚ) < (W : ℚ) / ρ := div_pos hWq s3
  have hVρ : (W : ℚ) / ρ * ρ = W := div_mul_cancel₀ _ (ne_of_gt s3)
  rw [abs_of_pos hV] at herr
  have hab := abs_le.mp herr
  have hT0 : 0 < T := by
    have : (0 : ℚ) < (W : ℚ) / ρ * (1 - 1 / 2 ^ 24) := mul_pos hV (by norm_num)
    linarith [hab.1]
  have hch : (w : ℚ) / h * h = w := div_mul_cancel₀ _ (ne_of_gt hhq)
  have t1 : T * ρ ≤ (W : ℚ) * (1 + 1 / 2 ^ 24) := by
    have : T * ρ ≤ (W : ℚ) / ρ * (1 + 1 / 2 ^ 24) * ρ :=
      mul_le_mul_of_nonneg_right (by linarith [hab.2]) s3.le
    calc T * ρ ≤ (W : ℚ) / ρ * (1 + 1 / 2 ^ 24) * ρ := this
      _ = (W : ℚ) / ρ * ρ * (1 + 1 / 2 ^ 24) := by ring
      _ = (W : ℚ) * (1 + 1 / 2 ^ 24) := by rw [hVρ]
  have t2 : (W : ℚ) * (1 - 1 / 2 ^ 24) ≤ T * ρ := by
    have : (W : ℚ) / ρ * (1 - 1 / 2 ^ 24) * ρ ≤ T * ρ :=
      mul_le_mul_of_nonneg_right (by linarith [hab.1]) s3.le
    calc (W : ℚ) * (1 - 1 / 2 ^ 24) = (W : ℚ) / ρ * ρ * (1 - 1 / 2 ^ 24) := by rw [hVρ]
      _ = (W : ℚ) / ρ * (1 - 1 / 2 ^ 24) * ρ := by ring
      _ ≤ T * ρ := this
  have t3 : T * ((w : ℚ) / h * (1 - 1 / 2 ^ 24)) ≤ T * ρ :=
    mul_le_mul_of_nonneg_left s1 hT0.le
  have t4 : T * ρ ≤ T * ((w : ℚ) / h * (1 + 1 / 2 ^ 24)) :=
    mul_le_mul_of_nonneg_left s2 hT0.le
  have u1 : T * w * (1 - 1 / 2 ^ 24) ≤ (W : ℚ) * h * (1 + 1 / 2 ^ 24) := by
    have : T * ((w : ℚ) / h * (1 - 1 / 2 ^ 24)) * h ≤ (W : ℚ) * (1 + 1 / 2 ^ 24) * h :=
      mul_le_mul_of_nonneg_right (t3.trans t1) hhq.le
    calc T * w * (1 - 1 / 2 ^ 24) = T * ((w : ℚ) / h * h) * (1 - 1 / 2 ^ 24) := by rw [hch]
      _ = T * ((w : ℚ) / h * (1 - 1 / 2 ^ 24)) * h := by ring
      _ ≤ (W : ℚ) * (1 + 1 / 2 ^ 24) * h := this
      _ = (W : ℚ) * h * (1 + 1 / 2 ^ 24) := by ring
  have u2 : (W : ℚ) * h * (1 - 1 / 2 ^ 24) ≤ T * w * (1 + 1 / 2 ^ 24) := by
    have : (W : ℚ) * (1 - 1 / 2 ^ 24) * h ≤ T * ((w : ℚ) / h * (1 + 1 / 2 ^ 24)) * h :=
      mul_le_mul_of_nonneg_right (t2.trans t4) hhq.le
    calc (W : ℚ) * h * (1 - 1 / 2 ^ 24) = (W : ℚ) * (1 - 1 / 2 ^ 24) * h := by ring
      _ ≤ T * ((w : ℚ) / h * (1 + 1 / 2 ^ 24)) * h := this
      _ = T * ((w : ℚ) / h * h) * (1 + 1 / 2 ^ 24) := by ring
      _ = T * w * (1 + 1 / 2 ^ 24) := by rw [hch]
  push_cast
  refine ⟨hT0.le, ?_, ?_⟩
  · linarith
  · linarith

/-- The scaled width `H * (w / h)` computed in `float` is within `1 / h` of the exact
`H * w / h`. -/
theorem F32.scaled_width_bounds (H w h : Int) (hH : 0 < H) (hw : 0 < w) (hh : 0 < h)
    (bw : w < 2 ^ 24) (bh : h < 2 ^ 24) (hb : H * w < 2 ^ 23) :
    0 ≤ ((F32.ofInt H).mul ((F32.ofInt w).div (F32.ofInt h))).toRat ∧
    ((H * w : Int) : ℚ) - 1 <
      ((F32.ofInt H).mul ((F32.ofInt w).div (F32.ofInt h))).toRat * h ∧
    ((F32.ofInt H).mul ((F32.ofInt w).div (F32.ofInt h))).toRat * h <
      ((H * w : Int) : ℚ) + 1 := by
  have bH : H < 2 ^ 24 := by nlinarith
  obtain ⟨s1, s2, s3⟩ := F32.ratio_bounds w h hw hh bw bh
  have eH := F32.ofInt_exact H (by omega)
  have hHq : (0 : ℚ) < H := by exact_mod_cast hH
  have hwq : (0 : ℚ) < w := by exact_mod_cast hw
  have hhq : (0 : ℚ) < h := by exact_mod_cast hh
  have hbq : (H : ℚ) * w ≤ 2 ^ 23 - 1 := by
    have : H * w ≤ 2 ^ 23 - 1 := by omega
    exact_mod_cast this
  have herr := F32.mul_error (F32.ofInt H) ((F32.ofInt w).div (F32.ofInt h))
  rw [eH] at herr
  generalize ((F32.ofInt H).mul ((F32.ofInt w).div (F32.ofInt h))).toRat = T at herr ⊢
  generalize ((F32.ofInt w).div (F32.ofInt h)).toRat = ρ at herr s1 s2 s3
  have hV : (0 : ℚ) < (H : ℚ) * ρ := mul_pos hHq s3
  rw [abs_of_pos hV] at herr
  have hab := abs_le.mp herr
  have hch : (w : ℚ) / h * h = w := div_mul_cancel₀ _ (ne_of_gt hhq)
  have hT0 : 0 < T := by
    have : (0 : ℚ) < (H : ℚ) * ρ * (1 - 1 / 2 ^ 24) := mul_pos hV (by norm_num)
    linarith [hab.1]
  have t1 : (H : ℚ) * ρ ≤ (H : ℚ) * ((w : ℚ) / h * (1 + 1 / 2 ^ 24)) :=
    mul_le_mul_of_nonneg_left s2 hHq.le
  have t2 : (H : ℚ) * ((w : ℚ) / h * (1 - 1 / 2 ^ 24)) ≤ (H : ℚ) * ρ :=
    mul_le_mul_of_nonneg_left s1 hHq.le
  have u1 : T * h ≤ (H : ℚ) * w * ((1 + 1 / 2 ^ 24) * (1 + 1 / 2 ^ 24)) := by
    have a1 : T ≤ (H : ℚ) * ((w : ℚ) / h * (1 + 1 / 2 ^ 24)) * (1 + 1 / 2 ^ 24) := by
      have : (H : ℚ) * ρ * (1 + 1 / 2 ^ 24) ≤
          (H : ℚ) * ((w : ℚ) / h * (1 + 1 / 2 ^ 24)) * (1 + 1 / 2 ^ 24) :=
        mul_le_mul_of_nonneg_right t1 (by norm_num)
      linarith [hab.2]
    have := mul_le_mul_of_nonneg_right a1 hhq.le
    calc T * h ≤ (H : ℚ) * ((w : ℚ) / h * (1 + 1 / 2 ^ 24)) * (1 + 1 / 2 ^ 24) * h := this
      _ = (H : ℚ) * ((w : ℚ) / h * h) * ((1 + 1 / 2 ^ 24) * (1 + 1 / 2 ^ 24)) := by ring
      _ = (H : ℚ) * w * ((1 + 1 / 2 ^ 24) * (1 + 1 / 2 ^ 24)) := by rw [hch]
  have u2 : (H : ℚ) * w * ((1 - 1 / 2 ^ 24) * (1 - 1 / 2 ^ 24)) ≤ T * h := by
    have a1 : (H : ℚ) * ((w : ℚ) / h * (1 - 1 / 2 ^ 24)) * (1 - 1 / 2 ^ 24) ≤ T := by
      have : (H : ℚ) * ((w : ℚ) / h * (1 - 1 / 2 ^ 24)) * (1 - 1 / 2 ^ 24) ≤
          (H : ℚ) * ρ * (1 - 1 / 2 ^ 24) :=
        mul_le_mul_of_nonneg_right t2 (by norm_num)
      linarith [hab.1]
    have := mul_le_mul_of_nonneg_right a1 hhq.le
    calc (H : ℚ) * w * ((1 - 1 / 2 ^ 24) * (1 - 1 / 2 ^ 24))
        = (H : ℚ) * ((w : ℚ) / h * h) * ((1 - 1 / 2 ^ 24) * (1 - 1 / 2 ^ 24)) := by rw [hch]
      _ = (H : ℚ) * ((w : ℚ) / h * (1 - 1 / 2 ^ 24)) * (1 - 1 / 2 ^ 24) * h := by ring
      _ ≤ T * h := this
  have hHw : (0 : ℚ) < (H : ℚ) * w := mul_pos hHq hwq
  push_cast
  refine ⟨hT0.le, ?_, ?_⟩
  · norm_num at u2 ⊢
    linarith
  · norm_num at u1 ⊢
    linarith

/-- Half of a non-negative `int` below `2 ^ 24`, computed in `float` and converted back, is the
integer quotient by 2. -/
theorem F32.half_toInt (k : Int) (h0 : 0 ≤ k) (hk : k < 2 ^ 24) :
    ((F32.ofInt k).div (F32.ofInt 2)).toInt = k / 2 := by
  have he := F32.half_exact k (by omega)
  have hkq : (0 : ℚ) ≤ k := by exact_mod_cast h0
  have hf := F32.toInt_floor ((F32.ofInt k).div (F32.ofInt 2)) (by rw [he]; positivity)
  rw [he] at hf
  obtain ⟨_, f1, f2⟩ := hf
  generalize ((F32.ofInt k).div (F32.ofInt 2)).toInt = t at f1 f2 ⊢
  have g1 : ((2 * t : Int) : ℚ) ≤ (k : ℚ) := by
    push_cast
    linarith
  have g2 : (k : ℚ) < ((2 * t + 2 : Int) : ℚ) := by
    push_cast
    linarith
  have g1i : 2 * t ≤ k := by exact_mod_cast g1
  have g2i : k < 2 * t + 2 := by exact_mod_cast g2
  omega

theorem F32.lt_self (x : F32) : F32.lt x x = false := by
  rw [← Bool.not_eq_true, F32.lt_iff]
  exact lt_irrefl _

theorem F32.lt_swap (x y : F32) (h : F32.lt x y = true) : F32.lt y x = false := by
  rw [← Bool.not_eq_true, F32.lt_iff]
  rw [F32.lt_iff] at h
  exact not_lt.mpr h.le

/-- The viewport when the `float` ratio of the window is below the `float` ratio of the
resolution: full width, scaled height. -/
theorem UpdateWindowViewportInternal_tall (W H w h : Int)
    (hlt : F32.lt ((F32.ofInt W).div (F32.ofInt H)) ((F32.ofInt w).div (F32.ofInt h)) = true) :
    Graphics.UpdateWindowViewportInternal (W, H) (w, h) =
      { x := ((F32.ofInt (W - W)).div (F32.ofInt 2)).toInt
        y := ((F32.ofInt
          (H - ((F32.ofInt W).div ((F32.ofInt w).div (F32.ofInt h))).toInt)).div
            (F32.ofInt 2)).toInt
        width := W
        height := ((F32.ofInt W).div ((F32.ofInt w).div (F32.ofInt h))).toInt } := by
  unfold Graphics.UpdateWindowViewportInternal
  simp only [hlt, if_true]

/-- The viewport when the `float` ratio of the window is above the `float` ratio of the
resolution: full height, scaled width. -/
theorem UpdateWindowViewportInternal_wide (W H w h : Int)
    (hlt : F32.lt ((F32.ofInt w).div (F32.ofInt h)) ((F32.ofInt W).div (F32.ofInt H)) = true) :
    Graphics.UpdateWindowViewportInternal (W, H) (w, h) =
      { x := ((F32.ofInt
          (W - ((F32.ofInt H).mul ((F32.ofInt w).div (F32.ofInt h))).toInt)).div
            (F32.ofInt 2)).toInt
        y := ((F32.ofInt (H - H)).div (F32.ofInt 2)).toInt
        width := ((F32.ofInt H).mul ((F32.ofInt w).div (F32.ofInt h))).toInt
        height := H } := by
  unfold Graphics.UpdateWindowViewportInternal
  simp only [F32.lt_swap _ _ hlt, hlt, if_true, Bool.false_eq_true, if_false]

/-- The viewport when the two `float` ratios are equal: the window. -/
theorem UpdateWindowViewportInternal_same (W H w h : Int)
    (he : (F32.ofInt W).div (F32.ofInt H) = (F32.ofInt w).div (F32.ofInt h)) :
    Graphics.UpdateWindowViewportInternal (W, H) (w, h) =
      { x := ((F32.ofInt (W - W)).div (F32.ofInt 2)).toInt
        y := ((F32.ofInt (H - H)).div (F32.ofInt 2)).toInt
        width := W
        height := H } := by
  unfold Graphics.UpdateWindowViewportInternal
  simp only [he, F32.lt_self, Bool.false_eq_true, if_false]

theorem F32.half_zero : ((F32.ofInt 0).div (F32.ofInt 2)).toInt = 0 := by decide

/-! ## The letterbox viewport -/

/-- C14, counterexample: window 64 x 27, resolution 7 x 3. The resolution is the narrower one
(7/3 < 64/27), and the claimed width is `27 * 7 / 3 = 63` with `x = 0`; the code computes
`27 * (7.0f / 3)` in `float`, which is just below 63 and truncates to 62, and `x = 1`. -/
theorem UpdateWindowViewportInternal_counterexample :
    (7 : Int) * 27 < 64 * 3 ∧ (27 : Int) * 7 / 3 = 63 ∧ ((64 : Int) - 63) / 2 = 0 ∧
    Graphics.UpdateWindowViewportInternal (64, 27) (7, 3) =
      { x := 1, y := 0, width := 62, height := 27 } := by
  decide

/-- C14, amended: for a window `W x H` and a resolution `w x h` with positive components and
`W * h + w * H < 2 ^ 23`, the viewport has the full width and a scaled height when the
resolution is the wider one, the full height and a scaled width when it is the narrower one,
and is the whole window when the ratios are equal. The scaled side is computed in `float`: it
is the truncated exact quotient, or one less than it, which can happen only when the exact
quotient is an integer. In every case the viewport is centred (`x = (W - vw) / 2`,
`y = (H - vh) / 2`, truncated) and lies inside the window. -/
theorem UpdateWindowViewportInternal_letterbox (W H w h : Int) (hW : 0 < W) (hH : 0 < H)
    (hw : 0 < w) (hh : 0 < h) (hb : W * h + w * H < 2 ^ 23) :
    (W * h < w * H →
      (Graphics.UpdateWindowViewportInternal (W, H) (w, h)).width = W ∧
      ((Graphics.UpdateWindowViewportInternal (W, H) (w, h)).height = W * h / w ∨
        ((W * h) % w = 0 ∧
          (Graphics.UpdateWindowViewportInternal (W, H) (w, h)).height = W * h / w - 1))) ∧
    (w * H < W * h →
      (Graphics.UpdateWindowViewportInternal (W, H) (w, h)).height = H ∧
      ((Graphics.UpdateWindowViewportInternal (W, H) (w, h)).width = H * w / h ∨
        ((H * w) % h = 0 ∧
          (Graphics.UpdateWindowViewportInternal (W, H) (w, h)).width = H * w / h - 1))) ∧
    (W * h = w * H →
      Graphics.UpdateWindowViewportInternal (W, H) (w, h) =
        { x := 0, y := 0, width := W, height := H }) ∧
    (Graphics.UpdateWindowViewportInternal (W, H) (w, h)).x =
      (W - (Graphics.UpdateWindowViewportInternal (W, H) (w, h)).width) / 2 ∧
    (Graphics.UpdateWindowViewportInternal (W, H) (w, h)).y =
      (H - (Graphics.UpdateWindowViewportInternal (W, H) (w, h)).height) / 2 ∧
    0 ≤ (Graphics.UpdateWindowViewportInternal (W, H) (w, h)).width ∧
    (Graphics.UpdateWindowViewportInternal (W, H) (w, h)).width ≤ W ∧
    0 ≤ (Graphics.UpdateWindowViewportInternal (W, H) (w, h)).height ∧
    (Graphics.UpdateWindowViewportInternal (W, H) (w, h)).height ≤ H := by
  have bW : W < 2 ^ 23 := by nlinarith
  have bH : H < 2 ^ 23 := by nlinarith
  have bw : w < 2 ^ 23 := by nlinarith
  have bh : h < 2 ^ 23 := by nlinarith
  have pWh : 0 < W * h := Int.mul_pos hW hh
  have pwH : 0 < w * H := Int.mul_pos hw hH
  rcases lt_trichotomy (W * h) (w * H) with hc | hc | hc
  · -- the resolution is wider than the window
    have hlt := (F32.lt_iff _ _).mpr (F32.ratio_lt W H w h hW hH hw hh hb hc)
    have hv := UpdateWindowViewportInternal_tall W H w h hlt
    obtain ⟨b0, b1, b2⟩ := F32.scaled_height_bounds W w h hW hw hh (by omega) (by omega)
      (by omega)
    obtain ⟨f0, f1, f2⟩ := F32.toInt_floor _ b0
    have hq := F32.floor_near_quotient _ _ (W * h) w hw f1 f2 b1 b2
    generalize ((F32.ofInt W).div ((F32.ofInt w).div (F32.ofInt h))).toInt = vh at hv f0 hq
    have hqle : W * h / w ≤ H := by
      have : W * h / w * w ≤ W * h := Int.ediv_mul_le _ (ne_of_gt hw)
      by_contra hcon
      have : H + 1 ≤ W * h / w := by omega
      nlinarith
    have hvh : vh ≤ H := by
      rcases hq with k | ⟨_, k⟩ <;> omega
    have hy := F32.half_toInt (H - vh) (by omega) (by omega)
    have hx : ((F32.ofInt (W - W)).div (F32.ofInt 2)).toInt = 0 := by
      rw [sub_self]
      exact F32.half_zero
    rw [hv]
    refine ⟨fun _ => ⟨rfl, hq⟩, fun k => absurd k (by omega), fun k => absurd k (by omega),
      ?_, hy, ?_, le_refl _, f0, hvh⟩
    · show ((F32.ofInt (W - W)).div (F32.ofInt 2)).toInt = (W - W) / 2
      rw [hx]
      simp
    · exact hW.le
  · -- equal ratios
    have he : (F32.ofInt W).div (F32.ofInt H) = (F32.ofInt w).div (F32.ofInt h) :=
      F32.div_congr W H w h hH hh (by omega) (by omega) (by omega) (by omega) hc
    have hv := UpdateWindowViewportInternal_same W H w h he
    have hx : ((F32.ofInt (W - W)).div (F32.ofInt 2)).toInt = 0 := by
      rw [sub_self]
      exact F32.half_zero
    have hy : ((F32.ofInt (H - H)).div (F32.ofInt 2)).toInt = 0 := by
      rw [sub_self]
      exact F32.half_zero
    rw [hx, hy] at hv
    rw [hv]
    refine ⟨fun k => absurd k (by omega), fun k => absurd k (by omega), fun _ => rfl,
      ?_, ?_, hW.le, le_refl _, hH.le, le_refl _⟩
    · show (0 : Int) = (W - W) / 2
      simp
    · show (0 : Int) = (H - H) / 2
      simp
  · -- the resolution is narrower than the window
    have hlt := (F32.lt_iff _ _).mpr
      (F32.ratio_lt w h W H hw hh hW hH (by linarith) (by linarith))
    have hv := UpdateWindowViewportInternal_wide W H w h hlt
    obtain ⟨b0, b1, b2⟩ := F32.scaled_width_bounds H w h hH hw hh (by omega) (by omega)
      (by nlinarith)
    obtain ⟨f0, f1, f2⟩ := F32.toInt_floor _ b0
    have hq := F32.floor_near_quotient _ _ (H * w) h hh f1 f2 b1 b2
    generalize ((F32.ofInt H).mul ((F32.ofInt w).div (F32.ofInt h))).toInt = vw at hv f0 hq
    have hqle : H * w / h ≤ W := by
      have : H * w / h * h ≤ H * w := Int.ediv_mul_le _ (ne_of_gt hh)
      by_contra hcon
      have : W + 1 ≤ H * w / h := by omega
      nlinarith
    have hvw : vw ≤ W := by
      rcases hq with k | ⟨_, k⟩ <;> omega
    have hx := F32.half_toInt (W - vw) (by omega) (by omega)
    have hy : ((F32.ofInt (H - H)).div (F32.ofInt 2)).toInt = 0 := by
      rw [sub_self]
      exact F32.half_zero
    rw [hv]
    refine ⟨fun k => absurd k (by omega), fun _ => ⟨rfl, hq⟩, fun k => absurd k (by omega),
      hx, ?_, f0, hvw, hH.le, le_refl _⟩
    show ((F32.ofInt (H - H)).div (F32.ofInt 2)).toInt = (H - H) / 2
    rw [hy]
    simp

/-- Witness of C14: a 1366 x 768 window with a 640 x 480 resolution gets the viewport
1024 x 768 at x = 171. -/
theorem UpdateWindowViewportInternal_letterbox_witness :
    ((0 : Int) < 1366 ∧ (0 : Int) < 768 ∧ (0 : Int) < 640 ∧ (0 : Int) < 480 ∧
      (1366 : Int) * 480 + 640 * 768 < 2 ^ 23) ∧
    (Graphics.UpdateWindowViewportInternal (1366, 768) (640, 480)).height = 768 ∧
    (Graphics.UpdateWindowViewportInternal (1366, 768) (640, 480)).x =
      (1366 - (Graphics.UpdateWindowViewportInternal (1366, 768) (640, 480)).width) / 2 ∧
    (Graphics.UpdateWindowViewportInternal (1366, 768) (640, 480)).width ≤ 1366 :=
  have h := UpdateWindowViewportInternal_letterbox 1366 768 640 480 (by decide) (by decide)
    (by decide) (by decide) (by decide)
  ⟨by decide, (h.2.1 (by decide)).1, h.2.2.2.1, h.2.2.2.2.2.2.1⟩

/-! ## The frame count read back as an `int` -/

theorem IntegralType.convert_int32_range (v : Int) :
    -2 ^ 31 ≤ IntegralType.int32.convert v ∧ IntegralType.int32.convert v < 2 ^ 31 ∧
    (IntegralType.int32.convert v - v) % 2 ^ 32 = 0 := by
  simp only [IntegralType.convert]
  omega

theorem IntegralType.convert_int32_unique (v r : Int) (h1 : -2 ^ 31 ≤ r) (h2 : r < 2 ^ 31)
    (h3 : (r - v) % 2 ^ 32 = 0) : r = IntegralType.int32.convert v := by
  simp only [IntegralType.convert]
  omega

/-- Narrowing to `int` after a conversion to any of the integral types gives the same value as
narrowing at once. -/
theorem IntegralType.convert_int32_convert (t : IntegralType) (v : Int) :
    IntegralType.int32.convert (t.convert v) = IntegralType.int32.convert v := by
  cases t <;> simp only [IntegralType.convert] <;> omega

/-- C21: `SetFrameCount` takes a 64-bit count and `GetFrameCount` returns an `int`: the value
read back after `SetFrameCount(c)` is the `int` congruent to `c` modulo `2 ^ 32`; it is `c`
exactly when `c` lies between `-2 ^ 31` and `2 ^ 31 - 1`, and the round trip is not the
identity on the 64-bit values (`2 ^ 31` reads back as `-2 ^ 31`, `2 ^ 32 + 5` as 5). The value
read back is the same whichever 32-bit or 64-bit integral type the member has. -/
theorem SetFrameCount_GetFrameCount (g : Graphics) (c : Int) :
    (-2 ^ 31 ≤ (g.SetFrameCount c).GetFrameCount ∧
      (g.SetFrameCount c).GetFrameCount < 2 ^ 31 ∧
      ((g.SetFrameCount c).GetFrameCount - c) % 2 ^ 32 = 0) ∧
    (∀ r : Int, -2 ^ 31 ≤ r → r < 2 ^ 31 → (r - c) % 2 ^ 32 = 0 →
      r = (g.SetFrameCount c).GetFrameCount) ∧
    ((g.SetFrameCount c).GetFrameCount = c ↔ (-2 ^ 31 ≤ c ∧ c < 2 ^ 31)) ∧
    (∀ t : IntegralType,
      (Graphics.SetFrameCountAs t g c).GetFrameCount = (g.SetFrameCount c).GetFrameCount) ∧
    ((2 : Int) ^ 31 < 2 ^ 63 ∧ (g.SetFrameCount (2 ^ 31)).GetFrameCount = -2 ^ 31) ∧
    ((2 : Int) ^ 32 + 5 < 2 ^ 63 ∧ (g.SetFrameCount (2 ^ 32 + 5)).GetFrameCount = 5) ∧
    (g.SetFrameCount (2 ^ 63 - 1)).GetFrameCount = -1 ∧
    (g.SetFrameCount (-2 ^ 63)).GetFrameCount = 0 := by
  have hg : ∀ v : Int, (g.SetFrameCount v).GetFrameCount = IntegralType.int32.convert v :=
    fun _ => rfl
  refine ⟨?_, ?_, ?_, ?_, ⟨by norm_num, ?_⟩, ⟨by norm_num, ?_⟩, ?_, ?_⟩
  · rw [hg]
    exact IntegralType.convert_int32_range c
  · intro r h1 h2 h3
    rw [hg]
    exact IntegralType.convert_int32_unique c r h1 h2 h3
  · rw [hg]
    simp only [IntegralType.convert]
    omega
  · intro t
    rw [hg]
    exact IntegralType.convert_int32_convert t c
  · rw [hg]
    decide
  · rw [hg]
    decide
  · rw [hg]
    decide
  · rw [hg]
    decide

/-! ## The frame counter at the ends of its type -/

theorem IntegralType.convert_range (t : IntegralType) (a : Int) :
    t.minValue ≤ t.convert a ∧ t.convert a ≤ t.maxValue := by
  cases t <;> simp only [IntegralType.convert, IntegralType.minValue, IntegralType.maxValue] <;>
    omega

theorem IntegralType.convert_of_range (t : IntegralType) (a : Int) (h1 : t.minValue ≤ a)
    (h2 : a ≤ t.maxValue) : t.convert a = a := by
  cases t <;>
    simp only [IntegralType.convert, IntegralType.minValue, IntegralType.maxValue] at h1 h2 ⊢ <;>
    omega

theorem IntegralType.convert_add (t : IntegralType) (a k : Int) :
    t.convert (a + k) = t.convert (t.convert a + k) := by
  cases t <;> simp only [IntegralType.convert] <;> omega

theorem IntegralType.convert_maxValue_succ (t : IntegralType) :
    t.convert (t.maxValue + 1) = t.minValue := by
  cases t <;> decide

/-- The member after `k` increments: `k` is added modulo the width of the type; the sum is
exact when it does not pass the largest value. -/
theorem frameCountAs_add (t : IntegralType) (g g2 : Graphics) (k : Int) (hk : 0 ≤ k)
    (h : g2.frame_count_ = g.frame_count_ + k) :
    g2.frameCountAs t = t.convert (g.frameCountAs t + k) ∧
    (g.frameCountAs t + k ≤ t.maxValue → g2.frameCountAs t = g.frameCountAs t + k) := by
  have h1 : g2.frameCountAs t = t.convert (g.frameCountAs t + k) := by
    unfold Graphics.frameCountAs
    rw [h]
    exact IntegralType.convert_add t _ _
  refine ⟨h1, fun hle => ?_⟩
  rw [h1]
  have hr := IntegralType.convert_range t g.frame_count_
  exact IntegralType.convert_of_range t _
    (by unfold Graphics.frameCountAs; linarith [hr.1]) hle

/-- One increment seen through the member of type `t`. -/
theorem frameCountAs_tick (t : IntegralType) (g g2 : Graphics)
    (h : g2.frame_count_ = g.frame_count_ + 1) :
    g2.frameCountAs t = t.convert (g.frameCountAs t + 1) ∧
    (g.frameCountAs t < t.maxValue → g2.frameCountAs t = g.frameCountAs t + 1) ∧
    (g.frameCountAs t = t.maxValue → g2.frameCountAs t = t.minValue) := by
  obtain ⟨h1, h2⟩ := frameCountAs_add t g g2 1 (by decide) h
  refine ⟨h1, fun hlt => h2 (by omega), fun he => ?_⟩
  rw [h1, he]
  exact IntegralType.convert_maxValue_succ t

/-- The states after one tick of `g`: one `Update`, one `FrameProcessInternal`, one iteration
of a fade loop or of the transition loop. -/
theorem tick_frame_count (env : Env) (g g2 : Graphics)
    (h : g2 = Graphics.Update env g ∨ g2 = g.FrameProcessInternal ∨
      (∃ (value : Int → Int) (i : Int), g2 = Graphics.FadeLoop env value 1 i g) ∨
      (∃ (duration : Int) (bm : Option Bitmap) (i : Int),
        g2 = Graphics.TransitionLoop env duration bm 1 i g)) :
    g2.frame_count_ = g.frame_count_ + 1 := by
  rcases h with h | h | ⟨value, i, h⟩ | ⟨duration, bm, i, h⟩
  · rw [h]
    exact (Update_stable env g).1
  · rw [h]
    simp [Graphics.FrameProcessInternal, Graphics.emit]
  · rw [h]
    cases hf : g.frozen_ with
    | true =>
      rw [FadeLoop_frozen_succ env value 0 i g hf]
      have k := (frozenFadeStep_fields env g (value i)).2.2.1
      split_ifs
      · exact k
      · simpa [Graphics.FadeLoop] using k
    | false =>
      have k := (FadeLoop_stable env value 1 i g).2.2.1 hf
      simpa using k
  · rw [h, TransitionLoop_succ env duration bm 0 i g]
    have k := (transitionStep_fields env g i duration bm).2.2.2.1
    split_ifs
    · exact k
    · simpa [Graphics.TransitionLoop] using k

/-- C19, counterexample: after `SetFrameCount(2147483647)` the count read is 2147483647; one
`Update` later it is -2147483648, which is neither one more nor at least as large. The same
happens to a 64-bit member at `2 ^ 63 - 1`. -/
theorem frame_count_wrap_counterexample :
    (∀ c, Graphics.Op.Update ≠ Graphics.Op.SetFrameCount c) ∧
    (Graphics.start.SetFrameCount 2147483647).GetFrameCount = 2147483647 ∧
    (Graphics.run Env.quiet (Graphics.start.SetFrameCount 2147483647)
      Graphics.Op.Update).GetFrameCount = -2147483648 ∧
    (Graphics.run Env.quiet (Graphics.start.SetFrameCount 2147483647)
      Graphics.Op.Update).GetFrameCount <
        (Graphics.start.SetFrameCount 2147483647).GetFrameCount ∧
    (Graphics.start.SetFrameCount (2 ^ 63 - 1)).frameCountAs IntegralType.int64 =
      2 ^ 63 - 1 ∧
    (Graphics.run Env.quiet (Graphics.start.SetFrameCount (2 ^ 63 - 1))
      Graphics.Op.Update).frameCountAs IntegralType.int64 = -2 ^ 63 := by
  refine ⟨fun _ h => Graphics.Op.noConfusion h, by decide, by decide, by decide, by decide,
    by decide⟩

/-- C19, amended: every tick (an `Update` in any of its paths, one iteration of a fade loop or
of the transition loop) adds one to the frame counter modulo the width of its type: the member
goes from `n` to `n + 1` below the largest value of the type and wraps around to the smallest
value at the largest; the count read with `GetFrameCount` goes from `n` to `n + 1` below
`2 ^ 31 - 1` and from `2 ^ 31 - 1` to `-2 ^ 31`. An operation other than `SetFrameCount` runs
some number `k ≥ 0` of ticks and adds `k` modulo the width; it does not make the counter
smaller as long as the counter plus `k` does not pass the largest value. -/
theorem frame_count_ticks_modulo (env : Env) (g : Graphics) (op : Graphics.Op)
    (t : IntegralType) (hop : ∀ c, op ≠ Graphics.Op.SetFrameCount c) :
    (∀ g2 : Graphics,
      (g2 = Graphics.Update env g ∨ g2 = g.FrameProcessInternal ∨
        (∃ (value : Int → Int) (i : Int), g2 = Graphics.FadeLoop env value 1 i g) ∨
        (∃ (duration : Int) (bm : Option Bitmap) (i : Int),
          g2 = Graphics.TransitionLoop env duration bm 1 i g)) →
      g2.frameCountAs t = t.convert (g.frameCountAs t + 1) ∧
      (g.frameCountAs t < t.maxValue → g2.frameCountAs t = g.frameCountAs t + 1) ∧
      (g.frameCountAs t = t.maxValue → g2.frameCountAs t = t.minValue) ∧
      g2.GetFrameCount = IntegralType.int32.convert (g.GetFrameCount + 1) ∧
      (g.GetFrameCount < 2 ^ 31 - 1 → g2.GetFrameCount = g.GetFrameCount + 1) ∧
      (g.GetFrameCount = 2 ^ 31 - 1 → g2.GetFrameCount = -2 ^ 31)) ∧
    0 ≤ (Graphics.run env g op).frame_count_ - g.frame_count_ ∧
    (Graphics.run env g op).frameCountAs t =
      t.convert (g.frameCountAs t + ((Graphics.run env g op).frame_count_ - g.frame_count_)) ∧
    (g.frameCountAs t + ((Graphics.run env g op).frame_count_ - g.frame_count_) ≤ t.maxValue →
      (Graphics.run env g op).frameCountAs t =
        g.frameCountAs t + ((Graphics.run env g op).frame_count_ - g.frame_count_) ∧
      g.frameCountAs t ≤ (Graphics.run env g op).frameCountAs t) ∧
    (g.GetFrameCount + ((Graphics.run env g op).frame_count_ - g.frame_count_) ≤ 2 ^ 31 - 1 →
      (Graphics.run env g op).GetFrameCount =
        g.GetFrameCount + ((Graphics.run env g op).frame_count_ - g.frame_count_) ∧
      g.GetFrameCount ≤ (Graphics.run env g op).GetFrameCount) := by
  have hk : 0 ≤ (Graphics.run env g op).frame_count_ - g.frame_count_ := by
    have := (run_stable env g op).2.2 hop
    omega
  have hrun : (Graphics.run env g op).frame_count_ =
      g.frame_count_ + ((Graphics.run env g op).frame_count_ - g.frame_count_) := by ring
  refine ⟨?_, hk, ?_, ?_, ?_⟩
  · intro g2 h
    have hc := tick_frame_count env g g2 h
    obtain ⟨a1, a2, a3⟩ := frameCountAs_tick t g g2 hc
    obtain ⟨b1, b2, b3⟩ := frameCountAs_tick IntegralType.int32 g g2 hc
    exact ⟨a1, a2, a3, b1, b2, b3⟩
  · exact (frameCountAs_add t g _ _ hk hrun).1
  · intro hle
    have := (frameCountAs_add t g _ _ hk hrun).2 hle
    exact ⟨this, by omega⟩
  · intro hle
    have := (frameCountAs_add IntegralType.int32 g _ _ hk hrun).2 hle
    exact ⟨this, by
      have e : (Graphics.run env g op).GetFrameCount =
        (Graphics.run env g op).frameCountAs IntegralType.int32 := rfl
      have e2 : g.GetFrameCount = g.frameCountAs IntegralType.int32 := rfl
      omega⟩

/-- Witness of C19: a transition of four frames on a frozen compositor moves the count read
from 0 to 4; one `Update` at 2147483647 moves a 64-bit member to 2147483648 and the count read
to -2147483648. -/
theorem frame_count_ticks_modulo_witness :
    (∀ c, Graphics.Op.Transition 4 none 40 ≠ Graphics.Op.SetFrameCount c) ∧
    (Graphics.run Env.quiet Graphics.startFrozen
      (Graphics.Op.Transition 4 none 40)).GetFrameCount = 4 ∧
    Graphics.startFrozen.GetFrameCount ≤
      (Graphics.run Env.quiet Graphics.startFrozen
        (Graphics.Op.Transition 4 none 40)).GetFrameCount ∧
    (Graphics.Update Env.quiet (Graphics.start.SetFrameCount 2147483647)).frameCountAs
      IntegralType.int64 = 2147483648 ∧
    (Graphics.Update Env.quiet (Graphics.start.SetFrameCount 2147483647)).GetFrameCount =
      -2 ^ 31 := by
  have h := frame_count_ticks_modulo Env.quiet Graphics.startFrozen
    (Graphics.Op.Transition 4 none 40) IntegralType.int32
    (fun _ k => Graphics.Op.noConfusion k)
  have k := (frame_count_ticks_modulo Env.quiet (Graphics.start.SetFrameCount 2147483647)
    Graphics.Op.Update IntegralType.int64 (fun _ k => Graphics.Op.noConfusion k)).1
    (Graphics.Update Env.quiet (Graphics.start.SetFrameCount 2147483647)) (Or.inl rfl)
  refine ⟨fun _ k => Graphics.Op.noConfusion k, by decide, (h.2.2.2.2 (by decide)).2, ?_,
    k.2.2.2.2.2 (by decide)⟩
  rw [k.2.1 (by decide)]
  decide

end content
